import Mathlib

/-!
# Pound GUI shell: menu / panel composition engine

A shallow embedding of `src/gui/GUIManager.h` and `src/gui/GUIManager.cpp`
(namespace `Pound::GUI`), followed by theorems about panel registration, the
derived "View" menu, the toggle callbacks and the placement of top-level menus.

Conventions of the embedding:

* a `std::shared_ptr<Panel>` / `std::weak_ptr<Panel>` is the identity of a panel
  object (`PanelPtr`); the objects themselves live in `GUIManager.heap`;
* a `TabBar*` is `Option Nat`: `none` is `nullptr`, `some i` is the bar owned by
  `m_tab_bars[i]` (bars are held by `unique_ptr` and never removed, so the index
  is as stable as the address);
* a `bool*` is a `BoolPtr`; `std::unordered_map` never relocates its nodes and
  `erase` destroys them, so the address of `panel_visibility_states[k]` is the key
  `k` together with the number of nodes of that key destroyed before; a pointer
  to a destroyed node designates nothing, also after the key has been inserted
  again;
* a `std::function` built by the manager is a constructor of `CheckedCallback`
  holding exactly the captured variables; one supplied by the caller is a handle.
-/

namespace Pound.GUI

/-! ## Data model -/

/-- Modelled from the spec: the Panel capability contract, whose declaration
`Panel.h` is not among the sources. A panel has a name fixed at construction
(`Panel("Controller")` in `ControllerPanel.cpp`) and a mutable `visible` flag
(read by `ControllerPanel::Render`). -/
structure Panel where
  name : String
  visible : Bool
deriving DecidableEq

/-- The accessor `GetName()` of the Panel capability. -/
def Panel.GetName (p : Panel) : String := p.name

/-- The accessor `IsVisible()` of the Panel capability. -/
def Panel.IsVisible (p : Panel) : Bool := p.visible

/-- The mutator `SetVisible(bool)` of the Panel capability. -/
def Panel.SetVisible (p : Panel) (v : Bool) : Panel := { p with visible := v }

/-- Identity of a panel object, as carried by `shared_ptr` and `weak_ptr`. An identity
stands for one object for good: it is not handed out again after the object has
been destroyed. -/
abbrev PanelPtr := Nat

/-- A `bool*` stored in `TabItem::p_selected`. -/
inductive BoolPtr where
  /-- The address of a node of `panel_visibility_states`: the node of `key` inserted
  after `node` earlier nodes of that key had been destroyed by `erase`. -/
  | table (key : String) (node : Nat)
  /-- The address of a boolean owned by the caller of `AddSubTab`. -/
  | external (addr : Nat)
deriving DecidableEq

/-- A non-empty `std::function<void(bool)>` stored in `TabItem::checked_callback`. -/
inductive CheckedCallback where
  /-- The lambda `[this, weak_panel](bool checked)` built in `UpdateViewMenu`. -/
  | viewToggle (weak_panel : PanelPtr)
  /-- The lambda `[this, panel_name](bool checked)` built in `AddPanelTab`. -/
  | panelToggle (panel_name : String)
  /-- A function object handed in by the caller of `AddSubTab`. -/
  | caller (handle : Nat)
deriving DecidableEq

/-- The struct `TabItem` of `GUIManager.h`, with its default member values. -/
structure TabItem where
  name : String := ""
  shortcut : String := ""
  p_selected : Option BoolPtr := none
  render_callback : Option Nat := none
  checked_callback : Option CheckedCallback := none
  nested_tabs : Option Nat := none
  linked_panel_name : String := ""
deriving DecidableEq

/-- The struct `TabBar` of `GUIManager.h`. -/
structure TabBar where
  id : String := ""
  items : List TabItem := []
deriving DecidableEq

/-- The table `std::unordered_map<std::string, bool>`: at most one cell per key. -/
abbrev VisibilityTable := String → Option Bool

/-- The map's `operator[]`: the cell for `key`, value-initialised to `false` when
the key was absent. -/
def VisibilityTable.index (t : VisibilityTable) (key : String) : VisibilityTable :=
  Function.update t key (some ((t key).getD false))

/-- The assignment `table[key] = value`. -/
def VisibilityTable.assign (t : VisibilityTable) (key : String) (value : Bool) :
    VisibilityTable :=
  Function.update (t.index key) key (some value)

/-- The map's `erase(key)`. -/
def VisibilityTable.erase (t : VisibilityTable) (key : String) : VisibilityTable :=
  Function.update t key none

/-- The number of destroyed nodes per key after the map's `erase(key)`: the node of
`key` is destroyed when there is one. -/
def VisibilityTable.erasedAfter (t : VisibilityTable) (erased : String → Nat) (key : String) :
    String → Nat :=
  if (t key).isSome then Function.update erased key (erased key + 1) else erased

/-- The class `GUIManager` together with the memory its pointers refer to.

`heap` gives the panel object behind every identity and `outside_refs` lists the
panels to which code outside the manager still holds a `shared_ptr`. A panel
object exists exactly as long as some `shared_ptr` to it does, that is, while it
is in `panels` or in `outside_refs`. `erased_nodes` counts, per key, the nodes of
`panel_visibility_states` that `erase` has destroyed, and `caller_bools` holds the
booleans owned by the callers of `AddSubTab`, by address (`none` where no such
object lives). The remaining fields are the data members of the class (the
`window` member belongs to the excluded window layer). -/
structure GUIManager where
  heap : PanelPtr → Panel
  outside_refs : List PanelPtr
  erased_nodes : String → Nat
  caller_bools : Nat → Option Bool
  panels : List PanelPtr
  m_tab_bars : List TabBar
  panel_visibility_states : VisibilityTable
  view_menu : Option Nat
  running : Bool
  show_demo_window : Bool
  menus_initialized : Bool

/-- The defaulted constructor `GUIManager::GUIManager()`, in a memory `heap` whose
panels listed in `outside_refs` are held by the caller; no table node has been
destroyed and no boolean of a caller is known yet. -/
def GUIManager.new (heap : PanelPtr → Panel) (outside_refs : List PanelPtr) : GUIManager :=
  { heap := heap
    outside_refs := outside_refs
    erased_nodes := fun _ => 0
    caller_bools := fun _ => none
    panels := []
    m_tab_bars := []
    panel_visibility_states := fun _ => none
    view_menu := none
    running := false
    show_demo_window := false
    menus_initialized := false }

/-- Apply `f` to the bar a `TabBar*` points to; a pointer that designates no bar of
`m_tab_bars` leaves the list as it is. -/
def modifyBar (f : TabBar → TabBar) : List TabBar → Nat → List TabBar
  | [], _ => []
  | b :: bs, 0 => f b :: bs
  | b :: bs, n + 1 => b :: modifyBar f bs n

/-- The statement `bar->items.push_back(item)`. -/
def TabBar.push_back (item : TabItem) (b : TabBar) : TabBar :=
  { b with items := b.items ++ [item] }

/-- The statement `bar->items.clear()`. -/
def TabBar.clear (b : TabBar) : TabBar :=
  { b with items := [] }

namespace GUIManager

/-! ## Operations -/

/-- `GUIManager::GetTabBar`: the first bar whose id is `name`, or `nullptr`. -/
def GetTabBar (s : GUIManager) (name : String) : Option Nat :=
  s.m_tab_bars.findIdx? (fun bar => bar.id == name)

/-- `GUIManager::GetPanel`: the first registered panel named `name`, or `nullptr`. -/
def GetPanel (s : GUIManager) (name : String) : Option PanelPtr :=
  s.panels.find? (fun panel => (s.heap panel).GetName == name)

/-- The value computed for the local `insert_pos` in the first block of
`GUIManager::AddTabs`, for a call made with `name`: the local is initialised with
the number of bars and set to 2 in one case. When the block is not entered no
local exists and the number of bars is returned here. -/
def AddTabs.insert_pos (s : GUIManager) (name : String) : Nat :=
  if s.menus_initialized && name != "View" then
    if s.m_tab_bars.length ≥ 2 then
      if (s.m_tab_bars.any (fun bar => bar.id == "View")) && name != "Help" then
        if s.m_tab_bars.length < 3 then 2 else s.m_tab_bars.length
      else s.m_tab_bars.length
    else s.m_tab_bars.length
  else s.m_tab_bars.length

/-- `GUIManager::AddTabs`: the new bar is pushed at the back and a pointer to it is
returned. The local `insert_pos` is computed in a block of its own and is out of
scope at the `push_back`. -/
def AddTabs (s : GUIManager) (name : String) : GUIManager × Nat :=
  ({ s with m_tab_bars := s.m_tab_bars ++ [{ id := name }] }, s.m_tab_bars.length)

/-- `GUIManager::SetupDefaultMenus`. -/
def SetupDefaultMenus (s : GUIManager) : GUIManager :=
  let s1 := (s.AddTabs "File").1
  let s2 := (s1.AddTabs "Emulation").1
  let r := s2.AddTabs "View"
  let s3 := { r.1 with view_menu := some r.2 }
  let s4 := (s3.AddTabs "Help").1
  { s4 with menus_initialized := true }

/-- The pointer `&panel_visibility_states[key]` (the map's `operator[]` is applied
apart): the node of `key` that the table holds now. -/
def cellPtr (s : GUIManager) (key : String) : BoolPtr :=
  BoolPtr.table key (s.erased_nodes key)

/-- The `TabItem new_item` built for `panel` in the loop of
`GUIManager::UpdateViewMenu`, `erased_nodes` telling which node of the table
`&panel_visibility_states[panel->GetName()]` is. -/
def UpdateViewMenu.new_item (heap : PanelPtr → Panel) (erased_nodes : String → Nat)
    (panel : PanelPtr) : TabItem :=
  { name := (heap panel).GetName
    p_selected := some (BoolPtr.table (heap panel).GetName (erased_nodes (heap panel).GetName))
    checked_callback := some (CheckedCallback.viewToggle panel)
    shortcut := "" }

/-- One iteration of the loop of `GUIManager::UpdateViewMenu`, `v` being the bar
`view_menu` points to: taking `&panel_visibility_states[name]` goes through the
map's `operator[]`, then the item is pushed. -/
def UpdateViewMenu.step (v : Nat) (s : GUIManager) (panel : PanelPtr) : GUIManager :=
  { s with
    panel_visibility_states := s.panel_visibility_states.index (s.heap panel).GetName
    m_tab_bars :=
      modifyBar (TabBar.push_back (UpdateViewMenu.new_item s.heap s.erased_nodes panel))
        s.m_tab_bars v }

/-- `GUIManager::UpdateViewMenu`. -/
def UpdateViewMenu (s : GUIManager) : GUIManager :=
  match s.view_menu with
  | none => s
  | some v =>
    s.panels.foldl (UpdateViewMenu.step v)
      { s with m_tab_bars := modifyBar TabBar.clear s.m_tab_bars v }

/-- `GUIManager::AddPanel`. The argument is dereferenced unconditionally, so it is a
non-null pointer; the caller's `shared_ptr` keeps the object alive during the call. -/
def AddPanel (s : GUIManager) (panel : PanelPtr) (_shortcut : String := "") : GUIManager :=
  let s1 := { s with panels := s.panels ++ [panel] }
  let s2 := { s1 with
    panel_visibility_states :=
      s1.panel_visibility_states.assign (s1.heap panel).GetName (s1.heap panel).IsVisible }
  if s2.menus_initialized && s2.view_menu.isSome then s2.UpdateViewMenu else s2

/-- `GUIManager::RemovePanel`. -/
def RemovePanel (s : GUIManager) (name : String) : GUIManager :=
  let s1 := { s with panels := s.panels.filter (fun panel => !((s.heap panel).GetName == name)) }
  let s2 := { s1 with
    panel_visibility_states := s1.panel_visibility_states.erase name
    erased_nodes := s1.panel_visibility_states.erasedAfter s1.erased_nodes name }
  if s2.menus_initialized && s2.view_menu.isSome then s2.UpdateViewMenu else s2

/-- `GUIManager::HandlePanelToggle`. -/
def HandlePanelToggle (s : GUIManager) (panel_name : String) : GUIManager :=
  match s.GetPanel panel_name with
  | some panel =>
    let table := s.panel_visibility_states.index panel_name
    let new_state := (table panel_name).getD false
    { s with
      panel_visibility_states := table
      heap := Function.update s.heap panel ((s.heap panel).SetVisible new_state) }
  | none => s

/-- The `TabItem new_item` built by `GUIManager::AddPanelTab`, `erased_nodes` telling
which node of the table `&panel_visibility_states[panel_name]` is. -/
def AddPanelTab.new_item (erased_nodes : String → Nat) (tab_name panel_name shortcut : String) :
    TabItem :=
  { name := tab_name
    shortcut := shortcut
    linked_panel_name := panel_name
    p_selected := some (BoolPtr.table panel_name (erased_nodes panel_name))
    checked_callback := some (CheckedCallback.panelToggle panel_name) }

/-- `GUIManager::AddPanelTab` taking the panel's name. -/
def AddPanelTab (s : GUIManager) (parent_bar : Option Nat) (tab_name panel_name : String)
    (shortcut : String := "") : GUIManager :=
  match parent_bar with
  | none => s
  | some bar =>
    match s.GetPanel panel_name with
    | none => s
    | some _ =>
      { s with
        panel_visibility_states := s.panel_visibility_states.index panel_name
        m_tab_bars :=
          modifyBar
            (TabBar.push_back (AddPanelTab.new_item s.erased_nodes tab_name panel_name shortcut))
            s.m_tab_bars bar }

/-- `GUIManager::AddPanelTab` taking a `shared_ptr<Panel>` (`none` is a null pointer). -/
def AddPanelTabShared (s : GUIManager) (parent_bar : Option Nat) (tab_name : String)
    (panel : Option PanelPtr) (shortcut : String := "") : GUIManager :=
  match parent_bar, panel with
  | some bar, some p =>
    let s1 := match s.GetPanel (s.heap p).GetName with
      | none => s.AddPanel p
      | some _ => s
    s1.AddPanelTab (some bar) tab_name (s1.heap p).GetName shortcut
  | _, _ => s

/-- `GUIManager::AddSubTab(parent_bar, name, callback)`; `callback` is the handle of
the caller's `std::function<void()>`, `none` when it is empty. -/
def AddSubTab (s : GUIManager) (parent_bar : Option Nat) (name : String)
    (callback : Option Nat) : GUIManager :=
  match parent_bar with
  | none => s
  | some bar =>
    let new_item : TabItem := { name := name, render_callback := callback }
    { s with m_tab_bars := modifyBar (TabBar.push_back new_item) s.m_tab_bars bar }

/-- `GUIManager::AddSubTab(parent_bar, name, shortcut, callback)`. -/
def AddSubTabShortcut (s : GUIManager) (parent_bar : Option Nat) (name shortcut : String)
    (callback : Option Nat) : GUIManager :=
  match parent_bar with
  | none => s
  | some bar =>
    let new_item : TabItem := { name := name, shortcut := shortcut, render_callback := callback }
    { s with m_tab_bars := modifyBar (TabBar.push_back new_item) s.m_tab_bars bar }

/-- `GUIManager::AddSubTab(parent_bar, name, p_selected, callback)`; `callback` is
the handle of the caller's `std::function<void(bool)>`, `none` when it is empty. -/
def AddSubTabChecked (s : GUIManager) (parent_bar : Option Nat) (name : String)
    (p_selected : Option BoolPtr) (callback : Option Nat) : GUIManager :=
  match parent_bar with
  | none => s
  | some bar =>
    let new_item : TabItem :=
      { name := name
        p_selected := p_selected
        checked_callback := callback.map CheckedCallback.caller }
    { s with m_tab_bars := modifyBar (TabBar.push_back new_item) s.m_tab_bars bar }

/-- `GUIManager::AddSubTab(parent_bar, name, p_selected, shortcut, callback)`. -/
def AddSubTabCheckedShortcut (s : GUIManager) (parent_bar : Option Nat) (name : String)
    (p_selected : Option BoolPtr) (shortcut : String) (callback : Option Nat) : GUIManager :=
  match parent_bar with
  | none => s
  | some bar =>
    let new_item : TabItem :=
      { name := name
        shortcut := shortcut
        p_selected := p_selected
        checked_callback := callback.map CheckedCallback.caller }
    { s with m_tab_bars := modifyBar (TabBar.push_back new_item) s.m_tab_bars bar }

/-! ## Callbacks -/

/-- `weak_panel.lock()`: the panel if some `shared_ptr` to it still exists, a null
pointer once the object has been destroyed. -/
def lock (s : GUIManager) (weak_panel : PanelPtr) : Option PanelPtr :=
  if weak_panel ∈ s.panels ∨ weak_panel ∈ s.outside_refs then some weak_panel else none

/-- Body of the lambda stored as `checked_callback` by `UpdateViewMenu`. -/
def viewToggle (s : GUIManager) (weak_panel : PanelPtr) (checked : Bool) : GUIManager :=
  match s.lock weak_panel with
  | some panel =>
    let heap := Function.update s.heap panel ((s.heap panel).SetVisible checked)
    { s with
      heap := heap
      panel_visibility_states := s.panel_visibility_states.assign (heap panel).GetName checked }
  | none => s

/-- Body of the lambda stored as `checked_callback` by `AddPanelTab`; the argument
`checked` is not used by it. -/
def panelToggle (s : GUIManager) (panel_name : String) (_checked : Bool) : GUIManager :=
  s.HandlePanelToggle panel_name

/-- The call `item.checked_callback(checked)`. The two closures built by the
manager run their bodies; what a closure supplied by the caller does is not
determined by the manager, so no result is given for it. -/
def invoke (s : GUIManager) (cb : CheckedCallback) (checked : Bool) : Option GUIManager :=
  match cb with
  | CheckedCallback.viewToggle weak_panel => some (s.viewToggle weak_panel checked)
  | CheckedCallback.panelToggle panel_name => some (s.panelToggle panel_name checked)
  | CheckedCallback.caller _ => none

/-! ## Observations -/

/-- The items of the bar `view_menu` points to (none when it is null). -/
def viewItems (s : GUIManager) : List TabItem :=
  match s.view_menu with
  | none => []
  | some v => ((s.m_tab_bars[v]?).map (fun bar => bar.items)).getD []

/-- The value read through a `bool*`; `none` when the pointer designates no live
object: a node of the table that `erase` has destroyed (or that was never
inserted), or an address at which no boolean of a caller lives. -/
def deref (s : GUIManager) : BoolPtr → Option Bool
  | BoolPtr.table key node =>
    if s.erased_nodes key = node then s.panel_visibility_states key else none
  | BoolPtr.external addr => s.caller_bools addr

/-- The assignment `*ptr = value` through a `bool*` that designates a live object. -/
def store (s : GUIManager) (ptr : BoolPtr) (value : Bool) : GUIManager :=
  match ptr with
  | BoolPtr.table key _ =>
    { s with panel_visibility_states := Function.update s.panel_visibility_states key (some value) }
  | BoolPtr.external addr =>
    { s with caller_bools := Function.update s.caller_bools addr (some value) }

/-- `panel->IsVisible()` for the panel object behind `panel`. -/
def IsVisible (s : GUIManager) (panel : PanelPtr) : Bool := (s.heap panel).IsVisible

/-- `panel->GetName()` for the panel object behind `panel`. -/
def nameOf (s : GUIManager) (panel : PanelPtr) : String := (s.heap panel).GetName

/-- A step of a registration script: `AddPanel(panel)` or `RemovePanel(name)`. -/
inductive Op where
  | add (panel : PanelPtr)
  | remove (name : String)
deriving DecidableEq

/-- Perform one registration step. -/
def Op.apply (s : GUIManager) : Op → GUIManager
  | Op.add panel => s.AddPanel panel
  | Op.remove name => s.RemovePanel name

/-- Perform a script of registration steps from left to right. -/
def runOps (s : GUIManager) (ops : List Op) : GUIManager :=
  ops.foldl Op.apply s

/-- The shell has been initialised: `menus_initialized` is set and `view_menu`
points to a bar owned by `m_tab_bars`. -/
def Initialized (s : GUIManager) : Prop :=
  s.menus_initialized = true ∧ ∃ v, s.view_menu = some v ∧ v < s.m_tab_bars.length

end GUIManager

/-- A memory with two panels named "a" (panel 0 shown, panel 1 hidden); every other
identity is a hidden panel named "b". -/
def sampleHeap : PanelPtr → Panel
  | 0 => { name := "a", visible := true }
  | 1 => { name := "a", visible := false }
  | _ => { name := "b", visible := false }

/-- A shell right after construction and default menu setup, no panel being held
by the caller. -/
def sampleShell : GUIManager :=
  (GUIManager.new sampleHeap []).SetupDefaultMenus

/-- The shell after panel 2 (named "b", hidden) has been registered and bound to a
second item, "Panel B", in the File menu. -/
def sampleBound : GUIManager :=
  (sampleShell.AddPanel 2).AddPanelTab (some 0) "Panel B" "b"

/-- The shell after panel 2, which no code outside the manager holds, has been
registered and removed again. -/
def sampleRemoved : GUIManager :=
  (sampleShell.AddPanel 2).RemovePanel "b"

/-- A run of `AddTabs` calls, one per name, the returned handles being dropped. -/
def GUIManager.addGroups (s : GUIManager) (names : List String) : GUIManager :=
  names.foldl (fun acc name => (acc.AddTabs name).1) s

/-! ## Predicates used in the statements -/

/-- The table after the map's `operator[]` has been applied for every name of a list. -/
def indexAll (t : VisibilityTable) (names : List String) : VisibilityTable :=
  names.foldl VisibilityTable.index t

namespace GUIManager

/-- The View bar mirrors the panel collection: item `i` is the item built by
`UpdateViewMenu` for panel `i`. -/
def ViewSynced (s : GUIManager) : Prop :=
  s.viewItems = s.panels.map (UpdateViewMenu.new_item s.heap s.erased_nodes)

/-- The panel registered last under the name `k`, if any. -/
def lastNamed (s : GUIManager) (k : String) : Option PanelPtr :=
  (s.panels.filter (fun p => (s.heap p).GetName == k)).getLast?

/-- The visibility table is up to date: it has a cell exactly for the names of the
registered panels, holding the visibility of the panel registered last under
that name. -/
def TableTracksPanels (s : GUIManager) : Prop :=
  ∀ k, s.panel_visibility_states k = (s.lastNamed k).map (fun p => (s.heap p).IsVisible)

/-- The key set of the visibility table is the set of names of the registered
panels. -/
def KeysAreNames (s : GUIManager) : Prop :=
  ∀ k, s.panel_visibility_states k ≠ none ↔ ∃ p ∈ s.panels, s.nameOf p = k

/-- C2 as stated, for one state: every View item is bound to the table cell keyed by
the name of its panel (item `i` belongs to panel `i`), and that cell holds the
panel's current visibility. -/
def ViewCellsShowVisibility (s : GUIManager) : Prop :=
  ∀ (i : Nat) (item : TabItem) (p : PanelPtr),
    s.viewItems[i]? = some item → s.panels[i]? = some p →
      item.p_selected = some (s.cellPtr (s.nameOf p)) ∧
      s.deref (s.cellPtr (s.nameOf p)) = some (s.IsVisible p)

end GUIManager

namespace GUIManager

/-- The names of the top-level groups, in menu-bar order. -/
def groupNames (s : GUIManager) : List String :=
  s.m_tab_bars.map (fun bar => bar.id)

end GUIManager

/-- The number of shapes an item has populated, among: the action callback; the
toggle callback together with its state cell; the nested group. -/
def TabItem.shapeCount (it : TabItem) : Nat :=
  (if it.render_callback.isSome then 1 else 0)
    + (if it.checked_callback.isSome && it.p_selected.isSome then 1 else 0)
    + (if it.nested_tabs.isSome then 1 else 0)

/-- The item pushed last to the bar a handle designates. -/
def GUIManager.lastItem (s : GUIManager) (bar : Nat) : Option TabItem :=
  (s.m_tab_bars[bar]?).bind (fun b => b.items.getLast?)

/-! ## Menu traversal -/

/-- The answers of the immediate-mode UI library during one traversal, the items
being identified by their path from the menu bar (index of the top-level group,
then item indices). -/
structure MenuUI where
  /-- The result of `ImGui::BeginMenu` for the group or sub-menu at a path. -/
  menu_open : List Nat → Bool
  /-- The result of `ImGui::MenuItem` for the item at a path. -/
  clicked : List Nat → Bool

/-- A callback call made by `RenderTabBarContents`. -/
inductive RenderCall where
  /-- The call `item.checked_callback(*item.p_selected)`, with the value passed. -/
  | checked (cb : CheckedCallback) (value : Bool)
  /-- The call `item.render_callback()`. -/
  | render (handle : Nat)
deriving DecidableEq

/-- How a traversal of the menu tree ends. -/
inductive Rendered where
  /-- The traversal returns: the state afterwards and the callback calls made, in
  order. -/
  | returned (s : GUIManager) (calls : List RenderCall)
  /-- The traversal reads or writes through a pointer that designates no live object:
  the behaviour of the program is undefined from there on. -/
  | undefined
  /-- The traversal goes deeper than the bound on the recursion depth. -/
  | depthExceeded

/-- The callback calls of a traversal that returns. -/
def Rendered.calls : Rendered → Option (List RenderCall)
  | Rendered.returned _ calls => some calls
  | _ => none

/-- The state after a traversal that returns. -/
def Rendered.state : Rendered → Option GUIManager
  | Rendered.returned s _ => some s
  | _ => none

/-- The traversal ends in undefined behaviour. -/
def Rendered.isUndefined : Rendered → Bool
  | Rendered.undefined => true
  | _ => false

/-- The traversal goes deeper than the bound. -/
def Rendered.isDepthExceeded : Rendered → Bool
  | Rendered.depthExceeded => true
  | _ => false

namespace GUIManager

/-- The call `ImGui::MenuItem(label, shortcut, p_selected)` of the UI library, whose
result is `activated`: the library reads `*p_selected` for the check mark of the
item and, when the item is activated, stores the negated value; a null
`p_selected` is not dereferenced. No state is given when `p_selected` designates
no live boolean. -/
def MenuItem (s : GUIManager) (activated : Bool) : Option BoolPtr → Option GUIManager
  | none => some s
  | some ptr =>
    match s.deref ptr with
    | some value => some (if activated then s.store ptr (!value) else s)
    | none => none

/-- The state after the call `item.checked_callback(checked)` made by the traversal. A
closure supplied by a caller is taken to leave the manager, the panels and the
booleans as they are. -/
def call (s : GUIManager) (cb : CheckedCallback) (checked : Bool) : GUIManager :=
  (s.invoke cb checked).getD s

end GUIManager

/-- The `else` branch of the loop body of `RenderTabBarContents`: an item without
nested group. -/
def renderLeaf (ui : MenuUI) (path : List Nat) (item : TabItem) (s : GUIManager) : Rendered :=
  if !(item.linked_panel_name == "") || item.p_selected.isSome then
    match s.MenuItem (ui.clicked path) item.p_selected with
    | some s1 =>
      if ui.clicked path then
        match item.checked_callback with
        | some cb =>
          match item.p_selected.bind s1.deref with
          | some value => Rendered.returned (s1.call cb value) [RenderCall.checked cb value]
          | none => Rendered.undefined
        | none => Rendered.returned s1 []
      else Rendered.returned s1 []
    | none => Rendered.undefined
  else
    if ui.clicked path then
      match item.render_callback with
      | some handle => Rendered.returned s [RenderCall.render handle]
      | none => Rendered.returned s []
    else Rendered.returned s []

/-- The loop of `RenderTabBarContents` over the items from position `k` on, `recurse`
being the recursive call. The closures the manager builds leave every `items`
vector as it is, so the loop goes over the items found at its start. -/
def renderItems (recurse : List Nat → TabBar → GUIManager → Rendered) (ui : MenuUI)
    (path : List Nat) : Nat → List TabItem → GUIManager → Rendered
  | _, [], s => Rendered.returned s []
  | k, item :: rest, s =>
    let here : Rendered :=
      match item.nested_tabs with
      | some t =>
        if ui.menu_open (path ++ [k]) then
          match s.m_tab_bars[t]? with
          | some nested => recurse (path ++ [k]) nested s
          | none => Rendered.undefined
        else Rendered.returned s []
      | none => renderLeaf ui (path ++ [k]) item s
    match here with
    | Rendered.returned s1 calls =>
      match renderItems recurse ui path (k + 1) rest s1 with
      | Rendered.returned s2 more => Rendered.returned s2 (calls ++ more)
      | other => other
    | other => other

/-- `GUIManager::RenderTabBarContents`. The first argument bounds the depth of the
recursion. -/
def RenderTabBarContents (ui : MenuUI) : Nat → List Nat → TabBar → GUIManager → Rendered
  | 0, _, _, _ => Rendered.depthExceeded
  | depth + 1, path, bar, s =>
    renderItems (RenderTabBarContents ui depth) ui path 0 bar.items s

/-- The loop of `GUIManager::RenderTabBars` over the groups from position `k` on. -/
def renderBars (ui : MenuUI) (depth : Nat) : Nat → List TabBar → GUIManager → Rendered
  | _, [], s => Rendered.returned s []
  | k, bar :: rest, s =>
    let here : Rendered :=
      if ui.menu_open [k] then RenderTabBarContents ui depth [k] bar s
      else Rendered.returned s []
    match here with
    | Rendered.returned s1 calls =>
      match renderBars ui depth (k + 1) rest s1 with
      | Rendered.returned s2 more => Rendered.returned s2 (calls ++ more)
      | other => other
    | other => other

/-- `GUIManager::RenderTabBars` (inside an open main menu bar). -/
def GUIManager.RenderTabBars (s : GUIManager) (ui : MenuUI) (depth : Nat) : Rendered :=
  renderBars ui depth 0 s.m_tab_bars s

/-- A menu tree as no operation of the manager builds it: the only item of the only
group has that very group as its nested group. -/
def cyclicBars : List TabBar :=
  [{ id := "Loop", items := [{ name := "again", nested_tabs := some 0 }] }]

/-- The UI in which every menu is open and nothing is clicked. -/
def allOpen : MenuUI :=
  { menu_open := fun _ => true, clicked := fun _ => false }

/-- The UI in which every menu is open and every item is clicked. -/
def allClicked : MenuUI :=
  { menu_open := fun _ => true, clicked := fun _ => true }

/-! ## Reachable states -/

/-- An item as the operations of the manager build it: it has no nested group, and
it has a state cell when it is linked to a panel. -/
def TabItem.WellBuilt (it : TabItem) : Prop :=
  it.nested_tabs = none ∧ (it.linked_panel_name ≠ "" → it.p_selected ≠ none)

namespace GUIManager

/-- No item of the menu tree has a nested group. -/
def NoNested (s : GUIManager) : Prop :=
  ∀ bar ∈ s.m_tab_bars, ∀ item ∈ bar.items, item.nested_tabs = none

/-- Every closure built by `UpdateViewMenu` that is in the menu tree sits in the
group `view_menu` points to, on an initialised shell, and captures a registered
panel. -/
def ViewClosuresRegistered (s : GUIManager) : Prop :=
  ∀ (i : Nat) (bar : TabBar) (item : TabItem) (p : PanelPtr),
    s.m_tab_bars[i]? = some bar → item ∈ bar.items →
    item.checked_callback = some (CheckedCallback.viewToggle p) →
      p ∈ s.panels ∧ s.view_menu = some i ∧ s.menus_initialized = true

/-- The properties shared by all reachable states. -/
def WellFormed (s : GUIManager) : Prop :=
  s.KeysAreNames ∧ s.ViewClosuresRegistered ∧ s.NoNested

/-- The states a shell goes through: construction, the default menu setup (run once,
by `Initialize`), the public menu and panel operations, `HandlePanelToggle`, the
toggle callbacks of the items in the menu tree, and what code outside the
manager does to the panels it shares (`SetVisible`, keeping or dropping a
`shared_ptr` to a live panel) and to the booleans it owns, and what the UI library
writes through the state-cell pointer of an item in the menu tree. -/
inductive Reachable : GUIManager → Prop where
  | new (heap : PanelPtr → Panel) (outside_refs : List PanelPtr) :
      Reachable (GUIManager.new heap outside_refs)
  | setup (s : GUIManager) : Reachable s → s.menus_initialized = false →
      Reachable s.SetupDefaultMenus
  | addTabs (s : GUIManager) (name : String) : Reachable s → Reachable (s.AddTabs name).1
  | addPanel (s : GUIManager) (p : PanelPtr) (sc : String) : Reachable s →
      Reachable (s.AddPanel p sc)
  | removePanel (s : GUIManager) (name : String) : Reachable s →
      Reachable (s.RemovePanel name)
  | addPanelTab (s : GUIManager) (bar : Option Nat) (tab name sc : String) : Reachable s →
      Reachable (s.AddPanelTab bar tab name sc)
  | addPanelTabShared (s : GUIManager) (bar : Option Nat) (tab : String)
      (panel : Option PanelPtr) (sc : String) : Reachable s →
      Reachable (s.AddPanelTabShared bar tab panel sc)
  | addSubTab (s : GUIManager) (bar : Option Nat) (name : String) (cb : Option Nat) :
      Reachable s → Reachable (s.AddSubTab bar name cb)
  | addSubTabShortcut (s : GUIManager) (bar : Option Nat) (name sc : String)
      (cb : Option Nat) : Reachable s → Reachable (s.AddSubTabShortcut bar name sc cb)
  | addSubTabChecked (s : GUIManager) (bar : Option Nat) (name : String)
      (sel : Option BoolPtr) (cb : Option Nat) : Reachable s →
      Reachable (s.AddSubTabChecked bar name sel cb)
  | addSubTabCheckedShortcut (s : GUIManager) (bar : Option Nat) (name : String)
      (sel : Option BoolPtr) (sc : String) (cb : Option Nat) : Reachable s →
      Reachable (s.AddSubTabCheckedShortcut bar name sel sc cb)
  | handlePanelToggle (s : GUIManager) (name : String) : Reachable s →
      Reachable (s.HandlePanelToggle name)
  | callback (s : GUIManager) (bar : TabBar) (item : TabItem) (cb : CheckedCallback)
      (b : Bool) (s' : GUIManager) : Reachable s → bar ∈ s.m_tab_bars → item ∈ bar.items →
      item.checked_callback = some cb → s.invoke cb b = some s' → Reachable s'
  | setVisible (s : GUIManager) (p : PanelPtr) (v : Bool) : Reachable s →
      Reachable { s with heap := Function.update s.heap p ((s.heap p).SetVisible v) }
  | outside (s : GUIManager) (refs : List PanelPtr) : Reachable s →
      (∀ p ∈ refs, s.lock p = some p) → Reachable { s with outside_refs := refs }
  | callerMemory (s : GUIManager) (bools : Nat → Option Bool) : Reachable s →
      Reachable { s with caller_bools := bools }
  | menuItem (s : GUIManager) (bar : TabBar) (item : TabItem) (activated : Bool)
      (s' : GUIManager) : Reachable s → bar ∈ s.m_tab_bars → item ∈ bar.items →
      s.MenuItem activated item.p_selected = some s' → Reachable s'

/-- The menu tree has no item that no operation of the manager builds. -/
def AllBuilt (s : GUIManager) : Prop :=
  ∀ bar ∈ s.m_tab_bars, ∀ item ∈ bar.items, item.WellBuilt

/-- Every state-cell pointer in the menu tree designates a live boolean. -/
def CellsLive (s : GUIManager) : Prop :=
  ∀ bar ∈ s.m_tab_bars, ∀ item ∈ bar.items, ∀ ptr, item.p_selected = some ptr →
    s.deref ptr ≠ none

/-- Every boolean that is live in `s` is live in `s'`. -/
def KeepsLive (s s' : GUIManager) : Prop :=
  ∀ ptr, s.deref ptr ≠ none → s'.deref ptr ≠ none

end GUIManager

/-- The shell after panel 2, bound to the item "Panel B" of the File menu, has been
removed: the item is still in the File menu. -/
def sampleDangling : GUIManager :=
  sampleBound.RemovePanel "b"

/-- The shell after panel 2 has been removed, registered again and bound to a second
item of the File menu, "Panel B again". -/
def sampleRebound : GUIManager :=
  (sampleDangling.AddPanel 2).AddPanelTab (some 0) "Panel B again" "b"

/-! ## Binary32 arithmetic

A `float` is the rational number it stands for; every operation gives the exact
result rounded to the nearest binary32 number, ties to even (IEEE 754, 24
significant bits, smallest exponent -126), and each operation of an expression
is rounded on its own: no fused multiply-add and no wider intermediate format.
Infinities and NaN are not represented: the statements about computed values
keep every value below `2^122` in magnitude. -/

/-- A `float` value. -/
structure F32 where
  val : ℚ
deriving DecidableEq

namespace F32

/-- The integer nearest to `x`, the even one of the two when `x` is half-way. -/
def roundHalfEven (x : ℚ) : Int :=
  if x - ⌊x⌋ < 1 / 2 then ⌊x⌋
  else if 1 / 2 < x - ⌊x⌋ then ⌊x⌋ + 1
  else if ⌊x⌋ % 2 = 0 then ⌊x⌋ else ⌊x⌋ + 1

/-- The binary exponent of `q` in binary32: `⌊log₂ |q|⌋`, and -126 throughout the
subnormal range. -/
def exponent (q : ℚ) : Int := max (Int.log 2 |q|) (-126)

/-- The spacing of the binary32 numbers in the binade of `q`. -/
def ulp (q : ℚ) : ℚ := 2 ^ (exponent q - 23)

/-- The binary32 number nearest to `q`, ties to even. -/
def round (q : ℚ) : ℚ := roundHalfEven (q / ulp q) * ulp q

/-- The `float` addition. -/
@[irreducible] def add (a b : F32) : F32 := ⟨round (a.val + b.val)⟩

/-- The `float` subtraction. -/
@[irreducible] def sub (a b : F32) : F32 := ⟨round (a.val - b.val)⟩

/-- The `float` multiplication. -/
@[irreducible] def mul (a b : F32) : F32 := ⟨round (a.val * b.val)⟩

/-- The `float` division. -/
@[irreducible] def div (a b : F32) : F32 := ⟨round (a.val / b.val)⟩

/-- An integer constant converted to `float`. -/
@[irreducible] def ofNat (n : Nat) : F32 := ⟨round n⟩

instance : Add F32 := ⟨add⟩

instance : Sub F32 := ⟨sub⟩

instance : Mul F32 := ⟨mul⟩

instance : Div F32 := ⟨div⟩

instance (n : Nat) : OfNat F32 n := ⟨ofNat n⟩

end F32

/-! ## Controller overlay (`src/gui/panels/ControllerPanel.h`, `ControllerPanel.cpp`)

The `float` members of the panel and the arithmetic of the stick block are taken
over an arbitrary linearly ordered field `K` (exact arithmetic; the rationals for
evaluation, the reals for the statements about `std::sqrt`). The positions and
sizes of the invisible buttons (`hitRects`) are computed in binary32, operation by
operation as the source writes them. -/

/-- The struct `ControllerPanel::ButtonInfo`; `callback` is the handle of the
caller's `std::function<void(bool)>`, `none` when it is empty. -/
structure ButtonInfo where
  name : String := ""
  pressed : Bool := false
  callback : Option Nat := none
deriving DecidableEq

/-- The struct `ControllerPanel::StickInfo`. -/
structure StickInfo (K : Type) where
  name : String
  x : K
  y : K
  callback : Option Nat
deriving DecidableEq

/-- A value-initialised `StickInfo`, as the map's `operator[]` creates it. -/
def StickInfo.empty (K : Type) [LinearOrderedField K] : StickInfo K :=
  { name := "", x := 0, y := 0, callback := none }

/-- A call `button.callback(new_state)` made during a frame. -/
structure ButtonCall where
  handle : Nat
  new_state : Bool
deriving DecidableEq

/-- The class `ControllerPanel`: the members `name` and `visible` of its base
`Panel` and its own data members. -/
structure ControllerPanel (K : Type) where
  name : String
  visible : Bool
  buttons : String → Option ButtonInfo
  sticks : String → Option (StickInfo K)
  controller_scale : K
  show_button_labels : Bool
  highlight_pressed : Bool

/-- The helper `HandleButtonInteraction`. `new_state` is what `ImGui::IsItemActive()`
returns for the invisible button the helper has just placed; the result is the
button afterwards and the callback calls made. -/
def HandleButtonInteraction (new_state : Bool) (button : ButtonInfo) :
    ButtonInfo × List ButtonCall :=
  if new_state != button.pressed then
    ({ button with pressed := new_state },
      match button.callback with
      | some handle => [{ handle := handle, new_state := new_state }]
      | none => [])
  else (button, [])

/-- The stick block of `RenderController` (the same statements are written once for
"l-stick" and once for "r-stick"): `active` is `ImGui::IsItemActive()` for the
stick's invisible button, `mouse_delta` is `ImGui::GetMouseDragDelta(0, 0.0f)`
and `sqrt` is `std::sqrt`. -/
def RenderController.stick {K : Type} [LinearOrderedField K] (sqrt : K → K) (active : Bool)
    (mouse_delta : K × K) (stick_base_radius : K) (stick : StickInfo K) : StickInfo K :=
  if active then
    let max_dist := stick_base_radius * (7 / 10)
    let current_dist := sqrt (mouse_delta.1 * mouse_delta.1 + mouse_delta.2 * mouse_delta.2)
    let clamped : K × K :=
      if current_dist > max_dist then
        ((mouse_delta.1 / current_dist) * max_dist, (mouse_delta.2 / current_dist) * max_dist)
      else mouse_delta
    { stick with x := clamped.1 / max_dist, y := (-clamped.2) / max_dist }
  else
    if stick.x ≠ 0 ∨ stick.y ≠ 0 then { stick with x := 0, y := 0 } else stick

/-- A screen rectangle handed to `ImGui::InvisibleButton`: the cursor position set
before the call and the size passed to it. -/
structure HitRect where
  pos : F32 × F32
  size : F32 × F32
deriving DecidableEq

/-- The corner `pos + size` of the rectangle `ImRect(pos, pos + size)` that
`ImGui::InvisibleButton` hit-tests, the sum being that of `ImVec2`, in `float`. -/
def HitRect.max (r : HitRect) : F32 × F32 :=
  (r.pos.1 + r.size.1, r.pos.2 + r.size.2)

/-- The invisible buttons placed by `RenderController`, in the order of the calls,
each with its id and rectangle, for the canvas origin `canvas_pos` and the scale
factor `controller_scale`. -/
def hitRects (canvas_pos : F32 × F32) (controller_scale : F32) : List (String × HitRect) :=
  let dpad_center : F32 × F32 :=
    (canvas_pos.1 + 150 * controller_scale, canvas_pos.2 + 120 * controller_scale)
  let dpad_size : F32 := 30 * controller_scale
  let dpad_up_pos : F32 × F32 := (dpad_center.1 - dpad_size / 3, dpad_center.2 - dpad_size)
  let dpad_up_size : F32 × F32 := (dpad_size * 2 / 3, dpad_size * 2 / 3)
  let dpad_down_pos : F32 × F32 := (dpad_center.1 - dpad_size / 3, dpad_center.2 + dpad_size / 3)
  let dpad_down_size : F32 × F32 := (dpad_size * 2 / 3, dpad_size * 2 / 3)
  let dpad_left_pos : F32 × F32 := (dpad_center.1 - dpad_size, dpad_center.2 - dpad_size / 3)
  let dpad_left_size : F32 × F32 := (dpad_size * 2 / 3, dpad_size * 2 / 3)
  let dpad_right_pos : F32 × F32 :=
    (dpad_center.1 + dpad_size / 3, dpad_center.2 - dpad_size / 3)
  let dpad_right_size : F32 × F32 := (dpad_size * 2 / 3, dpad_size * 2 / 3)
  let abxy_center : F32 × F32 :=
    (canvas_pos.1 + 450 * controller_scale, canvas_pos.2 + 120 * controller_scale)
  let button_radius : F32 := 20 * controller_scale
  let button_spacing : F32 := 35 * controller_scale
  let a_pos : F32 × F32 := (abxy_center.1 + button_spacing, abxy_center.2)
  let b_pos : F32 × F32 := (abxy_center.1, abxy_center.2 + button_spacing)
  let x_pos : F32 × F32 := (abxy_center.1, abxy_center.2 - button_spacing)
  let y_pos : F32 × F32 := (abxy_center.1 - button_spacing, abxy_center.2)
  let stick_base_radius : F32 := 30 * controller_scale
  let left_stick_pos : F32 × F32 :=
    (canvas_pos.1 + 200 * controller_scale, canvas_pos.2 + 180 * controller_scale)
  let right_stick_pos : F32 × F32 :=
    (canvas_pos.1 + 400 * controller_scale, canvas_pos.2 + 180 * controller_scale)
  let shoulder_width : F32 := 60 * controller_scale
  let shoulder_height : F32 := 20 * controller_scale
  let l_button_pos : F32 × F32 :=
    (canvas_pos.1 + 100 * controller_scale, canvas_pos.2 + 30 * controller_scale)
  let r_button_pos : F32 × F32 :=
    (canvas_pos.1 + 440 * controller_scale, canvas_pos.2 + 30 * controller_scale)
  let small_button_radius : F32 := 15 * controller_scale
  let minus_pos : F32 × F32 :=
    (canvas_pos.1 + 250 * controller_scale, canvas_pos.2 + 80 * controller_scale)
  let plus_pos : F32 × F32 :=
    (canvas_pos.1 + 350 * controller_scale, canvas_pos.2 + 80 * controller_scale)
  let tiny_button_size : F32 := 12 * controller_scale
  let home_pos : F32 × F32 :=
    (canvas_pos.1 + 320 * controller_scale, canvas_pos.2 + 120 * controller_scale)
  let capture_pos : F32 × F32 :=
    (canvas_pos.1 + 280 * controller_scale, canvas_pos.2 + 120 * controller_scale)
  [ ("dpad-up", { pos := dpad_up_pos, size := dpad_up_size }),
    ("dpad-down", { pos := dpad_down_pos, size := dpad_down_size }),
    ("dpad-left", { pos := dpad_left_pos, size := dpad_left_size }),
    ("dpad-right", { pos := dpad_right_pos, size := dpad_right_size }),
    ("button-a", { pos := (a_pos.1 - button_radius, a_pos.2 - button_radius),
                   size := (button_radius * 2, button_radius * 2) }),
    ("button-b", { pos := (b_pos.1 - button_radius, b_pos.2 - button_radius),
                   size := (button_radius * 2, button_radius * 2) }),
    ("button-x", { pos := (x_pos.1 - button_radius, x_pos.2 - button_radius),
                   size := (button_radius * 2, button_radius * 2) }),
    ("button-y", { pos := (y_pos.1 - button_radius, y_pos.2 - button_radius),
                   size := (button_radius * 2, button_radius * 2) }),
    ("l-stick_interaction",
      { pos := (left_stick_pos.1 - stick_base_radius, left_stick_pos.2 - stick_base_radius),
        size := (stick_base_radius * 2, stick_base_radius * 2) }),
    ("r-stick_interaction",
      { pos := (right_stick_pos.1 - stick_base_radius, right_stick_pos.2 - stick_base_radius),
        size := (stick_base_radius * 2, stick_base_radius * 2) }),
    ("left-button", { pos := l_button_pos, size := (shoulder_width, shoulder_height) }),
    ("right-button", { pos := r_button_pos, size := (shoulder_width, shoulder_height) }),
    ("minus-button",
      { pos := (minus_pos.1 - small_button_radius, minus_pos.2 - small_button_radius),
        size := (small_button_radius * 2, small_button_radius * 2) }),
    ("plus-button",
      { pos := (plus_pos.1 - small_button_radius, plus_pos.2 - small_button_radius),
        size := (small_button_radius * 2, small_button_radius * 2) }),
    ("home-button",
      { pos := (home_pos.1 - tiny_button_size, home_pos.2 - tiny_button_size),
        size := (tiny_button_size * 2, tiny_button_size * 2) }),
    ("capture-button",
      { pos := (capture_pos.1 - tiny_button_size, capture_pos.2 - tiny_button_size),
        size := (tiny_button_size * 2, tiny_button_size * 2) }) ]

namespace ControllerPanel

/-- The map's `operator[]` on `buttons`: the entry for `id`, value-initialised when
the key was absent. -/
def indexButton {K : Type} (p : ControllerPanel K) (id : String) : ControllerPanel K :=
  { p with buttons := Function.update p.buttons id (some ((p.buttons id).getD {})) }

/-- The map's `operator[]` on `sticks`. -/
def indexStick {K : Type} [LinearOrderedField K] (p : ControllerPanel K) (id : String) :
    ControllerPanel K :=
  { p with
    sticks := Function.update p.sticks id (some ((p.sticks id).getD (StickInfo.empty K))) }

/-- The assignment `buttons[id] = info`. -/
def setButton {K : Type} (p : ControllerPanel K) (id : String) (info : ButtonInfo) :
    ControllerPanel K :=
  { p with buttons := Function.update (p.indexButton id).buttons id (some info) }

/-- The assignment `sticks[id] = info`. -/
def setStick {K : Type} [LinearOrderedField K] (p : ControllerPanel K) (id : String)
    (info : StickInfo K) : ControllerPanel K :=
  { p with sticks := Function.update (p.indexStick id).sticks id (some info) }

/-- `ControllerPanel::InitializeButtons`. -/
def InitializeButtons {K : Type} [LinearOrderedField K] (p : ControllerPanel K) :
    ControllerPanel K :=
  let p := p.setButton "button-a" { name := "A Button", pressed := false, callback := none }
  let p := p.setButton "button-b" { name := "B Button", pressed := false, callback := none }
  let p := p.setButton "button-x" { name := "X Button", pressed := false, callback := none }
  let p := p.setButton "button-y" { name := "Y Button", pressed := false, callback := none }
  let p := p.setButton "plus-button"
    { name := "Plus Button (+)", pressed := false, callback := none }
  let p := p.setButton "minus-button"
    { name := "Minus Button (-)", pressed := false, callback := none }
  let p := p.setButton "home-button"
    { name := "Home Button", pressed := false, callback := none }
  let p := p.setButton "capture-button"
    { name := "Capture Button", pressed := false, callback := none }
  let p := p.setButton "left-button" { name := "L Button", pressed := false, callback := none }
  let p := p.setButton "right-button" { name := "R Button", pressed := false, callback := none }
  let p := p.setButton "dpad-up" { name := "D-Pad Up", pressed := false, callback := none }
  let p := p.setButton "dpad-down" { name := "D-Pad Down", pressed := false, callback := none }
  let p := p.setButton "dpad-left" { name := "D-Pad Left", pressed := false, callback := none }
  let p := p.setButton "dpad-right"
    { name := "D-Pad Right", pressed := false, callback := none }
  let p := p.setStick "l-stick" { name := "Left Stick", x := 0, y := 0, callback := none }
  p.setStick "r-stick" { name := "Right Stick", x := 0, y := 0, callback := none }

/-- The constructor `ControllerPanel::ControllerPanel()`: the base is built by
`Panel("Controller")`, the members take their default values and
`InitializeButtons` runs. Modelled from the spec: the initial value of the base
member `visible` is set in `Panel.h`, which is not among the sources, and is a
parameter here. -/
def new (K : Type) [LinearOrderedField K] (visible : Bool) : ControllerPanel K :=
  InitializeButtons
    { name := "Controller"
      visible := visible
      buttons := fun _ => none
      sticks := fun _ => none
      controller_scale := 1
      show_button_labels := true
      highlight_pressed := true }

/-- `ControllerPanel::SetButtonCallback`. -/
def SetButtonCallback {K : Type} (p : ControllerPanel K) (button_id : String)
    (callback : Option Nat) : ControllerPanel K :=
  if (p.buttons button_id).isSome then
    let q := p.indexButton button_id
    { q with
      buttons := (Function.update q.buttons button_id
        ((q.buttons button_id).map (fun info => { info with callback := callback }))) }
  else p

/-- `ControllerPanel::SetButtonState`. -/
def SetButtonState {K : Type} (p : ControllerPanel K) (button_id : String) (pressed : Bool) :
    ControllerPanel K :=
  if (p.buttons button_id).isSome then
    let q := p.indexButton button_id
    { q with
      buttons := (Function.update q.buttons button_id
        ((q.buttons button_id).map (fun info => { info with pressed := pressed }))) }
  else p

/-- `ControllerPanel::SetStickPosition`. -/
def SetStickPosition {K : Type} [LinearOrderedField K] (p : ControllerPanel K)
    (stick_id : String) (x y : K) : ControllerPanel K :=
  if (p.sticks stick_id).isSome then
    let q := (p.indexStick stick_id).indexStick stick_id
    { q with
      sticks := (Function.update q.sticks stick_id
        ((q.sticks stick_id).map (fun info => { info with x := x, y := y }))) }
  else p

/-- `ControllerPanel::SetScale`. -/
def SetScale {K : Type} (p : ControllerPanel K) (scale : K) : ControllerPanel K :=
  { p with controller_scale := scale }

end ControllerPanel

/-- What the UI library and the C library answer during one call of
`RenderController`. -/
structure FrameInput (K : Type) where
  /-- `ImGui::GetCursorScreenPos()` at the start. -/
  canvas_pos : K × K
  /-- `ImGui::IsItemActive()` after the invisible button with the given id. -/
  item_active : String → Bool
  /-- `ImGui::GetMouseDragDelta(0, 0.0f)`. -/
  mouse_drag_delta : K × K
  /-- The function `std::sqrt`. -/
  sqrt : K → K

namespace ControllerPanel

/-- A call `HandleButtonInteraction(id, pos, size, buttons[id])` of
`RenderController`; the drawing statement next to it reads the same entry. -/
def interact {K : Type} (input : FrameInput K) (id : String)
    (st : ControllerPanel K × List ButtonCall) : ControllerPanel K × List ButtonCall :=
  let q := st.1.indexButton id
  let r := HandleButtonInteraction (input.item_active id) ((q.buttons id).getD {})
  ({ q with buttons := Function.update q.buttons id (some r.1) }, st.2 ++ r.2)

/-- A stick block of `RenderController` for the entry `sticks[id]`, whose invisible
button has the id `button_id`. -/
def dragStick {K : Type} [LinearOrderedField K] (input : FrameInput K) (id button_id : String)
    (p : ControllerPanel K) : ControllerPanel K :=
  let q := p.indexStick id
  let stick_base_radius : K := 30 * p.controller_scale
  { q with
    sticks := (Function.update q.sticks id
      (some (RenderController.stick input.sqrt (input.item_active button_id)
        input.mouse_drag_delta stick_base_radius ((q.sticks id).getD (StickInfo.empty K))))) }

/-- `ControllerPanel::RenderController`: the state afterwards and the callback calls
made, in order. The drawing commands have no effect on the state. -/
def RenderController {K : Type} [LinearOrderedField K] (input : FrameInput K)
    (p : ControllerPanel K) : ControllerPanel K × List ButtonCall :=
  let st : ControllerPanel K × List ButtonCall := (p, [])
  let st := interact input "dpad-up" st
  let st := interact input "dpad-down" st
  let st := interact input "dpad-left" st
  let st := interact input "dpad-right" st
  let st := interact input "button-a" st
  let st := interact input "button-b" st
  let st := interact input "button-x" st
  let st := interact input "button-y" st
  let st := (dragStick input "l-stick" "l-stick_interaction" st.1, st.2)
  let st := (dragStick input "r-stick" "r-stick_interaction" st.1, st.2)
  let st := interact input "left-button" st
  let st := interact input "right-button" st
  let st := interact input "minus-button" st
  let st := interact input "plus-button" st
  let st := interact input "home-button" st
  interact input "capture-button" st

/-- The identifiers of the button catalog. -/
def buttonIds : List String :=
  ["button-a", "button-b", "button-x", "button-y", "plus-button", "minus-button",
    "home-button", "capture-button", "left-button", "right-button", "dpad-up", "dpad-down",
    "dpad-left", "dpad-right"]

/-- The identifiers of the stick catalog. -/
def stickIds : List String := ["l-stick", "r-stick"]

/-- The catalog is the fixed one: the entries of `buttons` are those of the 14 button
identifiers and the entries of `sticks` those of the 2 stick identifiers. -/
def CatalogFixed {K : Type} (p : ControllerPanel K) : Prop :=
  (∀ id, (p.buttons id).isSome = true ↔ id ∈ buttonIds) ∧
  (∀ id, (p.sticks id).isSome = true ↔ id ∈ stickIds)

/-- A button taken through a run of frames, `flags` being the per-frame results of
`ImGui::IsItemActive()`: the button afterwards and the callback calls of each
frame. -/
def pressFrames (button : ButtonInfo) : List Bool → ButtonInfo × List (List ButtonCall)
  | [] => (button, [])
  | flag :: flags =>
    let r := HandleButtonInteraction flag button
    let rest := pressFrames r.1 flags
    (rest.1, r.2 :: rest.2)

end ControllerPanel

/-- The stick update as the specification words it: while the pointer is active the
drag vector `d` is clamped to the length `R` by proportional scaling (`d·R/|d|` if
`|d| > R`, `d` otherwise), both components are divided by `R` and the vertical one
is negated; while it is not active the vector is `(0, 0)`. `norm` is the length
`|d|`. -/
def stickReference {K : Type} [LinearOrderedField K] (norm : K × K → K) (active : Bool)
    (d : K × K) (R : K) : K × K :=
  if active then
    let clamped : K × K := if norm d > R then (d.1 * R / norm d, d.2 * R / norm d) else d
    (clamped.1 / R, -(clamped.2 / R))
  else (0, 0)

/-- What the UI library answers during one call of `ControllerPanel::Render`, around
the call of `RenderController`. -/
structure WindowInput (K : Type) where
  /-- The result of `ImGui::Begin`. -/
  begin_open : Bool
  /-- The value of `visible` after `ImGui::Begin`, which is given its address. -/
  visible_after_begin : Bool
  /-- The value of `controller_scale` after the slider. -/
  scale_after_slider : K
  /-- The value of `show_button_labels` after its checkbox. -/
  labels_after_checkbox : Bool
  /-- The value of `highlight_pressed` after its checkbox. -/
  highlight_after_checkbox : Bool
  /-- The result of `ImGui::CollapsingHeader("Button States")`. -/
  states_open : Bool
  /-- The answers during `RenderController`. -/
  frame : FrameInput K

/-- `ControllerPanel::Render`: the state afterwards and the callback calls made. The
"Button States" section reads `sticks["l-stick"]` and `sticks["r-stick"]` through
the map's `operator[]`. -/
def ControllerPanel.Render {K : Type} [LinearOrderedField K] (w : WindowInput K)
    (p : ControllerPanel K) : ControllerPanel K × List ButtonCall :=
  if !p.visible then (p, [])
  else
    let p1 := { p with visible := w.visible_after_begin }
    if !w.begin_open then (p1, [])
    else
      let p2 := { p1 with
        controller_scale := w.scale_after_slider
        show_button_labels := w.labels_after_checkbox
        highlight_pressed := w.highlight_after_checkbox }
      let r := ControllerPanel.RenderController w.frame p2
      let p3 := if w.states_open then (r.1.indexStick "l-stick").indexStick "r-stick" else r.1
      (p3, r.2)

/-- A frame on a canvas at the origin in which only the A button is active and the
pointer has not been dragged. -/
def sampleFrame : FrameInput ℚ :=
  { canvas_pos := (0, 0)
    item_active := fun id => id == "button-a"
    mouse_drag_delta := (0, 0)
    sqrt := fun _ => 0 }

/-- A screen point lies in the interior of a hit rectangle. -/
def HitRect.interior (r : HitRect) (pt : ℚ × ℚ) : Prop :=
  r.pos.1.val < pt.1 ∧ pt.1 < r.max.1.val ∧ r.pos.2.val < pt.2 ∧ pt.2 < r.max.2.val

/-- C15 as stated, for one canvas origin and scale factor: no screen point lies in
the interior of the hit rectangles of two different controls. -/
def HitRectsDisjoint (canvas_pos : F32 × F32) (controller_scale : F32) : Prop :=
  ∀ a ∈ hitRects canvas_pos controller_scale, ∀ b ∈ hitRects canvas_pos controller_scale,
    a.1 ≠ b.1 → ∀ pt : ℚ × ℚ, ¬ (a.2.interior pt ∧ b.2.interior pt)

/-- Two face buttons that are neighbours on the diamond: one of A, Y and one of B, X. -/
def faceNeighbours (id₁ id₂ : String) : Bool :=
  ((id₁ == "button-a" || id₁ == "button-y") && (id₂ == "button-b" || id₂ == "button-x"))
    || ((id₁ == "button-b" || id₁ == "button-x") && (id₂ == "button-a" || id₂ == "button-y"))

/-- Two controls whose rectangles have an edge or a corner in common in exact
arithmetic: an arm of the D-pad and an arm next to it, the B button and the base
of the right stick. -/
def edgeNeighbours (id₁ id₂ : String) : Bool :=
  ((id₁ == "dpad-up" || id₁ == "dpad-down") && (id₂ == "dpad-left" || id₂ == "dpad-right"))
    || ((id₁ == "dpad-left" || id₁ == "dpad-right") && (id₂ == "dpad-up" || id₂ == "dpad-down"))
    || (id₁ == "button-b" && id₂ == "r-stick_interaction")
    || (id₁ == "r-stick_interaction" && id₂ == "button-b")

/-- The hit rectangles in exact arithmetic, in units of the scale factor and
relative to the canvas origin: id, left, top, width, height. -/
def unitRects : List (String × (Int × Int) × (Int × Int)) :=
  [ ("dpad-up", (140, 90), (20, 20)),
    ("dpad-down", (140, 130), (20, 20)),
    ("dpad-left", (120, 110), (20, 20)),
    ("dpad-right", (160, 110), (20, 20)),
    ("button-a", (465, 100), (40, 40)),
    ("button-b", (430, 135), (40, 40)),
    ("button-x", (430, 65), (40, 40)),
    ("button-y", (395, 100), (40, 40)),
    ("l-stick_interaction", (170, 150), (60, 60)),
    ("r-stick_interaction", (370, 150), (60, 60)),
    ("left-button", (100, 30), (60, 20)),
    ("right-button", (440, 30), (60, 20)),
    ("minus-button", (235, 65), (30, 30)),
    ("plus-button", (335, 65), (30, 30)),
    ("home-button", (308, 108), (24, 24)),
    ("capture-button", (268, 108), (24, 24)) ]

/-- Two unit rectangles are at least 4 units apart along one of the axes. -/
def unitSeparated (u v : String × (Int × Int) × (Int × Int)) : Bool :=
  decide (u.2.1.1 + u.2.2.1 + 4 ≤ v.2.1.1) || decide (v.2.1.1 + v.2.2.1 + 4 ≤ u.2.1.1)
    || decide (u.2.1.2 + u.2.2.2 + 4 ≤ v.2.1.2) || decide (v.2.1.2 + v.2.2.2 + 4 ≤ u.2.1.2)

/-- Two unit rectangles overlap by at least 5 units along both axes. -/
def unitOverlap (u v : String × (Int × Int) × (Int × Int)) : Bool :=
  decide (u.2.1.1 + 5 ≤ v.2.1.1 + v.2.2.1) && decide (v.2.1.1 + 5 ≤ u.2.1.1 + u.2.2.1)
    && decide (u.2.1.2 + 5 ≤ v.2.1.2 + v.2.2.2) && decide (v.2.1.2 + 5 ≤ u.2.1.2 + u.2.2.2)
    && decide (5 ≤ u.2.2.1) && decide (5 ≤ u.2.2.2) && decide (5 ≤ v.2.2.1)
    && decide (5 ≤ v.2.2.2)

/-- The value `x` is within `n` sevenths of the scale `s` of `e`. -/
structure Near (s : ℚ) (n : ℕ) (x e : ℚ) : Prop where
  le : |x - e| ≤ n * (s / 7)

/-- The magnitude of `e` is at most `2^20 + 1000` times the scale `s`. -/
structure Mag (s e : ℚ) : Prop where
  le : |e| ≤ (2 ^ 20 + 1000) * s

/-- A computed rectangle is near a unit rectangle placed at the canvas origin `c`
with the scale `s`: same id, and every edge within two scale units. -/
def NearUnit (c : ℚ × ℚ) (s : ℚ) (r : String × HitRect)
    (u : String × (Int × Int) × (Int × Int)) : Prop :=
  r.1 = u.1 ∧
  Near s 14 r.2.pos.1.val (c.1 + u.2.1.1 * s) ∧
  Near s 14 r.2.max.1.val (c.1 + ((u.2.1.1 + u.2.2.1 : Int) : ℚ) * s) ∧
  Near s 14 r.2.pos.2.val (c.2 + u.2.1.2 * s) ∧
  Near s 14 r.2.max.2.val (c.2 + ((u.2.1.2 + u.2.2.2 : Int) : ℚ) * s)

/-- The origin of the screen as canvas origin. -/
def origin : F32 × F32 := (⟨0⟩, ⟨0⟩)

/-- A canvas origin far out: both coordinates are `10^9`, a binary32 number in the
binade where binary32 numbers are 64 apart. -/
def farOrigin : F32 × F32 := (⟨1000000000⟩, ⟨1000000000⟩)

/-- The scale factor 1, the default value of `controller_scale`. -/
def unitScale : F32 := ⟨1⟩

/-- The scale factor 1.75. -/
def farScale : F32 := ⟨7 / 4⟩

/-- The scale factor `0x1.7a0be8p+0`, about 1.4767, a binary32 number inside the range
of the scale slider. -/
def sampleScale : F32 := ⟨3096957 / 2097152⟩

/-- A shell on which panels 0 ("a") and 2 ("b") have been registered before the menu
system is initialised. -/
def samplePreRegistered : GUIManager :=
  ((GUIManager.new sampleHeap []).AddPanel 0).AddPanel 2

/-! ## Auxiliary facts -/

theorem length_modifyBar (f : TabBar → TabBar) (l : List TabBar) (i : Nat) :
    (modifyBar f l i).length = l.length := by
  induction l generalizing i with
  | nil => rfl
  | cons b bs ih =>
    cases i with
    | zero => rfl
    | succ n => simp [modifyBar, ih]

theorem getElem?_modifyBar (f : TabBar → TabBar) (l : List TabBar) (i j : Nat) :
    (modifyBar f l i)[j]? = if i = j then (l[j]?).map f else l[j]? := by
  induction l generalizing i j with
  | nil => simp [modifyBar]
  | cons b bs ih =>
    cases i with
    | zero =>
      cases j with
      | zero => simp [modifyBar]
      | succ m => simp [modifyBar]
    | succ n =>
      cases j with
      | zero => simp [modifyBar]
      | succ m => simp [modifyBar, ih]

theorem modifyBar_modifyBar (f g : TabBar → TabBar) (l : List TabBar) (i : Nat) :
    modifyBar g (modifyBar f l i) i = modifyBar (fun b => g (f b)) l i := by
  induction l generalizing i with
  | nil => rfl
  | cons b bs ih =>
    cases i with
    | zero => rfl
    | succ n => simp [modifyBar, ih]

theorem modifyBar_congr_id (f : TabBar → TabBar) (hf : ∀ b, f b = b) (l : List TabBar)
    (i : Nat) : modifyBar f l i = l := by
  induction l generalizing i with
  | nil => rfl
  | cons b bs ih =>
    cases i with
    | zero => simp [modifyBar, hf]
    | succ n => simp [modifyBar, ih]

theorem map_id_modifyBar (f : TabBar → TabBar) (hf : ∀ b, (f b).id = b.id) (l : List TabBar)
    (i : Nat) : (modifyBar f l i).map (fun b => b.id) = l.map (fun b => b.id) := by
  induction l generalizing i with
  | nil => rfl
  | cons b bs ih =>
    cases i with
    | zero => simp [modifyBar, hf]
    | succ n => simp [modifyBar, ih]

theorem length_filter_not_add_countP {α : Type} (f : α → Bool) (l : List α) :
    (l.filter (fun a => !f a)).length + l.countP f = l.length := by
  induction l with
  | nil => rfl
  | cons a l ih =>
    cases h : f a <;> simp [h, List.filter_cons, List.countP_cons] <;> omega

theorem index_eq_self (t : VisibilityTable) (k : String) (h : t k ≠ none) :
    t.index k = t := by
  unfold VisibilityTable.index
  cases hk : t k with
  | none => exact absurd hk h
  | some v => rw [← hk]; simp [hk]

theorem indexAll_eq_self (t : VisibilityTable) (names : List String)
    (h : ∀ k ∈ names, t k ≠ none) : indexAll t names = t := by
  induction names with
  | nil => rfl
  | cons k ks ih =>
    have hk : t.index k = t := index_eq_self t k (h k (List.mem_cons_self k ks))
    simp only [indexAll, List.foldl_cons, hk]
    exact ih (fun k' hk' => h k' (List.mem_cons_of_mem k hk'))

theorem indexAll_apply (t : VisibilityTable) (names : List String) (k : String) :
    indexAll t names k = if k ∈ names then some ((t k).getD false) else t k := by
  induction names generalizing t with
  | nil => simp [indexAll]
  | cons n ns ih =>
    simp only [indexAll, List.foldl_cons] at ih ⊢
    rw [ih]
    by_cases hkn : k = n
    · subst hkn
      simp [VisibilityTable.index]
    · simp [VisibilityTable.index, Function.update_noteq hkn, hkn]

theorem indexAll_apply_of_some (t : VisibilityTable) (names : List String) (k : String)
    (v : Bool) (h : t k = some v) : indexAll t names k = some v := by
  rw [indexAll_apply, h]
  simp

namespace GUIManager

/-- The loop of `UpdateViewMenu` in closed form: the cells of the visited names are
taken and one item per visited panel is appended to the View bar, in order. -/
theorem foldl_step (v : Nat) (ps : List PanelPtr) (s : GUIManager) :
    ps.foldl (UpdateViewMenu.step v) s =
      { s with
        panel_visibility_states :=
          indexAll s.panel_visibility_states (ps.map (fun p => (s.heap p).GetName))
        m_tab_bars :=
          modifyBar (fun b => { b with
            items := b.items ++ ps.map (UpdateViewMenu.new_item s.heap s.erased_nodes) })
            s.m_tab_bars v } := by
  induction ps generalizing s with
  | nil =>
    simp only [List.foldl_nil, List.map_nil, List.append_nil, indexAll]
    rw [modifyBar_congr_id _ (fun b => rfl)]
  | cons p ps ih =>
    rw [List.foldl_cons, ih]
    simp only [UpdateViewMenu.step, modifyBar_modifyBar, TabBar.push_back, List.map_cons,
      indexAll, List.foldl_cons, UpdateViewMenu.new_item, List.append_assoc,
      List.singleton_append]

/-- `UpdateViewMenu` in closed form, for a non-null `view_menu`. -/
theorem UpdateViewMenu_eq (s : GUIManager) (v : Nat) (hv : s.view_menu = some v) :
    s.UpdateViewMenu =
      { s with
        panel_visibility_states :=
          indexAll s.panel_visibility_states (s.panels.map (fun p => (s.heap p).GetName))
        m_tab_bars :=
          modifyBar (fun b => { b with
            items := s.panels.map (UpdateViewMenu.new_item s.heap s.erased_nodes) })
            s.m_tab_bars v } := by
  simp only [UpdateViewMenu, hv, foldl_step, modifyBar_modifyBar, TabBar.clear,
    List.nil_append]

theorem viewItems_UpdateViewMenu (s : GUIManager) (v : Nat) (hv : s.view_menu = some v)
    (hlt : v < s.m_tab_bars.length) :
    s.UpdateViewMenu.viewItems = s.panels.map (UpdateViewMenu.new_item s.heap s.erased_nodes) := by
  rw [UpdateViewMenu_eq s v hv]
  simp [viewItems, hv, getElem?_modifyBar, List.getElem?_eq_getElem hlt]

theorem Initialized_UpdateViewMenu (s : GUIManager) (h : s.Initialized) :
    s.UpdateViewMenu.Initialized := by
  obtain ⟨hm, v, hv, hlt⟩ := h
  rw [UpdateViewMenu_eq s v hv]
  exact ⟨hm, v, hv, by simpa [length_modifyBar] using hlt⟩

theorem UpdateViewMenu_panels (s : GUIManager) : s.UpdateViewMenu.panels = s.panels := by
  cases hv : s.view_menu with
  | none => simp [UpdateViewMenu, hv]
  | some v => rw [UpdateViewMenu_eq s v hv]

theorem UpdateViewMenu_heap (s : GUIManager) : s.UpdateViewMenu.heap = s.heap := by
  cases hv : s.view_menu with
  | none => simp [UpdateViewMenu, hv]
  | some v => rw [UpdateViewMenu_eq s v hv]

theorem UpdateViewMenu_erased_nodes (s : GUIManager) :
    s.UpdateViewMenu.erased_nodes = s.erased_nodes := by
  cases hv : s.view_menu with
  | none => simp [UpdateViewMenu, hv]
  | some v => rw [UpdateViewMenu_eq s v hv]

theorem UpdateViewMenu_caller_bools (s : GUIManager) :
    s.UpdateViewMenu.caller_bools = s.caller_bools := by
  cases hv : s.view_menu with
  | none => simp [UpdateViewMenu, hv]
  | some v => rw [UpdateViewMenu_eq s v hv]

/-- Reading through the pointer to the current node of a key reads the cell of the
key. -/
theorem deref_cellPtr (s : GUIManager) (k : String) :
    s.deref (s.cellPtr k) = s.panel_visibility_states k := by
  simp [deref, cellPtr]

theorem UpdateViewMenu_outside_refs (s : GUIManager) :
    s.UpdateViewMenu.outside_refs = s.outside_refs := by
  cases hv : s.view_menu with
  | none => simp [UpdateViewMenu, hv]
  | some v => rw [UpdateViewMenu_eq s v hv]

theorem UpdateViewMenu_view_menu (s : GUIManager) :
    s.UpdateViewMenu.view_menu = s.view_menu := by
  cases hv : s.view_menu with
  | none => simp [UpdateViewMenu, hv]
  | some v => rw [UpdateViewMenu_eq s v hv]; exact hv

theorem UpdateViewMenu_menus_initialized (s : GUIManager) :
    s.UpdateViewMenu.menus_initialized = s.menus_initialized := by
  cases hv : s.view_menu with
  | none => simp [UpdateViewMenu, hv]
  | some v => rw [UpdateViewMenu_eq s v hv]

theorem UpdateViewMenu_table (s : GUIManager) (h : s.view_menu ≠ none) :
    s.UpdateViewMenu.panel_visibility_states =
      indexAll s.panel_visibility_states (s.panels.map (fun p => (s.heap p).GetName)) := by
  cases hv : s.view_menu with
  | none => exact absurd hv h
  | some v => rw [UpdateViewMenu_eq s v hv]

/-- On an initialised shell `AddPanel` ends with the regeneration of the View bar. -/
theorem AddPanel_of_Initialized (s : GUIManager) (h : s.Initialized) (p : PanelPtr)
    (sc : String) :
    s.AddPanel p sc =
      UpdateViewMenu { s with
        panels := s.panels ++ [p]
        panel_visibility_states :=
          s.panel_visibility_states.assign (s.heap p).GetName (s.heap p).IsVisible } := by
  obtain ⟨hm, v, hv, _⟩ := h
  simp [AddPanel, hm, hv]

/-- On an initialised shell `RemovePanel` ends with the regeneration of the View bar. -/
theorem RemovePanel_of_Initialized (s : GUIManager) (h : s.Initialized) (name : String) :
    s.RemovePanel name =
      UpdateViewMenu { s with
        panels := s.panels.filter (fun panel => !((s.heap panel).GetName == name))
        panel_visibility_states := s.panel_visibility_states.erase name
        erased_nodes := s.panel_visibility_states.erasedAfter s.erased_nodes name } := by
  obtain ⟨hm, v, hv, _⟩ := h
  simp [RemovePanel, hm, hv]

theorem AddPanel_panels (s : GUIManager) (p : PanelPtr) (sc : String) :
    (s.AddPanel p sc).panels = s.panels ++ [p] := by
  unfold AddPanel
  dsimp only
  split
  · rw [UpdateViewMenu_panels]
  · rfl

theorem RemovePanel_panels (s : GUIManager) (name : String) :
    (s.RemovePanel name).panels =
      s.panels.filter (fun panel => !((s.heap panel).GetName == name)) := by
  unfold RemovePanel
  dsimp only
  split
  · rw [UpdateViewMenu_panels]
  · rfl

theorem AddPanel_heap (s : GUIManager) (p : PanelPtr) (sc : String) :
    (s.AddPanel p sc).heap = s.heap := by
  unfold AddPanel
  dsimp only
  split
  · rw [UpdateViewMenu_heap]
  · rfl

theorem RemovePanel_heap (s : GUIManager) (name : String) :
    (s.RemovePanel name).heap = s.heap := by
  unfold RemovePanel
  dsimp only
  split
  · rw [UpdateViewMenu_heap]
  · rfl

theorem Initialized_AddPanel (s : GUIManager) (h : s.Initialized) (p : PanelPtr)
    (sc : String) : (s.AddPanel p sc).Initialized := by
  rw [AddPanel_of_Initialized s h]
  exact Initialized_UpdateViewMenu _ h

theorem Initialized_RemovePanel (s : GUIManager) (h : s.Initialized) (name : String) :
    (s.RemovePanel name).Initialized := by
  rw [RemovePanel_of_Initialized s h]
  exact Initialized_UpdateViewMenu _ h

theorem Initialized_apply (s : GUIManager) (h : s.Initialized) (op : Op) :
    (Op.apply s op).Initialized := by
  cases op with
  | add p => exact Initialized_AddPanel s h p ""
  | remove name => exact Initialized_RemovePanel s h name

theorem Initialized_runOps (s : GUIManager) (h : s.Initialized) (ops : List Op) :
    (s.runOps ops).Initialized := by
  induction ops generalizing s with
  | nil => exact h
  | cons op ops ih => exact ih _ (Initialized_apply s h op)

theorem runOps_append (s : GUIManager) (ops₁ ops₂ : List Op) :
    s.runOps (ops₁ ++ ops₂) = (s.runOps ops₁).runOps ops₂ := by
  simp [runOps, List.foldl_append]

theorem heap_apply (s : GUIManager) (op : Op) : (Op.apply s op).heap = s.heap := by
  cases op with
  | add p => exact AddPanel_heap s p ""
  | remove name => exact RemovePanel_heap s name

theorem heap_runOps (s : GUIManager) (ops : List Op) : (s.runOps ops).heap = s.heap := by
  induction ops generalizing s with
  | nil => rfl
  | cons op ops ih =>
    have h := ih (Op.apply s op)
    rw [heap_apply] at h
    exact h

theorem ViewSynced_UpdateViewMenu (s : GUIManager) (h : s.Initialized) :
    s.UpdateViewMenu.ViewSynced := by
  obtain ⟨_, v, hv, hlt⟩ := h
  unfold ViewSynced
  rw [viewItems_UpdateViewMenu s v hv hlt, UpdateViewMenu_panels, UpdateViewMenu_heap,
    UpdateViewMenu_erased_nodes]

/-- Every registration step on an initialised shell leaves the View bar in step
with the panel collection. -/
theorem ViewSynced_apply (s : GUIManager) (h : s.Initialized) (op : Op) :
    (Op.apply s op).ViewSynced := by
  cases op with
  | add p =>
    show (s.AddPanel p "").ViewSynced
    rw [AddPanel_of_Initialized s h]
    exact ViewSynced_UpdateViewMenu _ h
  | remove name =>
    show (s.RemovePanel name).ViewSynced
    rw [RemovePanel_of_Initialized s h]
    exact ViewSynced_UpdateViewMenu _ h

theorem ViewSynced_runOps (s : GUIManager) (h : s.Initialized) (ops : List Op)
    (hne : ops ≠ [] ∨ s.ViewSynced) : (s.runOps ops).ViewSynced := by
  rcases List.eq_nil_or_concat ops with hnil | ⟨init, last, hops⟩
  · subst hnil
    rcases hne with hne | hs
    · exact absurd rfl hne
    · exact hs
  · subst hops
    rw [List.concat_eq_append, runOps_append]
    exact ViewSynced_apply _ (Initialized_runOps s h init) last

theorem Initialized_SetupDefaultMenus (s : GUIManager) : s.SetupDefaultMenus.Initialized := by
  refine ⟨rfl, s.m_tab_bars.length + 2, ?_, ?_⟩
  · simp [SetupDefaultMenus, AddTabs]
  · simp [SetupDefaultMenus, AddTabs]

theorem lastNamed_mem (s : GUIManager) (k : String) (q : PanelPtr)
    (h : s.lastNamed k = some q) : q ∈ s.panels ∧ (s.heap q).GetName = k := by
  have hmem : q ∈ s.panels.filter (fun p => (s.heap p).GetName == k) :=
    List.mem_of_mem_getLast? h
  simpa [List.mem_filter] using hmem

theorem lastNamed_isSome (s : GUIManager) (p : PanelPtr) (hp : p ∈ s.panels) :
    ∃ q, s.lastNamed (s.heap p).GetName = some q := by
  have hne : s.panels.filter (fun q => (s.heap q).GetName == (s.heap p).GetName) ≠ [] := by
    intro h
    have := List.filter_eq_nil_iff.mp h p hp
    simp at this
  cases hl : s.lastNamed (s.heap p).GetName with
  | none => exact absurd (List.getLast?_eq_none_iff.mp hl) hne
  | some q => exact ⟨q, rfl⟩

theorem TableTracksPanels.key_present (s : GUIManager) (h : s.TableTracksPanels)
    (p : PanelPtr) (hp : p ∈ s.panels) :
    s.panel_visibility_states (s.heap p).GetName ≠ none := by
  obtain ⟨q, hq⟩ := lastNamed_isSome s p hp
  rw [h, hq]
  simp

theorem TableTracksPanels.key_absent (s : GUIManager) (h : s.TableTracksPanels)
    (k : String) (hk : ∀ p ∈ s.panels, (s.heap p).GetName ≠ k) :
    s.panel_visibility_states k = none := by
  rw [h]
  have : s.panels.filter (fun p => (s.heap p).GetName == k) = [] :=
    List.filter_eq_nil_iff.mpr (fun p hp => by simpa using hk p hp)
  simp [lastNamed, this]

theorem TableTracksPanels_new (heap : PanelPtr → Panel) (outside : List PanelPtr) :
    (GUIManager.new heap outside).TableTracksPanels := by
  intro k
  rfl

theorem TableTracksPanels_SetupDefaultMenus (s : GUIManager) (h : s.TableTracksPanels) :
    s.SetupDefaultMenus.TableTracksPanels := h

/-- Regenerating the View bar creates no cell when every panel has one already. -/
theorem UpdateViewMenu_table_eq (s : GUIManager)
    (h : ∀ p ∈ s.panels, s.panel_visibility_states (s.heap p).GetName ≠ none) :
    s.UpdateViewMenu.panel_visibility_states = s.panel_visibility_states := by
  cases hv : s.view_menu with
  | none => simp [UpdateViewMenu, hv]
  | some v =>
    rw [UpdateViewMenu_table s (by simp [hv])]
    apply indexAll_eq_self
    intro k hk
    obtain ⟨p, hp, rfl⟩ := List.mem_map.mp hk
    exact h p hp

theorem TableTracksPanels_UpdateViewMenu (s : GUIManager) (h : s.TableTracksPanels) :
    s.UpdateViewMenu.TableTracksPanels := by
  intro k
  rw [UpdateViewMenu_table_eq s (TableTracksPanels.key_present s h), lastNamed,
    UpdateViewMenu_panels, UpdateViewMenu_heap]
  exact h k

theorem TableTracksPanels_add (s : GUIManager) (h : s.TableTracksPanels) (p : PanelPtr) :
    TableTracksPanels { s with
      panels := s.panels ++ [p]
      panel_visibility_states :=
        s.panel_visibility_states.assign (s.heap p).GetName (s.heap p).IsVisible } := by
  intro k
  simp only [lastNamed, VisibilityTable.assign, VisibilityTable.index, List.filter_append]
  by_cases hk : k = (s.heap p).GetName
  · subst hk
    simp
  · have hk' : ¬ (s.heap p).GetName = k := fun e => hk e.symm
    simp only [Function.update_noteq hk, List.filter_cons, List.filter_nil, beq_iff_eq, hk',
      if_false, List.append_nil]
    exact h k

theorem TableTracksPanels_remove (s : GUIManager) (h : s.TableTracksPanels) (name : String) :
    TableTracksPanels { s with
      panels := s.panels.filter (fun panel => !((s.heap panel).GetName == name))
      panel_visibility_states := s.panel_visibility_states.erase name
      erased_nodes := s.panel_visibility_states.erasedAfter s.erased_nodes name } := by
  intro k
  simp only [lastNamed, VisibilityTable.erase, List.filter_filter]
  by_cases hk : k = name
  · subst hk
    have : s.panels.filter
        (fun a => ((s.heap a).GetName == k) && !((s.heap a).GetName == k)) = [] :=
      List.filter_eq_nil_iff.mpr (fun a _ => by simp)
    simp [this]
  · rw [Function.update_noteq hk]
    have : s.panels.filter
        (fun a => ((s.heap a).GetName == k) && !((s.heap a).GetName == name)) =
        s.panels.filter (fun a => (s.heap a).GetName == k) := by
      apply List.filter_congr
      intro a _
      by_cases ha : (s.heap a).GetName = k
      · have : ¬ (s.heap a).GetName = name := fun e => hk (ha ▸ e)
        simp [ha, this, hk]
      · simp [ha]
    rw [this]
    exact h k

theorem TableTracksPanels_AddPanel (s : GUIManager) (h : s.TableTracksPanels) (p : PanelPtr)
    (sc : String) : (s.AddPanel p sc).TableTracksPanels := by
  unfold AddPanel
  dsimp only
  split
  · exact TableTracksPanels_UpdateViewMenu _ (TableTracksPanels_add s h p)
  · exact TableTracksPanels_add s h p

theorem TableTracksPanels_RemovePanel (s : GUIManager) (h : s.TableTracksPanels)
    (name : String) : (s.RemovePanel name).TableTracksPanels := by
  unfold RemovePanel
  dsimp only
  split
  · exact TableTracksPanels_UpdateViewMenu _ (TableTracksPanels_remove s h name)
  · exact TableTracksPanels_remove s h name

theorem TableTracksPanels_runOps (s : GUIManager) (h : s.TableTracksPanels) (ops : List Op) :
    (s.runOps ops).TableTracksPanels := by
  induction ops generalizing s with
  | nil => exact h
  | cons op ops ih =>
    apply ih
    cases op with
    | add p => exact TableTracksPanels_AddPanel s h p ""
    | remove name => exact TableTracksPanels_RemovePanel s h name

theorem ViewSynced_sampleShell : sampleShell.ViewSynced := by
  unfold ViewSynced
  decide

theorem TableTracksPanels_sampleShell : sampleShell.TableTracksPanels :=
  TableTracksPanels_SetupDefaultMenus _ (TableTracksPanels_new _ _)

end GUIManager

/-! ## Claims -/

namespace GUIManager

/-- C1. On an initialised shell, after every sequence of `AddPanel` / `RemovePanel`
calls the View group has as many items as there are registered panels. The
sequence is non-empty or the shell starts with its View group in step with the
panels, as it is right after construction and default menu setup. -/
theorem view_item_count_eq_panel_count (s : GUIManager) (h : s.Initialized) (ops : List Op)
    (hstart : ops ≠ [] ∨ s.viewItems.length = s.panels.length) :
    (s.runOps ops).viewItems.length = (s.runOps ops).panels.length := by
  rcases List.eq_nil_or_concat ops with hnil | ⟨init, last, hops⟩
  · subst hnil
    rcases hstart with hne | hs
    · exact absurd rfl hne
    · exact hs
  · subst hops
    rw [List.concat_eq_append, runOps_append]
    have hsync := ViewSynced_apply _ (Initialized_runOps s h init) last
    have := congrArg List.length hsync
    simpa [runOps] using this

/-- Witness for C1: three registrations and one removal on the freshly set-up shell. -/
theorem view_item_count_eq_panel_count_witness :
    (sampleShell.runOps [Op.add 0, Op.add 2, Op.add 1, Op.remove "b"]).viewItems.length
      = (sampleShell.runOps [Op.add 0, Op.add 2, Op.add 1, Op.remove "b"]).panels.length :=
  view_item_count_eq_panel_count sampleShell (Initialized_SetupDefaultMenus _)
    [Op.add 0, Op.add 2, Op.add 1, Op.remove "b"] (Or.inl (by decide))

/-- What holds of a state whose table is up to date and whose View bar is in step:
item `i` is bound to the cell of panel `i`, which holds the visibility of the
panel registered last under that name. -/
theorem cells_of_synced (t : GUIManager) (ht : t.TableTracksPanels) (hs : t.ViewSynced)
    (i : Nat) (item : TabItem) (hi : t.viewItems[i]? = some item) :
    ∃ p, t.panels[i]? = some p ∧
      item.checked_callback = some (CheckedCallback.viewToggle p) ∧
      item.p_selected = some (t.cellPtr (t.nameOf p)) ∧
      (∃ q, q ∈ t.panels ∧ t.nameOf q = t.nameOf p ∧ t.lastNamed (t.nameOf p) = some q ∧
        t.deref (t.cellPtr (t.nameOf p)) = some (t.IsVisible q)) ∧
      ((∀ r ∈ t.panels, t.nameOf r = t.nameOf p → r = p) →
        t.deref (t.cellPtr (t.nameOf p)) = some (t.IsVisible p)) := by
  rw [hs, List.getElem?_map] at hi
  cases hp : t.panels[i]? with
  | none => simp [hp] at hi
  | some p =>
    rw [hp] at hi
    simp only [Option.map_some', Option.some.injEq] at hi
    subst hi
    have hmem : p ∈ t.panels := List.mem_iff_getElem?.mpr ⟨i, hp⟩
    obtain ⟨q, hq⟩ := lastNamed_isSome t p hmem
    have hq' := lastNamed_mem t _ q hq
    have hcell : t.deref (t.cellPtr (t.nameOf p)) = some (t.IsVisible q) := by
      rw [deref_cellPtr]
      show t.panel_visibility_states (t.heap p).GetName = some (t.heap q).IsVisible
      rw [ht, hq]
      rfl
    refine ⟨p, rfl, rfl, rfl, ⟨q, hq'.1, hq'.2, hq, hcell⟩, ?_⟩
    intro huniq
    rw [hcell, huniq q hq'.1 hq'.2]

/-- C2, counterexample. Panels 0 (shown) and 1 (hidden) are both named "a". After
`AddPanel(0); AddPanel(1)` on the freshly set-up shell the View item of panel 0 is
bound to the cell "a", which holds `false`, while panel 0 is visible. -/
theorem view_cells_show_visibility_counterexample :
    ¬ ViewCellsShowVisibility (sampleShell.runOps [Op.add 0, Op.add 1]) := by
  intro h
  have h0 := (h 0 (UpdateViewMenu.new_item sampleHeap (fun _ => 0) 0) 0 (by decide) (by decide)).2
  revert h0
  decide

/-- C2, amended. On an initialised shell whose table is up to date, after every
sequence of `AddPanel` / `RemovePanel` calls (non-empty, or starting with the View
group in step) each View item is the item of the panel at the same position, is
bound to the visibility-table cell keyed by that panel's name, and the cell
exists and holds the current visibility of the panel registered last under that
name; it therefore holds the panel's own visibility whenever no other registered
panel carries the same name. -/
theorem view_cells_track_last_registered (s : GUIManager) (h : s.Initialized)
    (ht : s.TableTracksPanels) (ops : List Op) (hstart : ops ≠ [] ∨ s.ViewSynced)
    (i : Nat) (item : TabItem) (hi : (s.runOps ops).viewItems[i]? = some item) :
    ∃ p, (s.runOps ops).panels[i]? = some p ∧
      item.checked_callback = some (CheckedCallback.viewToggle p) ∧
      item.p_selected = some ((s.runOps ops).cellPtr ((s.runOps ops).nameOf p)) ∧
      (∃ q, q ∈ (s.runOps ops).panels ∧
        (s.runOps ops).nameOf q = (s.runOps ops).nameOf p ∧
        (s.runOps ops).lastNamed ((s.runOps ops).nameOf p) = some q ∧
        (s.runOps ops).deref ((s.runOps ops).cellPtr ((s.runOps ops).nameOf p)) =
          some ((s.runOps ops).IsVisible q)) ∧
      ((∀ r ∈ (s.runOps ops).panels,
          (s.runOps ops).nameOf r = (s.runOps ops).nameOf p → r = p) →
        (s.runOps ops).deref ((s.runOps ops).cellPtr ((s.runOps ops).nameOf p)) =
          some ((s.runOps ops).IsVisible p)) :=
  cells_of_synced (s.runOps ops) (TableTracksPanels_runOps s ht ops)
    (ViewSynced_runOps s h ops hstart) i item hi

/-- Witness for the amended C2: after `AddPanel(0); AddPanel(2)` the second View
item belongs to panel 2, the only registered panel named "b", and the cell it is
bound to holds the visibility of panel 2. -/
theorem view_cells_track_last_registered_witness :
    (sampleShell.runOps [Op.add 0, Op.add 2]).viewItems[1]?
      = some (UpdateViewMenu.new_item sampleHeap (fun _ => 0) 2) ∧
    (UpdateViewMenu.new_item sampleHeap (fun _ => 0) 2).p_selected
      = some ((sampleShell.runOps [Op.add 0, Op.add 2]).cellPtr
          ((sampleShell.runOps [Op.add 0, Op.add 2]).nameOf 2)) ∧
    (sampleShell.runOps [Op.add 0, Op.add 2]).deref
        ((sampleShell.runOps [Op.add 0, Op.add 2]).cellPtr
          ((sampleShell.runOps [Op.add 0, Op.add 2]).nameOf 2))
      = some ((sampleShell.runOps [Op.add 0, Op.add 2]).IsVisible 2) := by
  obtain ⟨p, hp, _, hsel, _, huniq⟩ :=
    view_cells_track_last_registered sampleShell (Initialized_SetupDefaultMenus _)
      TableTracksPanels_sampleShell [Op.add 0, Op.add 2] (Or.inl (by decide)) 1
      (UpdateViewMenu.new_item sampleHeap (fun _ => 0) 2) (by decide)
  have h2 : (sampleShell.runOps [Op.add 0, Op.add 2]).panels[1]? = some 2 := by decide
  have hp2 : p = 2 := Option.some.inj (hp.symm.trans h2)
  subst hp2
  exact ⟨by decide, hsel, huniq (by decide)⟩

theorem lock_of_mem (s : GUIManager) (p : PanelPtr) (hp : p ∈ s.panels) :
    s.lock p = some p := by
  simp [lock, hp]

/-- The closure of a View item, run while its panel is alive. -/
theorem viewToggle_of_lock (s : GUIManager) (p : PanelPtr) (b : Bool)
    (hl : s.lock p = some p) :
    s.viewToggle p b =
      { s with
        heap := Function.update s.heap p ((s.heap p).SetVisible b)
        panel_visibility_states := s.panel_visibility_states.assign (s.heap p).GetName b } := by
  simp [viewToggle, hl, Panel.SetVisible, Panel.GetName]

/-- C3. In a state whose View group mirrors the panels, let `p` be the registered
panel at position `i`. Its View item exists, carries `p`'s name and a toggle
callback; invoking that callback with `b` succeeds, sets `p`'s visibility and the
table cell of `p`'s name to `b`, and leaves the visibility (and name) of every
other panel, and the panel collection, unchanged. -/
theorem view_toggle_sets_only_its_panel (s : GUIManager) (hs : s.ViewSynced) (i : Nat)
    (p : PanelPtr) (hp : s.panels[i]? = some p) (b : Bool) :
    ∃ item cb s',
      s.viewItems[i]? = some item ∧ item.name = s.nameOf p ∧
      item.checked_callback = some cb ∧ s.invoke cb b = some s' ∧
      s'.IsVisible p = b ∧
      s'.deref (s'.cellPtr (s'.nameOf p)) = some b ∧
      (∀ q, q ≠ p → s'.IsVisible q = s.IsVisible q ∧ s'.nameOf q = s.nameOf q) ∧
      s'.nameOf p = s.nameOf p ∧ s'.panels = s.panels := by
  have hmem : p ∈ s.panels := List.mem_iff_getElem?.mpr ⟨i, hp⟩
  refine ⟨UpdateViewMenu.new_item s.heap s.erased_nodes p, CheckedCallback.viewToggle p,
    s.viewToggle p b, ?_, rfl, rfl, rfl, ?_⟩
  · rw [hs, List.getElem?_map, hp]
    rfl
  · rw [viewToggle_of_lock s p b (lock_of_mem s p hmem)]
    refine ⟨?_, ?_, ?_, ?_, rfl⟩
    · simp [IsVisible, Panel.IsVisible, Panel.SetVisible]
    · have hn : (Function.update s.heap p ((s.heap p).SetVisible b) p).GetName =
          (s.heap p).GetName := by
        rw [Function.update_same]
        rfl
      rw [deref_cellPtr]
      show s.panel_visibility_states.assign (s.heap p).GetName b
        (Function.update s.heap p ((s.heap p).SetVisible b) p).GetName = some b
      rw [hn]
      simp [VisibilityTable.assign]
    · intro q hq
      simp [IsVisible, nameOf, Function.update_noteq hq]
    · simp [nameOf, Panel.GetName, Panel.SetVisible]

/-- Witness for C3: panels 0 and 2 are registered on the freshly set-up shell and the
View item of panel 2 (position 1) is toggled on. -/
theorem view_toggle_sets_only_its_panel_witness :
    ∃ item cb s',
      (sampleShell.runOps [Op.add 0, Op.add 2]).viewItems[1]? = some item ∧
      item.name = (sampleShell.runOps [Op.add 0, Op.add 2]).nameOf 2 ∧
      item.checked_callback = some cb ∧
      (sampleShell.runOps [Op.add 0, Op.add 2]).invoke cb true = some s' ∧
      s'.IsVisible 2 = true ∧
      s'.deref (s'.cellPtr (s'.nameOf 2)) = some true ∧
      (∀ q, q ≠ 2 →
        s'.IsVisible q = (sampleShell.runOps [Op.add 0, Op.add 2]).IsVisible q ∧
        s'.nameOf q = (sampleShell.runOps [Op.add 0, Op.add 2]).nameOf q) ∧
      s'.nameOf 2 = (sampleShell.runOps [Op.add 0, Op.add 2]).nameOf 2 ∧
      s'.panels = (sampleShell.runOps [Op.add 0, Op.add 2]).panels :=
  view_toggle_sets_only_its_panel (sampleShell.runOps [Op.add 0, Op.add 2])
    (ViewSynced_runOps sampleShell (Initialized_SetupDefaultMenus _) _ (Or.inl (by decide)))
    1 2 (by decide) true

/-- C4, counterexample. With panel 0 (named "a") registered, `GetPanel("a")` finds it,
yet registering panel 1, also named "a", grows the collection from one panel to
two. -/
theorem AddPanel_duplicate_counterexample :
    (sampleShell.AddPanel 0).GetPanel ((sampleShell.AddPanel 0).nameOf 1) = some 0 ∧
    (sampleShell.AddPanel 0).panels = [0] ∧
    ((sampleShell.AddPanel 0).AddPanel 1).panels = [0, 1] ∧
    ((sampleShell.AddPanel 0).AddPanel 1).panels.length
      ≠ (sampleShell.AddPanel 0).panels.length := by
  decide

/-- C4, amended. `AddPanel` appends the panel to the owned collection without
looking at the names already present: in every state, and for every panel, also
one whose name (or which itself) is registered already, the collection afterwards
is the old one followed by the panel, one element longer, and the table cell of
the panel's name holds the panel's visibility. -/
theorem AddPanel_always_appends (s : GUIManager) (p : PanelPtr) (sc : String) :
    (s.AddPanel p sc).panels = s.panels ++ [p] ∧
    (s.AddPanel p sc).panels.length = s.panels.length + 1 ∧
    (s.AddPanel p sc).panel_visibility_states (s.nameOf p) = some (s.IsVisible p) := by
  refine ⟨AddPanel_panels s p sc, by simp [AddPanel_panels], ?_⟩
  have hcell : (s.panel_visibility_states.assign (s.heap p).GetName (s.heap p).IsVisible)
      (s.heap p).GetName = some (s.heap p).IsVisible := by
    simp [VisibilityTable.assign]
  unfold AddPanel
  dsimp only
  split
  · rename_i hcond
    have hv : s.view_menu ≠ none := by
      intro hnone
      simp [hnone] at hcond
    have ht := UpdateViewMenu_table { s with
      panels := s.panels ++ [p]
      panel_visibility_states :=
        s.panel_visibility_states.assign (s.heap p).GetName (s.heap p).IsVisible } hv
    rw [ht]
    exact indexAll_apply_of_some _ _ _ _ hcell
  · exact hcell

/-- C5, counterexample. Panels 0 and 1 are both named "a"; with both registered the
View group has two items, and `RemovePanel("a")` leaves it with none, not with
one. -/
theorem RemovePanel_one_fewer_counterexample :
    0 ∈ (sampleShell.runOps [Op.add 0, Op.add 1]).panels ∧
    (sampleShell.runOps [Op.add 0, Op.add 1]).viewItems.length = 2 ∧
    ((sampleShell.runOps [Op.add 0, Op.add 1]).RemovePanel
      ((sampleShell.runOps [Op.add 0, Op.add 1]).nameOf 0)).viewItems.length = 0 := by
  decide

/-- C5, amended. In every state of an initialised shell in which `p` is registered
and every registered panel has its table cell, `RemovePanel` of `p`'s name
erases exactly one table cell, the one of that name; removes `p` together with
every other panel carrying the name and keeps the remaining panels in order; and
leaves the View group with one item per remaining panel. The View group has
exactly one item fewer than before when it was in step with the panels and `p`'s
name was carried by exactly one entry of the collection. -/
theorem RemovePanel_registered (s : GUIManager) (h : s.Initialized)
    (hcells : ∀ q ∈ s.panels, s.panel_visibility_states (s.nameOf q) ≠ none)
    (p : PanelPtr) (hp : p ∈ s.panels) :
    (s.panel_visibility_states (s.nameOf p) ≠ none ∧
      (s.RemovePanel (s.nameOf p)).panel_visibility_states (s.nameOf p) = none ∧
      ∀ k, k ≠ s.nameOf p →
        (s.RemovePanel (s.nameOf p)).panel_visibility_states k = s.panel_visibility_states k) ∧
    ((s.RemovePanel (s.nameOf p)).panels =
        s.panels.filter (fun q => !(s.nameOf q == s.nameOf p)) ∧
      p ∉ (s.RemovePanel (s.nameOf p)).panels) ∧
    ((s.RemovePanel (s.nameOf p)).viewItems.length = (s.RemovePanel (s.nameOf p)).panels.length ∧
      (s.RemovePanel (s.nameOf p)).panels.length
        + s.panels.countP (fun q => s.nameOf q == s.nameOf p) = s.panels.length) ∧
    (s.viewItems.length = s.panels.length →
      s.panels.countP (fun q => s.nameOf q == s.nameOf p) = 1 →
      (s.RemovePanel (s.nameOf p)).viewItems.length + 1 = s.viewItems.length) := by
  have hpanels := RemovePanel_panels s (s.nameOf p)
  have hlen : (s.RemovePanel (s.nameOf p)).panels.length
      + s.panels.countP (fun q => s.nameOf q == s.nameOf p) = s.panels.length := by
    rw [hpanels]
    exact length_filter_not_add_countP (fun q => s.nameOf q == s.nameOf p) s.panels
  have hview : (s.RemovePanel (s.nameOf p)).viewItems.length
      = (s.RemovePanel (s.nameOf p)).panels.length := by
    have hsync := ViewSynced_apply s h (Op.remove (s.nameOf p))
    have := congrArg List.length hsync
    simpa [Op.apply] using this
  have htable : (s.RemovePanel (s.nameOf p)).panel_visibility_states
      = s.panel_visibility_states.erase (s.nameOf p) := by
    rw [RemovePanel_of_Initialized s h]
    apply UpdateViewMenu_table_eq
    intro q hq
    have hq' := List.mem_filter.mp hq
    have hne : (s.heap q).GetName ≠ s.nameOf p := by simpa using hq'.2
    show (s.panel_visibility_states.erase (s.nameOf p)) (s.heap q).GetName ≠ none
    rw [VisibilityTable.erase, Function.update_noteq hne]
    exact hcells q hq'.1
  refine ⟨⟨hcells p hp, ?_, ?_⟩, ⟨hpanels, ?_⟩, ⟨hview, hlen⟩, ?_⟩
  · rw [htable]
    simp [VisibilityTable.erase]
  · intro k hk
    rw [htable, VisibilityTable.erase, Function.update_noteq hk]
  · rw [hpanels]
    simp [List.mem_filter, nameOf]
  · intro hsync hone
    rw [hview, hsync]
    omega

/-- Witness for the amended C5: panels 0 ("a") and 2 ("b") are registered and "b" is
removed. -/
theorem RemovePanel_registered_witness :
    ((sampleShell.runOps [Op.add 0, Op.add 2]).RemovePanel
        ((sampleShell.runOps [Op.add 0, Op.add 2]).nameOf 2)).viewItems.length + 1
      = (sampleShell.runOps [Op.add 0, Op.add 2]).viewItems.length :=
  (RemovePanel_registered (sampleShell.runOps [Op.add 0, Op.add 2])
    (Initialized_runOps _ (Initialized_SetupDefaultMenus _) _)
    (TableTracksPanels.key_present _
      (TableTracksPanels_runOps _ TableTracksPanels_sampleShell _))
    2 (by decide)).2.2.2 (by decide) (by decide)

theorem KeysAreNames_of_TableTracksPanels (s : GUIManager) (h : s.TableTracksPanels) :
    s.KeysAreNames := by
  intro k
  constructor
  · intro hk
    by_contra hno
    exact hk (TableTracksPanels.key_absent s h k (fun p hp e => hno ⟨p, hp, e⟩))
  · rintro ⟨p, hp, rfl⟩
    exact TableTracksPanels.key_present s h p hp

/-- C6. `RemovePanel` of a name under which no panel is registered returns normally
and leaves the panel collection and the panel objects as they were; the
visibility table is left as it was too, its cells being exactly those of the
registered names. -/
theorem RemovePanel_absent (s : GUIManager) (name : String)
    (habsent : ∀ p ∈ s.panels, s.nameOf p ≠ name) :
    (s.RemovePanel name).panels = s.panels ∧
    (s.RemovePanel name).heap = s.heap ∧
    (s.KeysAreNames →
      (s.RemovePanel name).panel_visibility_states = s.panel_visibility_states) := by
  have hfilter : s.panels.filter (fun panel => !((s.heap panel).GetName == name)) = s.panels :=
    List.filter_eq_self.mpr (fun q hq => by simpa [nameOf] using habsent q hq)
  refine ⟨?_, RemovePanel_heap s name, ?_⟩
  · rw [RemovePanel_panels, hfilter]
  · intro hkeys
    have herase : s.panel_visibility_states.erase name = s.panel_visibility_states := by
      have hnone : s.panel_visibility_states name = none := by
        by_contra hk
        obtain ⟨q, hq, hqn⟩ := (hkeys name).mp hk
        exact habsent q hq hqn
      unfold VisibilityTable.erase
      rw [← hnone]
      exact Function.update_eq_self name s.panel_visibility_states
    unfold RemovePanel
    dsimp only
    rw [hfilter, herase]
    split
    · apply UpdateViewMenu_table_eq
      intro q hq
      exact (hkeys _).mpr ⟨q, hq, rfl⟩
    · rfl

/-- Witness for C6: with panels 0 and 1 (both named "a") registered on the freshly
set-up shell, the name "b" is removed. -/
theorem RemovePanel_absent_witness :
    ((sampleShell.runOps [Op.add 0, Op.add 1]).RemovePanel "b").panels
      = (sampleShell.runOps [Op.add 0, Op.add 1]).panels ∧
    ((sampleShell.runOps [Op.add 0, Op.add 1]).RemovePanel "b").heap
      = (sampleShell.runOps [Op.add 0, Op.add 1]).heap ∧
    ((sampleShell.runOps [Op.add 0, Op.add 1]).RemovePanel "b").panel_visibility_states
      = (sampleShell.runOps [Op.add 0, Op.add 1]).panel_visibility_states :=
  have h := RemovePanel_absent (sampleShell.runOps [Op.add 0, Op.add 1]) "b" (by decide)
  ⟨h.1, h.2.1, h.2.2 (KeysAreNames_of_TableTracksPanels _
    (TableTracksPanels_runOps _ TableTracksPanels_sampleShell _))⟩

theorem viewItems_AddPanelTab (s : GUIManager) (bar : Nat) (tab name sc : String) (i : Nat)
    (x : TabItem) (hx : s.viewItems[i]? = some x) :
    (s.AddPanelTab (some bar) tab name sc).viewItems[i]? = some x := by
  unfold AddPanelTab
  cases s.GetPanel name with
  | none => exact hx
  | some q =>
    unfold viewItems at hx ⊢
    dsimp only
    cases hv : s.view_menu with
    | none => simp [hv] at hx
    | some v =>
      simp only [hv] at hx ⊢
      rw [getElem?_modifyBar]
      cases hb : s.m_tab_bars[v]? with
      | none => simp [hb] at hx
      | some vb =>
        simp only [hb, Option.map_some', Option.getD_some] at hx
        split
        · simp only [Option.map_some', Option.getD_some, TabBar.push_back]
          have hlt : i < vb.items.length := (List.getElem?_eq_some.mp hx).1
          rw [List.getElem?_append_left hlt]
          exact hx
        · simpa using hx

theorem last_item_AddPanelTab (s : GUIManager) (bar : Nat) (tab name sc : String)
    (q : PanelPtr) (hq : s.GetPanel name = some q) (hbar : bar < s.m_tab_bars.length) :
    ((s.AddPanelTab (some bar) tab name sc).m_tab_bars[bar]?).map
        (fun b => b.items.getLast?)
      = some (some (AddPanelTab.new_item s.erased_nodes tab name sc)) := by
  simp [AddPanelTab, hq, getElem?_modifyBar, List.getElem?_eq_getElem hbar, TabBar.push_back]

theorem HandlePanelToggle_of_cell (s : GUIManager) (name : String) (q : PanelPtr) (v : Bool)
    (hq : s.GetPanel name = some q) (hv : s.panel_visibility_states name = some v) :
    s.HandlePanelToggle name =
      { s with heap := Function.update s.heap q ((s.heap q).SetVisible v) } := by
  have hidx : s.panel_visibility_states.index name = s.panel_visibility_states :=
    index_eq_self _ _ (by simp [hv])
  simp [HandlePanelToggle, hq, hidx, hv]

/-- C7, counterexample. Panel 2 ("b", hidden, cell `false`) has its View item and the
item "Panel B" made by `AddPanelTab` in the File menu, both bound to the live cell
of "b". Invoking the callback of "Panel B" with `true` leaves the panel hidden and
the cell `false`. -/
theorem bound_item_toggle_counterexample :
    (sampleBound.m_tab_bars[0]?).map (fun bar => bar.items.map (fun it => it.checked_callback))
      = some [some (CheckedCallback.panelToggle "b")] ∧
    (sampleBound.m_tab_bars[0]?).map (fun bar => bar.items.map (fun it => it.p_selected))
      = some [some (BoolPtr.table "b" 0)] ∧
    sampleBound.viewItems.map (fun it => it.p_selected) = [some (BoolPtr.table "b" 0)] ∧
    sampleBound.panels = [2] ∧
    sampleBound.deref (BoolPtr.table "b" 0) = some false ∧
    (sampleBound.invoke (CheckedCallback.panelToggle "b") true).map
      (fun t => (t.IsVisible 2, t.deref (BoolPtr.table "b" 0))) = some (false, some false) := by
  decide

/-- C7, amended. In a state whose View group mirrors the panels, let `p` be a
registered panel that `GetPanel` finds under its name, and let `tabItem` be an
item as `AddPanelTab` builds it for `p`'s name, whose state-cell pointer is live
(the table node it was taken from has not been erased since).
The View item of `p` and `tabItem` hold the same pointer, the one to the current
table cell of `p`'s name. Invoking the View item's callback with `b` sets `p`'s
visibility and the cell to `b`. Invoking the callback of `tabItem` with `b` does
not use `b` and does not write the cell: it copies the value the cell already
holds into `p`'s visibility, so that `p`'s visibility and the cell agree
afterwards, and both equal `b` when the cell held `b` at the call. -/
theorem bound_items_share_cell (t : GUIManager) (ht : t.ViewSynced) (i : Nat) (p : PanelPtr)
    (hp : t.panels[i]? = some p) (hfirst : t.GetPanel (t.nameOf p) = some p)
    (tabItem : TabItem) (erased : String → Nat) (tab sc : String)
    (hmade : tabItem = AddPanelTab.new_item erased tab (t.nameOf p) sc)
    (hlive : ∀ ptr, tabItem.p_selected = some ptr → t.deref ptr ≠ none) (b : Bool) :
    (∃ viewItem,
      t.viewItems[i]? = some viewItem ∧
      viewItem.checked_callback = some (CheckedCallback.viewToggle p) ∧
      tabItem.checked_callback = some (CheckedCallback.panelToggle (t.nameOf p)) ∧
      viewItem.p_selected = some (t.cellPtr (t.nameOf p)) ∧
      tabItem.p_selected = some (t.cellPtr (t.nameOf p)) ∧
      t.deref (t.cellPtr (t.nameOf p)) ≠ none) ∧
    (∃ t', t.invoke (CheckedCallback.viewToggle p) b = some t' ∧
      t'.IsVisible p = b ∧ t'.deref (t.cellPtr (t.nameOf p)) = some b) ∧
    (∃ t', t.invoke (CheckedCallback.panelToggle (t.nameOf p)) b = some t' ∧
      t'.deref (t.cellPtr (t.nameOf p)) = t.deref (t.cellPtr (t.nameOf p)) ∧
      t'.deref (t.cellPtr (t.nameOf p)) = some (t'.IsVisible p) ∧
      (t.deref (t.cellPtr (t.nameOf p)) = some b →
        t'.IsVisible p = b ∧ t'.deref (t.cellPtr (t.nameOf p)) = some b)) := by
  have hmem : p ∈ t.panels := List.mem_iff_getElem?.mpr ⟨i, hp⟩
  have hview : t.viewItems[i]? = some (UpdateViewMenu.new_item t.heap t.erased_nodes p) := by
    rw [ht, List.getElem?_map, hp]
    rfl
  have hsel : tabItem.p_selected
      = some (BoolPtr.table (t.nameOf p) (erased (t.nameOf p))) := by
    rw [hmade]
    rfl
  have hl := hlive _ hsel
  have hnode : t.erased_nodes (t.nameOf p) = erased (t.nameOf p) := by
    by_contra hne
    exact hl (by simp [deref, hne])
  have hptr : BoolPtr.table (t.nameOf p) (erased (t.nameOf p)) = t.cellPtr (t.nameOf p) := by
    rw [cellPtr, hnode]
  rw [hptr] at hsel hl
  obtain ⟨value, hvalue⟩ : ∃ value, t.panel_visibility_states (t.nameOf p) = some value := by
    rw [deref_cellPtr] at hl
    exact Option.ne_none_iff_exists'.mp hl
  refine ⟨⟨UpdateViewMenu.new_item t.heap t.erased_nodes p, hview, rfl, ?_, rfl, hsel, hl⟩,
    ⟨t.viewToggle p b, rfl, ?_⟩, ⟨t.HandlePanelToggle (t.nameOf p), rfl, ?_⟩⟩
  · rw [hmade]
    rfl
  · rw [viewToggle_of_lock t p b (lock_of_mem t p hmem)]
    constructor
    · simp [IsVisible, Panel.IsVisible, Panel.SetVisible]
    · show (if t.erased_nodes (t.nameOf p) = t.erased_nodes (t.nameOf p) then
        t.panel_visibility_states.assign (t.heap p).GetName b (t.nameOf p) else none) = some b
      rw [if_pos rfl]
      show t.panel_visibility_states.assign (t.nameOf p) b (t.nameOf p) = some b
      simp [VisibilityTable.assign]
  · rw [HandlePanelToggle_of_cell t _ p value hfirst hvalue]
    have hvis : IsVisible { t with
        heap := (Function.update t.heap p ((t.heap p).SetVisible value)) } p = value := by
      simp [IsVisible, Panel.IsVisible, Panel.SetVisible]
    have hcell : t.deref (t.cellPtr (t.nameOf p)) = some value := by
      rw [deref_cellPtr]
      exact hvalue
    refine ⟨rfl, ?_, ?_⟩
    · rw [hvis]
      exact hcell
    · intro hb
      rw [hcell] at hb
      rw [hvis]
      exact ⟨Option.some.inj hb, hcell.trans hb⟩

/-- Witness for the amended C7: panel 2 is registered, bound to "Panel B", removed,
registered again and bound to "Panel B again". The first item holds the address
of the erased node and is not covered; the second one and the View item hold the
address of the current cell of "b". -/
theorem bound_items_share_cell_witness :
    sampleRebound.panels = [2] ∧
    (sampleRebound.m_tab_bars[0]?).map (fun bar => bar.items.map (fun it => it.p_selected))
      = some [some (BoolPtr.table "b" 0), some (BoolPtr.table "b" 1)] ∧
    (sampleRebound.m_tab_bars[0]?).map (fun bar => bar.items[1]?)
      = some (some (AddPanelTab.new_item (fun _ => 1) "Panel B again" "b" "")) ∧
    sampleRebound.viewItems.map (fun it => it.p_selected) = [some (BoolPtr.table "b" 1)] ∧
    sampleRebound.deref (BoolPtr.table "b" 0) = none ∧
    sampleRebound.deref (BoolPtr.table "b" 1) = some false ∧
    (∃ t', sampleRebound.invoke (CheckedCallback.viewToggle 2) true = some t' ∧
      t'.IsVisible 2 = true ∧
      t'.deref (sampleRebound.cellPtr (sampleRebound.nameOf 2)) = some true) ∧
    (∃ t', sampleRebound.invoke (CheckedCallback.panelToggle (sampleRebound.nameOf 2)) false
        = some t' ∧
      t'.deref (sampleRebound.cellPtr (sampleRebound.nameOf 2))
        = sampleRebound.deref (sampleRebound.cellPtr (sampleRebound.nameOf 2)) ∧
      t'.deref (sampleRebound.cellPtr (sampleRebound.nameOf 2)) = some (t'.IsVisible 2) ∧
      (sampleRebound.deref (sampleRebound.cellPtr (sampleRebound.nameOf 2)) = some false →
        t'.IsVisible 2 = false ∧
        t'.deref (sampleRebound.cellPtr (sampleRebound.nameOf 2)) = some false)) :=
  ⟨by decide, by decide, by decide, by decide, by decide, by decide,
   (bound_items_share_cell sampleRebound (by unfold ViewSynced; decide) 0 2 (by decide)
      (by decide) (AddPanelTab.new_item (fun _ => 1) "Panel B again" "b" "")
      (fun _ => 1) "Panel B again" "" rfl (by decide) true).2.1,
   (bound_items_share_cell sampleRebound (by unfold ViewSynced; decide) 0 2 (by decide)
      (by decide) (AddPanelTab.new_item (fun _ => 1) "Panel B again" "b" "")
      (fun _ => 1) "Panel B again" "" rfl (by decide) false).2.2⟩

/-- C8. Invoking a View toggle callback whose weak reference no longer resolves
returns normally and leaves the whole state, hence every panel's visibility and
every visibility-table entry, as it was, whichever boolean is passed. -/
theorem stale_view_toggle_noop (s : GUIManager) (weak_panel : PanelPtr) (b : Bool)
    (hdead : s.lock weak_panel = none) :
    s.invoke (CheckedCallback.viewToggle weak_panel) b = some s := by
  simp [invoke, viewToggle, hdead]

/-- Witness for C8: panel 2 is registered, which gives its View item the callback
capturing it, and removed again; nobody else holds it, so it is destroyed, and the
stale callback changes nothing. -/
theorem stale_view_toggle_noop_witness :
    (sampleShell.AddPanel 2).viewItems.map (fun it => it.checked_callback)
      = [some (CheckedCallback.viewToggle 2)] ∧
    sampleRemoved.lock 2 = none ∧
    sampleRemoved.invoke (CheckedCallback.viewToggle 2) true = some sampleRemoved ∧
    sampleRemoved.invoke (CheckedCallback.viewToggle 2) false = some sampleRemoved :=
  ⟨by decide, by decide,
    stale_view_toggle_noop sampleRemoved 2 true (by decide),
    stale_view_toggle_noop sampleRemoved 2 false (by decide)⟩

/-- C9. `AddPanelTab` (either overload) with a null group handle, `AddPanelTab` with
the name of a panel that is not registered, and every `AddSubTab` overload with a
null group handle return normally and leave the whole state (menu tree, panel
collection, visibility table) as it was. -/
theorem null_or_unknown_is_noop (s : GUIManager) :
    (∀ tab name sc, s.AddPanelTab none tab name sc = s) ∧
    (∀ bar tab name sc, (∀ p ∈ s.panels, s.nameOf p ≠ name) →
      s.AddPanelTab bar tab name sc = s) ∧
    (∀ tab panel sc, s.AddPanelTabShared none tab panel sc = s) ∧
    (∀ name cb, s.AddSubTab none name cb = s) ∧
    (∀ name sc cb, s.AddSubTabShortcut none name sc cb = s) ∧
    (∀ name sel cb, s.AddSubTabChecked none name sel cb = s) ∧
    (∀ name sel sc cb, s.AddSubTabCheckedShortcut none name sel sc cb = s) := by
  refine ⟨fun _ _ _ => rfl, ?_, ?_, fun _ _ => rfl, fun _ _ _ => rfl, fun _ _ _ => rfl,
    fun _ _ _ _ => rfl⟩
  · intro bar tab name sc hunknown
    have hget : s.GetPanel name = none :=
      List.find?_eq_none.mpr (fun q hq => by simpa [nameOf] using hunknown q hq)
    cases bar with
    | none => rfl
    | some b => simp [AddPanelTab, hget]
  · intro tab panel sc
    cases panel <;> rfl

/-- Witness for C9: on the shell with panel 0 ("a") registered, the name "b" is
unknown, and binding it to an item of the File menu changes nothing. -/
theorem null_or_unknown_is_noop_witness :
    (sampleShell.AddPanel 0).AddPanelTab (some 0) "Panel B" "b" "Ctrl+B"
      = sampleShell.AddPanel 0 :=
  (null_or_unknown_is_noop (sampleShell.AddPanel 0)).2.1 (some 0) "Panel B" "b" "Ctrl+B"
    (by decide)

theorem addGroups_m_tab_bars (s : GUIManager) (names : List String) :
    (s.addGroups names).m_tab_bars = s.m_tab_bars ++ names.map (fun n => { id := n }) := by
  induction names generalizing s with
  | nil => simp [addGroups]
  | cons n ns ih =>
    have := ih (s.AddTabs n).1
    simp only [addGroups, List.foldl_cons] at this ⊢
    rw [this]
    simp [AddTabs]

theorem addGroups_view_menu (s : GUIManager) (names : List String) :
    (s.addGroups names).view_menu = s.view_menu := by
  induction names generalizing s with
  | nil => rfl
  | cons n ns ih =>
    have := ih (s.AddTabs n).1
    simp only [addGroups, List.foldl_cons] at this ⊢
    rw [this]
    rfl

/-- C10. Starting from an empty menu tree, after `SetupDefaultMenus` followed by any
run of `AddTabs` calls with any names (none included), the top-level groups are
File, Emulation, View, Help and then the added ones in call order; the group at
index 2 is named "View", it is the group `GetTabBar("View")` finds and the one
`view_menu` points to. -/
theorem view_stays_at_index_two (s : GUIManager) (hempty : s.m_tab_bars = [])
    (names : List String) :
    (s.SetupDefaultMenus.addGroups names).m_tab_bars.map (fun bar => bar.id)
      = ["File", "Emulation", "View", "Help"] ++ names ∧
    ((s.SetupDefaultMenus.addGroups names).m_tab_bars[2]?).map (fun bar => bar.id)
      = some "View" ∧
    (s.SetupDefaultMenus.addGroups names).GetTabBar "View" = some 2 ∧
    (s.SetupDefaultMenus.addGroups names).view_menu = some 2 := by
  have hbars : (s.SetupDefaultMenus.addGroups names).m_tab_bars
      = [{ id := "File" }, { id := "Emulation" }, { id := "View" }, { id := "Help" }]
        ++ names.map (fun n => { id := n }) := by
    rw [addGroups_m_tab_bars]
    simp [SetupDefaultMenus, AddTabs, hempty]
  refine ⟨?_, ?_, ?_, ?_⟩
  · rw [hbars]
    simp [Function.comp_def]
  · rw [hbars]
    rfl
  · rw [GetTabBar, hbars]
    simp [List.findIdx?_cons]
  · rw [addGroups_view_menu]
    simp [SetupDefaultMenus, AddTabs, hempty]

/-- Witness for C10: a further "View", a "Tools" and a "Help" group are added after
the default setup of a new shell. -/
theorem view_stays_at_index_two_witness :
    (sampleShell.addGroups ["View", "Tools", "Help"]).m_tab_bars.map (fun bar => bar.id)
      = ["File", "Emulation", "View", "Help"] ++ ["View", "Tools", "Help"] ∧
    ((sampleShell.addGroups ["View", "Tools", "Help"]).m_tab_bars[2]?).map (fun bar => bar.id)
      = some "View" ∧
    (sampleShell.addGroups ["View", "Tools", "Help"]).GetTabBar "View" = some 2 ∧
    (sampleShell.addGroups ["View", "Tools", "Help"]).view_menu = some 2 :=
  view_stays_at_index_two (GUIManager.new sampleHeap []) rfl ["View", "Tools", "Help"]

end GUIManager

namespace GUIManager

theorem groupNames_addGroups (s : GUIManager) (names : List String) :
    (s.addGroups names).groupNames = s.groupNames ++ names := by
  simp [groupNames, addGroups_m_tab_bars, Function.comp_def]

theorem findIdx?_map_id (l : List TabBar) (name : String) (k : Nat) :
    l.findIdx? (fun bar => bar.id == name) k
      = (l.map (fun bar => bar.id)).findIdx? (fun n => n == name) k := by
  induction l generalizing k with
  | nil => rfl
  | cons b bs ih => simp [List.findIdx?_cons, ih]

/-- C11, counterexample. A second `AddTabs("View")` on the freshly set-up shell
leaves two top-level groups named "View". -/
theorem group_names_unique_counterexample :
    (sampleShell.addGroups ["View"]).groupNames
      = ["File", "Emulation", "View", "Help", "View"] ∧
    ¬ (sampleShell.addGroups ["View"]).groupNames.Nodup := by
  decide

/-- C11, amended. `AddTabs` appends a group under whatever name it is given: after
every sequence of `AddTabs` calls the top-level names are the names present
before, followed by the names of the calls in call order, repetitions included.
No two top-level groups carry the same name exactly when those names are pairwise
distinct, and `GetTabBar` returns the first group carrying the name asked for. -/
theorem group_names_follow_calls (s : GUIManager) (names : List String) :
    (s.addGroups names).groupNames = s.groupNames ++ names ∧
    ((s.addGroups names).groupNames.Nodup ↔ (s.groupNames ++ names).Nodup) ∧
    (∀ name, (s.addGroups names).GetTabBar name
      = (s.groupNames ++ names).findIdx? (fun n => n == name)) := by
  refine ⟨groupNames_addGroups s names, by rw [groupNames_addGroups], ?_⟩
  intro name
  rw [← groupNames_addGroups, GetTabBar, findIdx?_map_id]
  rfl

/-- C18. In every state, initialised or not, and for every name, `AddTabs` pushes the
new, empty group at the back: the groups afterwards are the old ones, unchanged
and in the same order, followed by the new one; there is exactly one group more;
the returned handle designates the new group; no other member changes. The
index computed in the placement block is not used for the insertion (and equals
the number of groups in every case), so after a run of calls the top-level order
is the call order. -/
theorem AddTabs_appends (s : GUIManager) (name : String) :
    (s.AddTabs name).1.m_tab_bars = s.m_tab_bars ++ [{ id := name, items := [] }] ∧
    (s.AddTabs name).1.m_tab_bars.length = s.m_tab_bars.length + 1 ∧
    (∀ i, i < s.m_tab_bars.length → (s.AddTabs name).1.m_tab_bars[i]? = s.m_tab_bars[i]?) ∧
    (s.AddTabs name).1.m_tab_bars[(s.AddTabs name).2]? = some { id := name, items := [] } ∧
    (s.AddTabs name).2 = s.m_tab_bars.length ∧
    AddTabs.insert_pos s name = s.m_tab_bars.length ∧
    ((s.AddTabs name).1.panels = s.panels ∧
      (s.AddTabs name).1.panel_visibility_states = s.panel_visibility_states ∧
      (s.AddTabs name).1.view_menu = s.view_menu ∧
      (s.AddTabs name).1.menus_initialized = s.menus_initialized ∧
      (s.AddTabs name).1.heap = s.heap) ∧
    (∀ names, (s.addGroups names).groupNames = s.groupNames ++ names) := by
  refine ⟨rfl, by simp [AddTabs], ?_, by simp [AddTabs], rfl, ?_,
    ⟨rfl, rfl, rfl, rfl, rfl⟩, groupNames_addGroups s⟩
  · intro i hi
    show (s.m_tab_bars ++ [_])[i]? = _
    exact List.getElem?_append_left hi
  · unfold AddTabs.insert_pos
    split_ifs <;> first | rfl | omega

/-- Witness for C18: on the set-up shell, which has four groups, a "Tools" group is
added; the old groups keep their places and the new one comes last. -/
theorem AddTabs_appends_witness :
    (sampleShell.AddTabs "Tools").1.groupNames
      = ["File", "Emulation", "View", "Help", "Tools"] ∧
    (sampleShell.AddTabs "Tools").1.m_tab_bars[2]? = sampleShell.m_tab_bars[2]? :=
  ⟨by decide, (AddTabs_appends sampleShell "Tools").2.2.1 2 (by decide)⟩

end GUIManager

namespace GUIManager

theorem lastItem_push (bars : List TabBar) (bar : Nat) (hbar : bar < bars.length)
    (it : TabItem) (s : GUIManager)
    (hs : s.m_tab_bars = modifyBar (TabBar.push_back it) bars bar) :
    s.lastItem bar = some it := by
  simp [lastItem, hs, getElem?_modifyBar, List.getElem?_eq_getElem hbar, TabBar.push_back]

theorem UpdateViewMenu_length (s : GUIManager) :
    s.UpdateViewMenu.m_tab_bars.length = s.m_tab_bars.length := by
  cases hv : s.view_menu with
  | none => simp [UpdateViewMenu, hv]
  | some v =>
    rw [UpdateViewMenu_eq s v hv]
    exact length_modifyBar _ _ _

theorem AddPanel_length (s : GUIManager) (p : PanelPtr) (sc : String) :
    (s.AddPanel p sc).m_tab_bars.length = s.m_tab_bars.length := by
  unfold AddPanel
  dsimp only
  split
  · rw [UpdateViewMenu_length]
  · rfl

theorem GetPanel_AddPanel_isSome (s : GUIManager) (p : PanelPtr) (sc : String) :
    ∃ q, (s.AddPanel p sc).GetPanel (s.heap p).GetName = some q := by
  cases h : (s.AddPanel p sc).GetPanel (s.heap p).GetName with
  | some q => exact ⟨q, rfl⟩
  | none =>
    exfalso
    have hnone := List.find?_eq_none.mp h p
      (by rw [AddPanel_panels]; exact List.mem_append_right _ (List.mem_singleton_self p))
    rw [AddPanel_heap] at hnone
    simp at hnone

theorem lastItem_AddPanelTab (s : GUIManager) (bar : Nat) (hbar : bar < s.m_tab_bars.length)
    (tab name sc : String) (q : PanelPtr) (hq : s.GetPanel name = some q) :
    (s.AddPanelTab (some bar) tab name sc).lastItem bar
      = some (AddPanelTab.new_item s.erased_nodes tab name sc) := by
  apply lastItem_push s.m_tab_bars bar hbar
  simp [AddPanelTab, hq]

/-- C17, counterexample. `AddSubTab(File, "Exit", callback)` with an empty callback
creates an item with none of the three shapes populated, and the toggle overload
called with a callback but a null state cell does so too. -/
theorem item_shape_counterexample :
    ((sampleShell.AddSubTab (some 0) "Exit" none).lastItem 0).map TabItem.shapeCount
      = some 0 ∧
    ((sampleShell.AddSubTabChecked (some 0) "Flag" none (some 7)).lastItem 0).map
      TabItem.shapeCount = some 0 := by
  decide

/-- C17, amended. The Add operations store what they are given. For every state and
every handle of an existing bar: the item created by either action overload of
`AddSubTab` has exactly one shape populated (the action callback) exactly when
the callback passed is non-empty; the item created by either toggle overload
has exactly one shape populated (the toggle) exactly when the state-cell pointer
is non-null and the callback is non-empty; the item created by `AddPanelTab` for
a registered name, or for a non-null panel, has exactly the toggle populated; and
so has every item of the View group after its regeneration. None of these items
has a nested group, and none has more than one shape populated. -/
theorem item_shapes (s : GUIManager) (bar : Nat) (hbar : bar < s.m_tab_bars.length) :
    (∀ name cb, ∃ it, (s.AddSubTab (some bar) name cb).lastItem bar = some it ∧
      it.nested_tabs = none ∧ it.shapeCount ≤ 1 ∧
      (it.shapeCount = 1 ↔ cb ≠ none)) ∧
    (∀ name sc cb, ∃ it, (s.AddSubTabShortcut (some bar) name sc cb).lastItem bar = some it ∧
      it.nested_tabs = none ∧ it.shapeCount ≤ 1 ∧
      (it.shapeCount = 1 ↔ cb ≠ none)) ∧
    (∀ name sel cb, ∃ it, (s.AddSubTabChecked (some bar) name sel cb).lastItem bar = some it ∧
      it.nested_tabs = none ∧ it.shapeCount ≤ 1 ∧
      (it.shapeCount = 1 ↔ sel ≠ none ∧ cb ≠ none)) ∧
    (∀ name sel sc cb, ∃ it,
      (s.AddSubTabCheckedShortcut (some bar) name sel sc cb).lastItem bar = some it ∧
      it.nested_tabs = none ∧ it.shapeCount ≤ 1 ∧
      (it.shapeCount = 1 ↔ sel ≠ none ∧ cb ≠ none)) ∧
    (∀ tab name sc, (∃ q ∈ s.panels, s.nameOf q = name) →
      ∃ it, (s.AddPanelTab (some bar) tab name sc).lastItem bar = some it ∧
        it.nested_tabs = none ∧ it.render_callback = none ∧ it.shapeCount = 1) ∧
    (∀ tab p sc, ∃ it, (s.AddPanelTabShared (some bar) tab (some p) sc).lastItem bar = some it ∧
      it.nested_tabs = none ∧ it.render_callback = none ∧ it.shapeCount = 1) ∧
    (∀ it ∈ s.UpdateViewMenu.viewItems,
      it.nested_tabs = none ∧ it.render_callback = none ∧ it.shapeCount = 1) := by
  refine ⟨?_, ?_, ?_, ?_, ?_, ?_, ?_⟩
  · intro name cb
    refine ⟨_, lastItem_push s.m_tab_bars bar hbar _ _ rfl, rfl, ?_, ?_⟩ <;>
      cases cb <;> simp [TabItem.shapeCount]
  · intro name sc cb
    refine ⟨_, lastItem_push s.m_tab_bars bar hbar _ _ rfl, rfl, ?_, ?_⟩ <;>
      cases cb <;> simp [TabItem.shapeCount]
  · intro name sel cb
    refine ⟨_, lastItem_push s.m_tab_bars bar hbar _ _ rfl, rfl, ?_, ?_⟩ <;>
      cases cb <;> cases sel <;> simp [TabItem.shapeCount]
  · intro name sel sc cb
    refine ⟨_, lastItem_push s.m_tab_bars bar hbar _ _ rfl, rfl, ?_, ?_⟩ <;>
      cases cb <;> cases sel <;> simp [TabItem.shapeCount]
  · rintro tab name sc ⟨q, hq, hname⟩
    cases hget : s.GetPanel name with
    | none =>
      exfalso
      have := List.find?_eq_none.mp hget q hq
      simp [nameOf] at hname
      simp [hname] at this
    | some q' =>
      exact ⟨_, lastItem_AddPanelTab s bar hbar tab name sc q' hget, rfl, rfl, rfl⟩
  · intro tab p sc
    unfold AddPanelTabShared
    dsimp only
    cases hget : s.GetPanel (s.heap p).GetName with
    | some q' =>
      exact ⟨_, lastItem_AddPanelTab s bar hbar tab _ sc q' hget, rfl, rfl, rfl⟩
    | none =>
      dsimp only
      obtain ⟨q', hq'⟩ := GetPanel_AddPanel_isSome s p ""
      rw [AddPanel_heap]
      exact ⟨_, lastItem_AddPanelTab (s.AddPanel p) bar
        (by rw [AddPanel_length]; exact hbar) tab _ sc q' hq', rfl, rfl, rfl⟩
  · intro it hit
    cases hv : s.view_menu with
    | none => simp [UpdateViewMenu, viewItems, hv] at hit
    | some v =>
      by_cases hlt : v < s.m_tab_bars.length
      · rw [viewItems_UpdateViewMenu s v hv hlt] at hit
        obtain ⟨p, _, rfl⟩ := List.mem_map.mp hit
        exact ⟨rfl, rfl, rfl⟩
      · exfalso
        have hnone : s.UpdateViewMenu.m_tab_bars[v]? = none := by
          apply List.getElem?_eq_none
          rw [UpdateViewMenu_length]
          omega
        simp [viewItems, UpdateViewMenu_view_menu, hv, hnone] at hit

/-- Witness for the amended C17: on the set-up shell with panel 2 registered, items
are added to the File menu and the View group is regenerated. -/
theorem item_shapes_witness :
    (∃ it, ((sampleShell.AddPanel 2).AddSubTab (some 0) "Exit" (some 1)).lastItem 0 = some it ∧
      it.nested_tabs = none ∧ it.shapeCount ≤ 1 ∧
      (it.shapeCount = 1 ↔ (some 1 : Option Nat) ≠ none)) ∧
    (∃ it, ((sampleShell.AddPanel 2).AddPanelTab (some 0) "Panel B" "b" "").lastItem 0
        = some it ∧
      it.nested_tabs = none ∧ it.render_callback = none ∧ it.shapeCount = 1) :=
  ⟨(item_shapes (sampleShell.AddPanel 2) 0 (by decide)).1 "Exit" (some 1),
   (item_shapes (sampleShell.AddPanel 2) 0 (by decide)).2.2.2.2.1 "Panel B" "b" ""
    ⟨2, by decide, by decide⟩⟩

end GUIManager

/-! ## Reachable states are well formed -/

theorem getElem?_modifyBar_push (it : TabItem) (bars : List TabBar) (k i : Nat) (b' : TabBar)
    (item : TabItem) (hb : (modifyBar (TabBar.push_back it) bars k)[i]? = some b')
    (hitem : item ∈ b'.items) :
    (∃ b, bars[i]? = some b ∧ item ∈ b.items) ∨ item = it := by
  rw [getElem?_modifyBar] at hb
  split at hb
  · cases hbi : bars[i]? with
    | none => simp [hbi] at hb
    | some b =>
      simp only [hbi, Option.map_some', Option.some.injEq] at hb
      subst hb
      simp only [TabBar.push_back, List.mem_append, List.mem_singleton] at hitem
      rcases hitem with h | h
      · exact Or.inl ⟨b, rfl, h⟩
      · exact Or.inr h
  · exact Or.inl ⟨b', hb, hitem⟩

theorem getElem?_append_empty (bars extra : List TabBar) (hextra : ∀ e ∈ extra, e.items = [])
    (i : Nat) (b : TabBar) (item : TabItem) (hb : (bars ++ extra)[i]? = some b)
    (hitem : item ∈ b.items) : bars[i]? = some b := by
  by_cases hi : i < bars.length
  · rwa [List.getElem?_append_left hi] at hb
  · exfalso
    rw [List.getElem?_append_right (by omega)] at hb
    have hmem : b ∈ extra := List.mem_iff_getElem?.mpr ⟨_, hb⟩
    rw [hextra b hmem] at hitem
    simp at hitem

namespace GUIManager

theorem getElem?_UpdateViewMenu (s : GUIManager) (v : Nat) (hv : s.view_menu = some v)
    (i : Nat) (b' : TabBar) (item : TabItem)
    (hb : s.UpdateViewMenu.m_tab_bars[i]? = some b') (hitem : item ∈ b'.items) :
    (i = v ∧ ∃ p ∈ s.panels, item = UpdateViewMenu.new_item s.heap s.erased_nodes p) ∨
    (i ≠ v ∧ ∃ b, s.m_tab_bars[i]? = some b ∧ item ∈ b.items) := by
  rw [UpdateViewMenu_eq s v hv] at hb
  simp only [getElem?_modifyBar] at hb
  split at hb
  · rename_i hvi
    cases hbi : s.m_tab_bars[i]? with
    | none => simp [hbi] at hb
    | some b =>
      simp only [hbi, Option.map_some', Option.some.injEq] at hb
      subst hb
      obtain ⟨p, hp, rfl⟩ := List.mem_map.mp hitem
      exact Or.inl ⟨hvi.symm, p, hp, rfl⟩
  · rename_i hvi
    exact Or.inr ⟨fun e => hvi e.symm, b', hb, hitem⟩

theorem NoNested_of_items (s s' : GUIManager)
    (h : ∀ (i : Nat) (b' : TabBar) (item : TabItem),
      s'.m_tab_bars[i]? = some b' → item ∈ b'.items →
      (∃ b, s.m_tab_bars[i]? = some b ∧ item ∈ b.items) ∨ item.nested_tabs = none)
    (hs : s.NoNested) : s'.NoNested := by
  intro b' hb' item hitem
  obtain ⟨i, hi⟩ := List.mem_iff_getElem?.mp hb'
  rcases h i b' item hi hitem with ⟨b, hb, hmem⟩ | hnone
  · exact hs b (List.mem_iff_getElem?.mpr ⟨i, hb⟩) item hmem
  · exact hnone

theorem ViewClosuresRegistered_of_items (s s' : GUIManager)
    (h : ∀ (i : Nat) (b' : TabBar) (item : TabItem),
      s'.m_tab_bars[i]? = some b' → item ∈ b'.items →
      (∃ b, s.m_tab_bars[i]? = some b ∧ item ∈ b.items) ∨
      (∀ p, item.checked_callback ≠ some (CheckedCallback.viewToggle p)))
    (hpanels : ∀ p ∈ s.panels, p ∈ s'.panels) (hview : s'.view_menu = s.view_menu)
    (hinit : s'.menus_initialized = s.menus_initialized)
    (hs : s.ViewClosuresRegistered) : s'.ViewClosuresRegistered := by
  intro i b' item p hb' hitem hcb
  rcases h i b' item hb' hitem with ⟨b, hb, hmem⟩ | hno
  · obtain ⟨h1, h2, h3⟩ := hs i b item p hb hmem hcb
    exact ⟨hpanels p h1, by rw [hview, h2], by rw [hinit, h3]⟩
  · exact absurd hcb (hno p)

theorem NoNested_UpdateViewMenu (s : GUIManager) (hs : s.NoNested) :
    s.UpdateViewMenu.NoNested := by
  cases hv : s.view_menu with
  | none =>
    have : s.UpdateViewMenu = s := by simp [UpdateViewMenu, hv]
    rw [this]
    exact hs
  | some v =>
    apply NoNested_of_items s _ _ hs
    intro i b' item hb hitem
    rcases getElem?_UpdateViewMenu s v hv i b' item hb hitem with ⟨_, p, _, rfl⟩ | ⟨_, h⟩
    · exact Or.inr rfl
    · exact Or.inl h

/-- After the regeneration of the View group the closures are those of the registered
panels, provided no other group held one before. -/
theorem ViewClosuresRegistered_UpdateViewMenu (s : GUIManager) (v : Nat)
    (hv : s.view_menu = some v) (hinit : s.menus_initialized = true)
    (hother : ∀ (i : Nat) (b : TabBar) (item : TabItem) (p : PanelPtr),
      i ≠ v → s.m_tab_bars[i]? = some b → item ∈ b.items →
      item.checked_callback ≠ some (CheckedCallback.viewToggle p)) :
    s.UpdateViewMenu.ViewClosuresRegistered := by
  intro i b' item p hb hitem hcb
  rw [UpdateViewMenu_panels, UpdateViewMenu_view_menu, UpdateViewMenu_menus_initialized]
  rcases getElem?_UpdateViewMenu s v hv i b' item hb hitem with ⟨hi, q, hq, rfl⟩ | ⟨hi, b, hb0, hmem⟩
  · simp only [UpdateViewMenu.new_item, Option.some.injEq, CheckedCallback.viewToggle.injEq]
      at hcb
    subst hcb
    exact ⟨hq, by rw [hv, hi], hinit⟩
  · exact absurd hcb (hother i b item p hi hb0 hmem)

theorem KeysAreNames_UpdateViewMenu (s : GUIManager) (hs : s.KeysAreNames) :
    s.UpdateViewMenu.KeysAreNames := by
  have htable := UpdateViewMenu_table_eq s (fun p hp => (hs _).mpr ⟨p, hp, rfl⟩)
  intro k
  rw [htable, UpdateViewMenu_panels]
  simp only [nameOf, UpdateViewMenu_heap]
  exact hs k

end GUIManager

namespace GUIManager

theorem KeysAreNames_congr (s s' : GUIManager) (hpanels : s'.panels = s.panels)
    (hnames : ∀ q, (s'.heap q).GetName = (s.heap q).GetName)
    (htable : s'.panel_visibility_states = s.panel_visibility_states)
    (hs : s.KeysAreNames) : s'.KeysAreNames := by
  intro k
  rw [htable, hpanels]
  simp only [nameOf, hnames]
  exact hs k

theorem GetName_update_SetVisible (heap : PanelPtr → Panel) (p : PanelPtr) (v : Bool)
    (q : PanelPtr) :
    (Function.update heap p ((heap p).SetVisible v) q).GetName = (heap q).GetName := by
  by_cases hq : q = p
  · subst hq
    rw [Function.update_same]
    rfl
  · rw [Function.update_noteq hq]

theorem KeysAreNames_add (s : GUIManager) (hs : s.KeysAreNames) (p : PanelPtr) :
    KeysAreNames { s with
      panels := s.panels ++ [p]
      panel_visibility_states :=
        s.panel_visibility_states.assign (s.heap p).GetName (s.heap p).IsVisible } := by
  intro k
  simp only [nameOf, VisibilityTable.assign, VisibilityTable.index, List.mem_append,
    List.mem_singleton]
  by_cases hk : k = (s.heap p).GetName
  · subst hk
    simp only [Function.update_same, ne_eq, reduceCtorEq, not_false_eq_true, true_iff]
    exact ⟨p, Or.inr rfl, rfl⟩
  · rw [Function.update_noteq hk, Function.update_noteq hk]
    rw [hs k]
    constructor
    · rintro ⟨q, hq, hqk⟩
      exact ⟨q, Or.inl hq, hqk⟩
    · rintro ⟨q, hq | hq, hqk⟩
      · exact ⟨q, hq, hqk⟩
      · subst hq
        exact absurd hqk.symm hk

theorem KeysAreNames_remove (s : GUIManager) (hs : s.KeysAreNames) (name : String) :
    KeysAreNames { s with
      panels := s.panels.filter (fun panel => !((s.heap panel).GetName == name))
      panel_visibility_states := s.panel_visibility_states.erase name
      erased_nodes := s.panel_visibility_states.erasedAfter s.erased_nodes name } := by
  intro k
  simp only [nameOf, VisibilityTable.erase, List.mem_filter, Bool.not_eq_true',
    beq_eq_false_iff_ne, ne_eq]
  by_cases hk : k = name
  · subst hk
    simp only [Function.update_same, not_true_eq_false, false_iff, not_exists, not_and]
    rintro q ⟨_, hq⟩ hqk
    exact hq hqk
  · rw [Function.update_noteq hk]
    have := hs k
    simp only [nameOf, ne_eq] at this
    rw [this]
    constructor
    · rintro ⟨q, hq, hqk⟩
      exact ⟨q, ⟨hq, fun e => hk (hqk ▸ e)⟩, hqk⟩
    · rintro ⟨q, ⟨hq, _⟩, hqk⟩
      exact ⟨q, hq, hqk⟩

theorem KeysAreNames_AddPanel (s : GUIManager) (hs : s.KeysAreNames) (p : PanelPtr)
    (sc : String) : (s.AddPanel p sc).KeysAreNames := by
  unfold AddPanel
  dsimp only
  split
  · exact KeysAreNames_UpdateViewMenu _ (KeysAreNames_add s hs p)
  · exact KeysAreNames_add s hs p

theorem KeysAreNames_RemovePanel (s : GUIManager) (hs : s.KeysAreNames) (name : String) :
    (s.RemovePanel name).KeysAreNames := by
  unfold RemovePanel
  dsimp only
  split
  · exact KeysAreNames_UpdateViewMenu _ (KeysAreNames_remove s hs name)
  · exact KeysAreNames_remove s hs name

theorem key_of_GetPanel (s : GUIManager) (hs : s.KeysAreNames) (name : String) (q : PanelPtr)
    (hq : s.GetPanel name = some q) : s.panel_visibility_states name ≠ none := by
  apply (hs name).mpr
  refine ⟨q, List.mem_of_find?_eq_some hq, ?_⟩
  have := List.find?_some hq
  simpa [nameOf] using this

theorem AddPanelTab_eq (s : GUIManager) (hs : s.KeysAreNames) (bar : Nat)
    (tab name sc : String) (q : PanelPtr) (hq : s.GetPanel name = some q) :
    s.AddPanelTab (some bar) tab name sc =
      { s with m_tab_bars :=
          (modifyBar (TabBar.push_back (AddPanelTab.new_item s.erased_nodes tab name sc))
            s.m_tab_bars bar) } := by
  have hidx := index_eq_self _ _ (key_of_GetPanel s hs name q hq)
  simp [AddPanelTab, hq, hidx]

theorem KeysAreNames_AddPanelTab (s : GUIManager) (hs : s.KeysAreNames) (bar : Option Nat)
    (tab name sc : String) : (s.AddPanelTab bar tab name sc).KeysAreNames := by
  cases bar with
  | none => exact hs
  | some b =>
    cases hq : s.GetPanel name with
    | none =>
      have : s.AddPanelTab (some b) tab name sc = s := by simp [AddPanelTab, hq]
      rw [this]
      exact hs
    | some q =>
      rw [AddPanelTab_eq s hs b tab name sc q hq]
      exact KeysAreNames_congr s _ rfl (fun _ => rfl) rfl hs

theorem KeysAreNames_AddPanelTabShared (s : GUIManager) (hs : s.KeysAreNames)
    (bar : Option Nat) (tab : String) (panel : Option PanelPtr) (sc : String) :
    (s.AddPanelTabShared bar tab panel sc).KeysAreNames := by
  unfold AddPanelTabShared
  cases bar with
  | none => exact hs
  | some b =>
    cases panel with
    | none => exact hs
    | some p =>
      dsimp only
      cases s.GetPanel (s.heap p).GetName with
      | none => exact KeysAreNames_AddPanelTab _ (KeysAreNames_AddPanel s hs p "") _ _ _ _
      | some q => exact KeysAreNames_AddPanelTab _ hs _ _ _ _

theorem HandlePanelToggle_eq (s : GUIManager) (hs : s.KeysAreNames) (name : String)
    (q : PanelPtr) (hq : s.GetPanel name = some q) :
    s.HandlePanelToggle name =
      { s with
        heap := (Function.update s.heap q
          ((s.heap q).SetVisible ((s.panel_visibility_states name).getD false))) } := by
  have hidx := index_eq_self _ _ (key_of_GetPanel s hs name q hq)
  simp [HandlePanelToggle, hq, hidx]

theorem KeysAreNames_HandlePanelToggle (s : GUIManager) (hs : s.KeysAreNames)
    (name : String) : (s.HandlePanelToggle name).KeysAreNames := by
  cases hq : s.GetPanel name with
  | none =>
    have : s.HandlePanelToggle name = s := by simp [HandlePanelToggle, hq]
    rw [this]
    exact hs
  | some q =>
    rw [HandlePanelToggle_eq s hs name q hq]
    exact KeysAreNames_congr s _ rfl (fun _ => GetName_update_SetVisible _ _ _ _) rfl hs

theorem KeysAreNames_viewToggle (s : GUIManager) (hs : s.KeysAreNames) (p : PanelPtr)
    (hp : p ∈ s.panels) (b : Bool) : (s.viewToggle p b).KeysAreNames := by
  rw [viewToggle_of_lock s p b (lock_of_mem s p hp)]
  intro k
  simp only [nameOf, GetName_update_SetVisible, VisibilityTable.assign, VisibilityTable.index]
  by_cases hk : k = (s.heap p).GetName
  · subst hk
    simp only [Function.update_same, ne_eq, reduceCtorEq, not_false_eq_true, true_iff]
    exact ⟨p, hp, rfl⟩
  · rw [Function.update_noteq hk, Function.update_noteq hk]
    exact hs k

end GUIManager

namespace GUIManager

theorem NoNested_same (s s' : GUIManager) (hbars : s'.m_tab_bars = s.m_tab_bars)
    (hs : s.NoNested) : s'.NoNested := by
  intro b hb item hitem
  rw [hbars] at hb
  exact hs b hb item hitem

theorem ViewClosuresRegistered_same (s s' : GUIManager)
    (hbars : s'.m_tab_bars = s.m_tab_bars) (hpanels : ∀ p ∈ s.panels, p ∈ s'.panels)
    (hview : s'.view_menu = s.view_menu) (hinit : s'.menus_initialized = s.menus_initialized)
    (hs : s.ViewClosuresRegistered) : s'.ViewClosuresRegistered := by
  apply ViewClosuresRegistered_of_items s s' _ hpanels hview hinit hs
  intro i b' item hb hitem
  rw [hbars] at hb
  exact Or.inl ⟨b', hb, hitem⟩

theorem NoNested_push (s s' : GUIManager) (it : TabItem) (k : Nat)
    (hbars : s'.m_tab_bars = modifyBar (TabBar.push_back it) s.m_tab_bars k)
    (hit : it.nested_tabs = none) (hs : s.NoNested) : s'.NoNested := by
  apply NoNested_of_items s s' _ hs
  intro i b' item hb hitem
  rw [hbars] at hb
  rcases getElem?_modifyBar_push it _ k i b' item hb hitem with h | h
  · exact Or.inl h
  · exact Or.inr (h ▸ hit)

theorem ViewClosuresRegistered_push (s s' : GUIManager) (it : TabItem) (k : Nat)
    (hbars : s'.m_tab_bars = modifyBar (TabBar.push_back it) s.m_tab_bars k)
    (hit : ∀ p, it.checked_callback ≠ some (CheckedCallback.viewToggle p))
    (hpanels : s'.panels = s.panels) (hview : s'.view_menu = s.view_menu)
    (hinit : s'.menus_initialized = s.menus_initialized)
    (hs : s.ViewClosuresRegistered) : s'.ViewClosuresRegistered := by
  apply ViewClosuresRegistered_of_items s s' _ (fun p hp => hpanels ▸ hp) hview hinit hs
  intro i b' item hb hitem
  rw [hbars] at hb
  rcases getElem?_modifyBar_push it _ k i b' item hb hitem with h | h
  · exact Or.inl h
  · exact Or.inr (h ▸ hit)

/-- A state obtained by pushing an item that is neither a sub-menu nor a View
closure, everything else being kept. -/
theorem WellFormed_push (s s' : GUIManager) (it : TabItem) (k : Nat)
    (hbars : s'.m_tab_bars = modifyBar (TabBar.push_back it) s.m_tab_bars k)
    (hnest : it.nested_tabs = none)
    (hcb : ∀ p, it.checked_callback ≠ some (CheckedCallback.viewToggle p))
    (hpanels : s'.panels = s.panels) (hheap : s'.heap = s.heap)
    (htable : s'.panel_visibility_states = s.panel_visibility_states)
    (hview : s'.view_menu = s.view_menu)
    (hinit : s'.menus_initialized = s.menus_initialized)
    (hs : s.WellFormed) : s'.WellFormed :=
  ⟨KeysAreNames_congr s s' hpanels (fun q => by rw [hheap]) htable hs.1,
   ViewClosuresRegistered_push s s' it k hbars hcb hpanels hview hinit hs.2.1,
   NoNested_push s s' it k hbars hnest hs.2.2⟩

/-- A state that differs only in the visibility of panels and in the outside
references. -/
theorem WellFormed_same (s s' : GUIManager) (hbars : s'.m_tab_bars = s.m_tab_bars)
    (hpanels : s'.panels = s.panels)
    (hnames : ∀ q, (s'.heap q).GetName = (s.heap q).GetName)
    (htable : s'.panel_visibility_states = s.panel_visibility_states)
    (hview : s'.view_menu = s.view_menu)
    (hinit : s'.menus_initialized = s.menus_initialized)
    (hs : s.WellFormed) : s'.WellFormed :=
  ⟨KeysAreNames_congr s s' hpanels hnames htable hs.1,
   ViewClosuresRegistered_same s s' hbars (fun _ hp => hpanels ▸ hp) hview hinit hs.2.1,
   NoNested_same s s' hbars hs.2.2⟩

theorem WellFormed_new (heap : PanelPtr → Panel) (outside_refs : List PanelPtr) :
    (GUIManager.new heap outside_refs).WellFormed := by
  refine ⟨?_, ?_, ?_⟩
  · intro k
    simp [GUIManager.new]
  · intro i b item p hb
    simp [GUIManager.new] at hb
  · intro b hb
    simp [GUIManager.new] at hb

theorem WellFormed_AddTabs (s : GUIManager) (hs : s.WellFormed) (name : String) :
    (s.AddTabs name).1.WellFormed := by
  have hitems : ∀ (i : Nat) (b' : TabBar) (item : TabItem),
      (s.AddTabs name).1.m_tab_bars[i]? = some b' → item ∈ b'.items →
      ∃ b, s.m_tab_bars[i]? = some b ∧ item ∈ b.items := by
    intro i b' item hb hitem
    exact ⟨b', getElem?_append_empty s.m_tab_bars [{ id := name }]
      (by simp) i b' item hb hitem, hitem⟩
  refine ⟨KeysAreNames_congr s _ rfl (fun _ => rfl) rfl hs.1, ?_, ?_⟩
  · exact ViewClosuresRegistered_of_items s _ (fun i b' item hb hitem =>
      Or.inl (hitems i b' item hb hitem)) (fun _ hp => hp) rfl rfl hs.2.1
  · exact NoNested_of_items s _ (fun i b' item hb hitem =>
      Or.inl (hitems i b' item hb hitem)) hs.2.2

theorem WellFormed_SetupDefaultMenus (s : GUIManager) (hs : s.WellFormed)
    (hinit : s.menus_initialized = false) : s.SetupDefaultMenus.WellFormed := by
  have hbars : s.SetupDefaultMenus.m_tab_bars = s.m_tab_bars ++
      [{ id := "File" }, { id := "Emulation" }, { id := "View" }, { id := "Help" }] := by
    simp [SetupDefaultMenus, AddTabs]
  have hitems : ∀ (i : Nat) (b' : TabBar) (item : TabItem),
      s.SetupDefaultMenus.m_tab_bars[i]? = some b' → item ∈ b'.items →
      s.m_tab_bars[i]? = some b' := by
    intro i b' item hb hitem
    rw [hbars] at hb
    exact getElem?_append_empty s.m_tab_bars _ (by simp) i b' item hb hitem
  refine ⟨KeysAreNames_congr s _ rfl (fun _ => rfl) rfl hs.1, ?_, ?_⟩
  · intro i b' item p hb hitem hcb
    have := (hs.2.1 i b' item p (hitems i b' item hb hitem) hitem hcb).2.2
    rw [hinit] at this
    exact absurd this (by simp)
  · exact NoNested_of_items s _ (fun i b' item hb hitem =>
      Or.inl ⟨b', hitems i b' item hb hitem, hitem⟩) hs.2.2

/-- The registration operations: the member `panels` is replaced, the closures of
the removed panels go with the regeneration of the View group. -/
theorem WellFormed_regenerate (s s2 : GUIManager) (hs : s.WellFormed)
    (hkeys : s2.KeysAreNames) (hbars : s2.m_tab_bars = s.m_tab_bars)
    (hview : s2.view_menu = s.view_menu)
    (hinit : s2.menus_initialized = s.menus_initialized)
    (hkeep : (s.menus_initialized && s.view_menu.isSome) = true ∨
      ∀ p ∈ s.panels, p ∈ s2.panels) :
    WellFormed
      (if s2.menus_initialized && s2.view_menu.isSome then s2.UpdateViewMenu else s2) := by
  split
  · rename_i hcond
    refine ⟨KeysAreNames_UpdateViewMenu s2 hkeys, ?_,
      NoNested_UpdateViewMenu s2 (NoNested_same s s2 hbars hs.2.2)⟩
    cases hv : s2.view_menu with
    | none => simp [hv] at hcond
    | some v =>
      have hi : s2.menus_initialized = true := by
        simp only [Bool.and_eq_true] at hcond
        exact hcond.1
      apply ViewClosuresRegistered_UpdateViewMenu s2 v hv hi
      intro i b item p hne hb hitem hcb
      rw [hbars] at hb
      have := (hs.2.1 i b item p hb hitem hcb).2.1
      rw [← hview, hv] at this
      exact hne (Option.some.inj this).symm
  · rename_i hcond
    refine ⟨hkeys, ?_, NoNested_same s s2 hbars hs.2.2⟩
    rcases hkeep with hk | hk
    · rw [hinit, hview] at hcond
      exact absurd hk hcond
    · exact ViewClosuresRegistered_same s s2 hbars hk hview hinit hs.2.1

theorem WellFormed_AddPanel (s : GUIManager) (hs : s.WellFormed) (p : PanelPtr)
    (sc : String) : (s.AddPanel p sc).WellFormed := by
  unfold AddPanel
  exact WellFormed_regenerate s _ hs (KeysAreNames_add s hs.1 p) rfl rfl rfl
    (Or.inr (fun q hq => List.mem_append_left _ hq))

theorem WellFormed_RemovePanel (s : GUIManager) (hs : s.WellFormed) (name : String) :
    (s.RemovePanel name).WellFormed := by
  unfold RemovePanel
  by_cases hcond : (s.menus_initialized && s.view_menu.isSome) = true
  · exact WellFormed_regenerate s _ hs (KeysAreNames_remove s hs.1 name) rfl rfl rfl
      (Or.inl hcond)
  · dsimp only
    rw [if_neg hcond]
    refine ⟨KeysAreNames_remove s hs.1 name, ?_, hs.2.2⟩
    intro i b item p hb hitem hcb
    obtain ⟨_, h2, h3⟩ := hs.2.1 i b item p hb hitem hcb
    exfalso
    apply hcond
    simp [h2, h3]

end GUIManager

namespace GUIManager

theorem WellFormed_AddPanelTab (s : GUIManager) (hs : s.WellFormed) (bar : Option Nat)
    (tab name sc : String) : (s.AddPanelTab bar tab name sc).WellFormed := by
  cases bar with
  | none => exact hs
  | some b =>
    cases hq : s.GetPanel name with
    | none =>
      have : s.AddPanelTab (some b) tab name sc = s := by simp [AddPanelTab, hq]
      rw [this]
      exact hs
    | some q =>
      rw [AddPanelTab_eq s hs.1 b tab name sc q hq]
      exact WellFormed_push s _ (AddPanelTab.new_item s.erased_nodes tab name sc) b rfl rfl
        (by simp [AddPanelTab.new_item]) rfl rfl rfl rfl rfl hs

theorem WellFormed_AddPanelTabShared (s : GUIManager) (hs : s.WellFormed)
    (bar : Option Nat) (tab : String) (panel : Option PanelPtr) (sc : String) :
    (s.AddPanelTabShared bar tab panel sc).WellFormed := by
  unfold AddPanelTabShared
  cases bar with
  | none => exact hs
  | some b =>
    cases panel with
    | none => exact hs
    | some p =>
      dsimp only
      cases s.GetPanel (s.heap p).GetName with
      | none => exact WellFormed_AddPanelTab _ (WellFormed_AddPanel s hs p "") _ _ _ _
      | some q => exact WellFormed_AddPanelTab _ hs _ _ _ _

theorem WellFormed_AddSubTab (s : GUIManager) (hs : s.WellFormed) (bar : Option Nat)
    (name : String) (cb : Option Nat) : (s.AddSubTab bar name cb).WellFormed := by
  cases bar with
  | none => exact hs
  | some b =>
    exact WellFormed_push s _ { name := name, render_callback := cb } b rfl rfl
      (by simp) rfl rfl rfl rfl rfl hs

theorem WellFormed_AddSubTabShortcut (s : GUIManager) (hs : s.WellFormed)
    (bar : Option Nat) (name sc : String) (cb : Option Nat) :
    (s.AddSubTabShortcut bar name sc cb).WellFormed := by
  cases bar with
  | none => exact hs
  | some b =>
    exact WellFormed_push s _ { name := name, shortcut := sc, render_callback := cb } b rfl
      rfl (by simp) rfl rfl rfl rfl rfl hs

theorem WellFormed_AddSubTabChecked (s : GUIManager) (hs : s.WellFormed)
    (bar : Option Nat) (name : String) (sel : Option BoolPtr) (cb : Option Nat) :
    (s.AddSubTabChecked bar name sel cb).WellFormed := by
  cases bar with
  | none => exact hs
  | some b =>
    exact WellFormed_push s _
      { name := name, p_selected := sel, checked_callback := cb.map CheckedCallback.caller }
      b rfl rfl (by cases cb <;> simp) rfl rfl rfl rfl rfl hs

theorem WellFormed_AddSubTabCheckedShortcut (s : GUIManager) (hs : s.WellFormed)
    (bar : Option Nat) (name : String) (sel : Option BoolPtr) (sc : String)
    (cb : Option Nat) : (s.AddSubTabCheckedShortcut bar name sel sc cb).WellFormed := by
  cases bar with
  | none => exact hs
  | some b =>
    exact WellFormed_push s _
      { name := name, shortcut := sc, p_selected := sel,
        checked_callback := cb.map CheckedCallback.caller }
      b rfl rfl (by cases cb <;> simp) rfl rfl rfl rfl rfl hs

theorem WellFormed_HandlePanelToggle (s : GUIManager) (hs : s.WellFormed) (name : String) :
    (s.HandlePanelToggle name).WellFormed := by
  cases hq : s.GetPanel name with
  | none =>
    have : s.HandlePanelToggle name = s := by simp [HandlePanelToggle, hq]
    rw [this]
    exact hs
  | some q =>
    rw [HandlePanelToggle_eq s hs.1 name q hq]
    exact WellFormed_same s _ rfl rfl (fun _ => GetName_update_SetVisible _ _ _ _) rfl rfl
      rfl hs

theorem WellFormed_viewToggle (s : GUIManager) (hs : s.WellFormed) (p : PanelPtr)
    (hp : p ∈ s.panels) (b : Bool) : (s.viewToggle p b).WellFormed := by
  refine ⟨KeysAreNames_viewToggle s hs.1 p hp b, ?_, ?_⟩
  · rw [viewToggle_of_lock s p b (lock_of_mem s p hp)]
    exact ViewClosuresRegistered_same s _ rfl (fun _ h => h) rfl rfl hs.2.1
  · rw [viewToggle_of_lock s p b (lock_of_mem s p hp)]
    exact NoNested_same s _ rfl hs.2.2

/-- The call of the toggle callback of an item that is in the menu tree. -/
theorem WellFormed_invoke (s : GUIManager) (hs : s.WellFormed) (bar : TabBar)
    (hbar : bar ∈ s.m_tab_bars) (item : TabItem) (hitem : item ∈ bar.items)
    (cb : CheckedCallback) (hcb : item.checked_callback = some cb) (b : Bool)
    (s' : GUIManager) (hs' : s.invoke cb b = some s') : s'.WellFormed := by
  cases cb with
  | viewToggle p =>
    obtain ⟨i, hi⟩ := List.mem_iff_getElem?.mp hbar
    have hp := (hs.2.1 i bar item p hi hitem hcb).1
    simp only [invoke, Option.some.injEq] at hs'
    subst hs'
    exact WellFormed_viewToggle s hs p hp b
  | panelToggle name =>
    simp only [invoke, panelToggle, Option.some.injEq] at hs'
    subst hs'
    exact WellFormed_HandlePanelToggle s hs name
  | caller handle => simp [invoke] at hs'

/-- What the UI library writes through a state-cell pointer changes the value of a
cell that exists, or a boolean of a caller. -/
theorem WellFormed_MenuItem (s : GUIManager) (hs : s.WellFormed) (activated : Bool)
    (sel : Option BoolPtr) (s' : GUIManager) (h : s.MenuItem activated sel = some s') :
    s'.WellFormed := by
  cases sel with
  | none =>
    simp only [MenuItem, Option.some.injEq] at h
    subst h
    exact hs
  | some ptr =>
    simp only [MenuItem] at h
    cases hd : s.deref ptr with
    | none => simp [hd] at h
    | some value =>
      simp only [hd, Option.some.injEq] at h
      subst h
      cases activated with
      | false => exact hs
      | true =>
        simp only [if_true]
        cases ptr with
        | external addr =>
          exact WellFormed_same s _ rfl rfl (fun _ => rfl) rfl rfl rfl hs
        | table key node =>
          have hkey : s.panel_visibility_states key = some value := by
            simp only [deref] at hd
            split at hd
            · exact hd
            · simp at hd
          refine ⟨?_, ViewClosuresRegistered_same s _ rfl (fun _ hp => hp) rfl rfl hs.2.1,
            NoNested_same s _ rfl hs.2.2⟩
          intro k
          show Function.update s.panel_visibility_states key (some !value) k ≠ none ↔
            ∃ p ∈ s.panels, s.nameOf p = k
          rw [← hs.1 k]
          by_cases hk : k = key
          · subst hk
            simp [hkey]
          · rw [Function.update_noteq hk]

/-- Every reachable state is well formed. -/
theorem Reachable.wellFormed {s : GUIManager} (h : Reachable s) : s.WellFormed := by
  induction h with
  | new heap outside_refs => exact WellFormed_new heap outside_refs
  | setup s _ hinit ih => exact WellFormed_SetupDefaultMenus s ih hinit
  | addTabs s name _ ih => exact WellFormed_AddTabs s ih name
  | addPanel s p sc _ ih => exact WellFormed_AddPanel s ih p sc
  | removePanel s name _ ih => exact WellFormed_RemovePanel s ih name
  | addPanelTab s bar tab name sc _ ih => exact WellFormed_AddPanelTab s ih bar tab name sc
  | addPanelTabShared s bar tab panel sc _ ih =>
    exact WellFormed_AddPanelTabShared s ih bar tab panel sc
  | addSubTab s bar name cb _ ih => exact WellFormed_AddSubTab s ih bar name cb
  | addSubTabShortcut s bar name sc cb _ ih =>
    exact WellFormed_AddSubTabShortcut s ih bar name sc cb
  | addSubTabChecked s bar name sel cb _ ih =>
    exact WellFormed_AddSubTabChecked s ih bar name sel cb
  | addSubTabCheckedShortcut s bar name sel sc cb _ ih =>
    exact WellFormed_AddSubTabCheckedShortcut s ih bar name sel sc cb
  | handlePanelToggle s name _ ih => exact WellFormed_HandlePanelToggle s ih name
  | callback s bar item cb b s' _ hbar hitem hcb hs' ih =>
    exact WellFormed_invoke s ih bar hbar item hitem cb hcb b s' hs'
  | setVisible s p v _ ih =>
    exact WellFormed_same s _ rfl rfl (fun _ => GetName_update_SetVisible _ _ _ _) rfl rfl
      rfl ih
  | outside s refs _ _ ih =>
    exact WellFormed_same s _ rfl rfl (fun _ => rfl) rfl rfl rfl ih
  | callerMemory s bools _ ih =>
    exact WellFormed_same s _ rfl rfl (fun _ => rfl) rfl rfl rfl ih
  | menuItem s bar item activated s' _ _ _ hs' ih =>
    exact WellFormed_MenuItem s ih activated item.p_selected s' hs'

theorem Reachable_sampleShell : Reachable sampleShell :=
  Reachable.setup _ (Reachable.new sampleHeap []) rfl

end GUIManager

/-! ## Menu traversal on reachable states -/

namespace GUIManager

theorem AllBuilt_of_items (s s' : GUIManager)
    (h : ∀ (i : Nat) (b' : TabBar) (item : TabItem),
      s'.m_tab_bars[i]? = some b' → item ∈ b'.items →
      (∃ b, s.m_tab_bars[i]? = some b ∧ item ∈ b.items) ∨ item.WellBuilt)
    (hs : s.AllBuilt) : s'.AllBuilt := by
  intro b' hb' item hitem
  obtain ⟨i, hi⟩ := List.mem_iff_getElem?.mp hb'
  rcases h i b' item hi hitem with ⟨b, hb, hmem⟩ | hbuilt
  · exact hs b (List.mem_iff_getElem?.mpr ⟨i, hb⟩) item hmem
  · exact hbuilt

theorem AllBuilt_same (s s' : GUIManager) (hbars : s'.m_tab_bars = s.m_tab_bars)
    (hs : s.AllBuilt) : s'.AllBuilt := by
  intro b hb item hitem
  rw [hbars] at hb
  exact hs b hb item hitem

theorem AllBuilt_push (s s' : GUIManager) (it : TabItem) (k : Nat)
    (hbars : s'.m_tab_bars = modifyBar (TabBar.push_back it) s.m_tab_bars k)
    (hit : it.WellBuilt) (hs : s.AllBuilt) : s'.AllBuilt := by
  apply AllBuilt_of_items s s' _ hs
  intro i b' item hb hitem
  rw [hbars] at hb
  rcases getElem?_modifyBar_push it _ k i b' item hb hitem with h | h
  · exact Or.inl h
  · exact Or.inr (h ▸ hit)

theorem AllBuilt_append (s s' : GUIManager) (extra : List TabBar)
    (hextra : ∀ e ∈ extra, e.items = []) (hbars : s'.m_tab_bars = s.m_tab_bars ++ extra)
    (hs : s.AllBuilt) : s'.AllBuilt := by
  apply AllBuilt_of_items s s' _ hs
  intro i b' item hb hitem
  rw [hbars] at hb
  exact Or.inl ⟨b', getElem?_append_empty s.m_tab_bars extra hextra i b' item hb hitem, hitem⟩

theorem AllBuilt_UpdateViewMenu (s : GUIManager) (hs : s.AllBuilt) :
    s.UpdateViewMenu.AllBuilt := by
  cases hv : s.view_menu with
  | none =>
    have : s.UpdateViewMenu = s := by simp [UpdateViewMenu, hv]
    rw [this]
    exact hs
  | some v =>
    apply AllBuilt_of_items s _ _ hs
    intro i b' item hb hitem
    rcases getElem?_UpdateViewMenu s v hv i b' item hb hitem with ⟨_, p, _, rfl⟩ | ⟨_, h⟩
    · exact Or.inr ⟨rfl, fun _ => by simp [UpdateViewMenu.new_item]⟩
    · exact Or.inl h

theorem AllBuilt_AddPanel (s : GUIManager) (hs : s.AllBuilt) (p : PanelPtr) (sc : String) :
    (s.AddPanel p sc).AllBuilt := by
  unfold AddPanel
  dsimp only
  split
  · exact AllBuilt_UpdateViewMenu _ (AllBuilt_same s _ rfl hs)
  · exact AllBuilt_same s _ rfl hs

theorem AllBuilt_RemovePanel (s : GUIManager) (hs : s.AllBuilt) (name : String) :
    (s.RemovePanel name).AllBuilt := by
  unfold RemovePanel
  dsimp only
  split
  · exact AllBuilt_UpdateViewMenu _ (AllBuilt_same s _ rfl hs)
  · exact AllBuilt_same s _ rfl hs

theorem AllBuilt_AddPanelTab (s : GUIManager) (hs : s.AllBuilt) (bar : Option Nat)
    (tab name sc : String) : (s.AddPanelTab bar tab name sc).AllBuilt := by
  cases bar with
  | none => exact hs
  | some b =>
    unfold AddPanelTab
    cases s.GetPanel name with
    | none => exact hs
    | some q =>
      exact AllBuilt_push s _ (AddPanelTab.new_item s.erased_nodes tab name sc) b rfl
        ⟨rfl, fun _ => by simp [AddPanelTab.new_item]⟩ hs

theorem AllBuilt_AddPanelTabShared (s : GUIManager) (hs : s.AllBuilt) (bar : Option Nat)
    (tab : String) (panel : Option PanelPtr) (sc : String) :
    (s.AddPanelTabShared bar tab panel sc).AllBuilt := by
  unfold AddPanelTabShared
  cases bar with
  | none => exact hs
  | some b =>
    cases panel with
    | none => exact hs
    | some p =>
      dsimp only
      cases s.GetPanel (s.heap p).GetName with
      | none => exact AllBuilt_AddPanelTab _ (AllBuilt_AddPanel s hs p "") _ _ _ _
      | some q => exact AllBuilt_AddPanelTab _ hs _ _ _ _

theorem AllBuilt_HandlePanelToggle (s : GUIManager) (hs : s.AllBuilt) (name : String) :
    (s.HandlePanelToggle name).AllBuilt := by
  unfold HandlePanelToggle
  cases s.GetPanel name with
  | none => exact hs
  | some q => exact AllBuilt_same s _ rfl hs

theorem AllBuilt_viewToggle (s : GUIManager) (hs : s.AllBuilt) (p : PanelPtr) (b : Bool) :
    (s.viewToggle p b).AllBuilt := by
  unfold viewToggle
  cases s.lock p with
  | none => exact hs
  | some q => exact AllBuilt_same s _ rfl hs

theorem AllBuilt_store (s : GUIManager) (hs : s.AllBuilt) (ptr : BoolPtr) (v : Bool) :
    (s.store ptr v).AllBuilt := by
  cases ptr with
  | table key node => exact AllBuilt_same s _ rfl hs
  | external addr => exact AllBuilt_same s _ rfl hs

theorem AllBuilt_MenuItem (s : GUIManager) (hs : s.AllBuilt) (activated : Bool)
    (sel : Option BoolPtr) (s' : GUIManager) (h : s.MenuItem activated sel = some s') :
    s'.AllBuilt := by
  cases sel with
  | none =>
    simp only [MenuItem, Option.some.injEq] at h
    subst h
    exact hs
  | some ptr =>
    simp only [MenuItem] at h
    cases hd : s.deref ptr with
    | none => simp [hd] at h
    | some value =>
      simp only [hd, Option.some.injEq] at h
      subst h
      cases activated with
      | false => exact hs
      | true => exact AllBuilt_store s hs ptr _

/-- In every reachable state each item of the menu tree is as `AddSubTab`,
`AddPanelTab` or the regeneration of the View group builds it: without nested
group, and with a state cell when it is linked to a panel. -/
theorem Reachable.allBuilt {s : GUIManager} (h : Reachable s) : s.AllBuilt := by
  induction h with
  | new heap outside_refs =>
    intro b hb
    simp [GUIManager.new] at hb
  | setup s _ _ ih =>
    exact AllBuilt_append s _
      [{ id := "File" }, { id := "Emulation" }, { id := "View" }, { id := "Help" }]
      (by simp) (by simp [SetupDefaultMenus, AddTabs]) ih
  | addTabs s name _ ih => exact AllBuilt_append s _ [{ id := name }] (by simp) rfl ih
  | addPanel s p sc _ ih => exact AllBuilt_AddPanel s ih p sc
  | removePanel s name _ ih => exact AllBuilt_RemovePanel s ih name
  | addPanelTab s bar tab name sc _ ih => exact AllBuilt_AddPanelTab s ih bar tab name sc
  | addPanelTabShared s bar tab panel sc _ ih =>
    exact AllBuilt_AddPanelTabShared s ih bar tab panel sc
  | addSubTab s bar name cb _ ih =>
    cases bar with
    | none => exact ih
    | some b => exact AllBuilt_push s _ _ b rfl ⟨rfl, fun h => absurd rfl h⟩ ih
  | addSubTabShortcut s bar name sc cb _ ih =>
    cases bar with
    | none => exact ih
    | some b => exact AllBuilt_push s _ _ b rfl ⟨rfl, fun h => absurd rfl h⟩ ih
  | addSubTabChecked s bar name sel cb _ ih =>
    cases bar with
    | none => exact ih
    | some b => exact AllBuilt_push s _ _ b rfl ⟨rfl, fun h => absurd rfl h⟩ ih
  | addSubTabCheckedShortcut s bar name sel sc cb _ ih =>
    cases bar with
    | none => exact ih
    | some b => exact AllBuilt_push s _ _ b rfl ⟨rfl, fun h => absurd rfl h⟩ ih
  | handlePanelToggle s name _ ih => exact AllBuilt_HandlePanelToggle s ih name
  | callback s bar item cb b s' _ _ _ _ hs' ih =>
    cases cb with
    | viewToggle p =>
      simp only [invoke, Option.some.injEq] at hs'
      subst hs'
      exact AllBuilt_viewToggle s ih p b
    | panelToggle name =>
      simp only [invoke, panelToggle, Option.some.injEq] at hs'
      subst hs'
      exact AllBuilt_HandlePanelToggle s ih name
    | caller handle => simp [invoke] at hs'
  | setVisible s p v _ ih => exact AllBuilt_same s _ rfl ih
  | outside s refs _ _ ih => exact AllBuilt_same s _ rfl ih
  | callerMemory s bools _ ih => exact AllBuilt_same s _ rfl ih
  | menuItem s bar item activated s' _ _ _ hs' ih =>
    exact AllBuilt_MenuItem s ih activated item.p_selected s' hs'

theorem KeepsLive.refl (s : GUIManager) : s.KeepsLive s := fun _ h => h

theorem KeepsLive.trans {s t u : GUIManager} (h₁ : s.KeepsLive t) (h₂ : t.KeepsLive u) :
    s.KeepsLive u := fun ptr h => h₂ ptr (h₁ ptr h)

/-- Liveness is kept when no node is destroyed, no key leaves the table and no
boolean of a caller disappears. -/
theorem KeepsLive_of (s s' : GUIManager) (herased : s'.erased_nodes = s.erased_nodes)
    (htable : ∀ k, s.panel_visibility_states k ≠ none → s'.panel_visibility_states k ≠ none)
    (hbools : ∀ a, s.caller_bools a ≠ none → s'.caller_bools a ≠ none) :
    s.KeepsLive s' := by
  intro ptr h
  cases ptr with
  | table key node =>
    simp only [deref, herased] at h ⊢
    by_cases he : s.erased_nodes key = node
    · rw [if_pos he] at h ⊢
      exact htable key h
    · rw [if_neg he] at h
      exact absurd rfl h
  | external addr => exact hbools addr h

theorem index_ne_none (t : VisibilityTable) (key k : String) (h : t k ≠ none) :
    t.index key k ≠ none := by
  unfold VisibilityTable.index
  by_cases hk : k = key
  · subst hk
    simp
  · rwa [Function.update_noteq hk]

theorem assign_ne_none (t : VisibilityTable) (key : String) (v : Bool) (k : String)
    (h : t k ≠ none) : t.assign key v k ≠ none := by
  unfold VisibilityTable.assign
  by_cases hk : k = key
  · subst hk
    simp
  · rw [Function.update_noteq hk]
    exact index_ne_none t key k h

theorem KeepsLive_store (s : GUIManager) (ptr : BoolPtr) (v : Bool) :
    s.KeepsLive (s.store ptr v) := by
  cases ptr with
  | table key node =>
    refine KeepsLive_of s (s.store (BoolPtr.table key node) v) rfl ?_ (fun _ h => h)
    intro k hk
    show Function.update s.panel_visibility_states key (some v) k ≠ none
    by_cases hkk : k = key
    · subst hkk
      simp
    · rwa [Function.update_noteq hkk]
  | external addr =>
    refine KeepsLive_of s (s.store (BoolPtr.external addr) v) rfl (fun _ h => h) ?_
    intro a ha
    show Function.update s.caller_bools addr (some v) a ≠ none
    by_cases haa : a = addr
    · subst haa
      simp
    · rwa [Function.update_noteq haa]

/-- After `*ptr = v` through a live pointer, `*ptr` is `v`. -/
theorem deref_store (s : GUIManager) (ptr : BoolPtr) (v : Bool) (h : s.deref ptr ≠ none) :
    (s.store ptr v).deref ptr = some v := by
  cases ptr with
  | table key node =>
    simp only [deref] at h
    by_cases he : s.erased_nodes key = node
    · simp [deref, store, he]
    · rw [if_neg he] at h
      exact absurd rfl h
  | external addr => simp [deref, store]

theorem KeepsLive_HandlePanelToggle (s : GUIManager) (name : String) :
    s.KeepsLive (s.HandlePanelToggle name) := by
  unfold HandlePanelToggle
  cases s.GetPanel name with
  | none => exact KeepsLive.refl s
  | some q =>
    exact KeepsLive_of s _ rfl (fun k hk => index_ne_none _ _ k hk) (fun _ h => h)

theorem KeepsLive_viewToggle (s : GUIManager) (p : PanelPtr) (b : Bool) :
    s.KeepsLive (s.viewToggle p b) := by
  unfold viewToggle
  cases s.lock p with
  | none => exact KeepsLive.refl s
  | some q =>
    exact KeepsLive_of s _ rfl (fun k hk => assign_ne_none _ _ _ k hk) (fun _ h => h)

theorem KeepsLive_call (s : GUIManager) (cb : CheckedCallback) (b : Bool) :
    s.KeepsLive (s.call cb b) := by
  cases cb with
  | viewToggle p => exact KeepsLive_viewToggle s p b
  | panelToggle name => exact KeepsLive_HandlePanelToggle s name
  | caller handle => exact KeepsLive.refl s

end GUIManager

/-- An item that is well built and whose state-cell pointer is live is rendered
without fault, and what was live stays live. -/
theorem renderLeaf_returns (ui : MenuUI) (path : List Nat) (item : TabItem) (s : GUIManager)
    (hbuilt : item.WellBuilt)
    (hlive : ∀ ptr, item.p_selected = some ptr → s.deref ptr ≠ none) :
    ∃ s' calls, renderLeaf ui path item s = Rendered.returned s' calls ∧ s.KeepsLive s' := by
  unfold renderLeaf
  cases hsel : item.p_selected with
  | none =>
    have hlinked : item.linked_panel_name = "" := by
      by_contra hne
      exact hbuilt.2 hne hsel
    simp only [hlinked, beq_self_eq_true, Bool.not_true, Option.isSome_none, Bool.or_self,
      Bool.false_eq_true, if_false]
    by_cases hc : ui.clicked path = true
    · simp only [hc, if_true]
      cases item.render_callback with
      | none => exact ⟨s, [], rfl, GUIManager.KeepsLive.refl s⟩
      | some handle => exact ⟨s, _, rfl, GUIManager.KeepsLive.refl s⟩
    · simp only [hc, if_false]
      exact ⟨s, [], rfl, GUIManager.KeepsLive.refl s⟩
  | some ptr =>
    have hl := hlive ptr hsel
    cases hd : s.deref ptr with
    | none => exact absurd hd hl
    | some value =>
      simp only [Option.isSome_some, Bool.or_true, if_true, GUIManager.MenuItem, hd]
      by_cases hc : ui.clicked path = true
      · simp only [hc, if_true]
        cases item.checked_callback with
        | none => exact ⟨_, [], rfl, GUIManager.KeepsLive_store s ptr _⟩
        | some cb =>
          simp only [Option.some_bind, GUIManager.deref_store s ptr (!value) hl]
          exact ⟨_, _, rfl,
            (GUIManager.KeepsLive_store s ptr _).trans (GUIManager.KeepsLive_call _ cb _)⟩
      · simp only [hc, if_false, Bool.false_eq_true]
        exact ⟨s, [], rfl, GUIManager.KeepsLive.refl s⟩

/-- A run of well-built items with live state cells is rendered without fault and
without any recursive call. -/
theorem renderItems_returns (ui : MenuUI) (path : List Nat) (items : List TabItem)
    (hbuilt : ∀ it ∈ items, it.WellBuilt) (k : Nat) (s : GUIManager)
    (hlive : ∀ it ∈ items, ∀ ptr, it.p_selected = some ptr → s.deref ptr ≠ none) :
    ∃ s' calls,
      (∀ recurse, renderItems recurse ui path k items s = Rendered.returned s' calls) ∧
      s.KeepsLive s' := by
  induction items generalizing k s with
  | nil => exact ⟨s, [], fun _ => rfl, GUIManager.KeepsLive.refl s⟩
  | cons it rest ih =>
    obtain ⟨s1, c1, h1, k1⟩ := renderLeaf_returns ui (path ++ [k]) it s
      (hbuilt it (List.mem_cons_self it rest)) (hlive it (List.mem_cons_self it rest))
    obtain ⟨s2, c2, h2, k2⟩ := ih (fun x hx => hbuilt x (List.mem_cons_of_mem it hx)) (k + 1) s1
      (fun x hx ptr hptr => k1 ptr (hlive x (List.mem_cons_of_mem it hx) ptr hptr))
    refine ⟨s2, c1 ++ c2, fun recurse => ?_, k1.trans k2⟩
    simp only [renderItems, (hbuilt it (List.mem_cons_self it rest)).1, h1, h2 recurse]

theorem renderBars_returns (ui : MenuUI) (depth : Nat) (rest : List TabBar)
    (hbuilt : ∀ bar ∈ rest, ∀ it ∈ bar.items, it.WellBuilt) (k : Nat) (s : GUIManager)
    (hlive : ∀ bar ∈ rest, ∀ it ∈ bar.items, ∀ ptr, it.p_selected = some ptr →
      s.deref ptr ≠ none) :
    ∃ s' calls, renderBars ui (depth + 1) k rest s = Rendered.returned s' calls ∧
      renderBars ui 1 k rest s = Rendered.returned s' calls ∧ s.KeepsLive s' := by
  induction rest generalizing k s with
  | nil => exact ⟨s, [], rfl, rfl, GUIManager.KeepsLive.refl s⟩
  | cons bar rest ih =>
    by_cases hopen : ui.menu_open [k] = true
    · obtain ⟨s1, c1, h1, k1⟩ := renderItems_returns ui [k] bar.items
        (hbuilt bar (List.mem_cons_self bar rest)) 0 s (hlive bar (List.mem_cons_self bar rest))
      obtain ⟨s2, c2, h2, h2', k2⟩ := ih (fun b hb => hbuilt b (List.mem_cons_of_mem bar hb))
        (k + 1) s1
        (fun b hb it hit ptr hptr => k1 ptr (hlive b (List.mem_cons_of_mem bar hb) it hit ptr hptr))
      exact ⟨s2, c1 ++ c2,
        by simp only [renderBars, hopen, if_true, RenderTabBarContents, h1, h2],
        by simp only [renderBars, hopen, if_true, RenderTabBarContents, h1, h2'],
        k1.trans k2⟩
    · obtain ⟨s2, c2, h2, h2', k2⟩ := ih (fun b hb => hbuilt b (List.mem_cons_of_mem bar hb))
        (k + 1) s (fun b hb => hlive b (List.mem_cons_of_mem bar hb))
      exact ⟨s2, [] ++ c2,
        by simp only [renderBars, hopen, if_false, h2, Bool.false_eq_true],
        by simp only [renderBars, hopen, if_false, h2', Bool.false_eq_true],
        k2⟩

/-- In the menu tree `cyclicBars`, with every menu open, the traversal exceeds every
bound on its depth. -/
theorem render_cyclicBars (s : GUIManager) (hs : s.m_tab_bars = cyclicBars) (depth : Nat)
    (path : List Nat) :
    RenderTabBarContents allOpen depth path
      { id := "Loop", items := [{ name := "again", nested_tabs := some 0 }] } s
      = Rendered.depthExceeded := by
  induction depth generalizing path with
  | zero => rfl
  | succ d ih =>
    have hopen : allOpen.menu_open (path ++ [0]) = true := rfl
    have hbar : s.m_tab_bars[0]?
        = some { id := "Loop", items := [{ name := "again", nested_tabs := some 0 }] } := by
      rw [hs]
      rfl
    simp only [RenderTabBarContents, renderItems, hopen, hbar, if_true, ih]

namespace GUIManager

/-- In every state built through the public operations in which the state-cell
pointers of the menu tree are live, no item has a nested group and
`RenderTabBarContents` makes no recursive call: started on any group of the tree
at any path, with any answers of the UI, it returns with depth bound 1, and with
every larger bound it returns the same state and calls; the same holds for the
traversal of the whole menu bar by `RenderTabBars`. -/
theorem render_returns_of_live (s : GUIManager) (h : Reachable s) (hlive : s.CellsLive)
    (ui : MenuUI) :
    s.NoNested ∧
    (∀ bar ∈ s.m_tab_bars, ∀ (path : List Nat) (depth : Nat), ∃ s' calls,
      RenderTabBarContents ui 1 path bar s = Rendered.returned s' calls ∧
      RenderTabBarContents ui (depth + 1) path bar s = Rendered.returned s' calls) ∧
    (∀ depth : Nat, ∃ s' calls,
      s.RenderTabBars ui 1 = Rendered.returned s' calls ∧
      s.RenderTabBars ui (depth + 1) = Rendered.returned s' calls) := by
  have hbuilt := h.allBuilt
  refine ⟨h.wellFormed.2.2, ?_, ?_⟩
  · intro bar hbar path depth
    obtain ⟨s', calls, hcalls, _⟩ :=
      renderItems_returns ui path bar.items (hbuilt bar hbar) 0 s (hlive bar hbar)
    exact ⟨s', calls, hcalls _, hcalls _⟩
  · intro depth
    obtain ⟨s', calls, h1, h2, _⟩ :=
      renderBars_returns ui depth s.m_tab_bars hbuilt 0 s hlive
    exact ⟨s', calls, h2, h1⟩

theorem Reachable_sampleBound : Reachable sampleBound :=
  Reachable.addPanelTab _ (some 0) "Panel B" "b" ""
    (Reachable.addPanel _ 2 "" Reachable_sampleShell)

/-- C19, the failing input. Panel 2 ("b") is registered on the freshly set-up shell,
bound to the item "Panel B" of the File menu by `AddPanelTab`, and removed by
`RemovePanel("b")`. The item stays in the File menu and its `p_selected` still
holds the address of the table node that `erase` destroyed, so the traversal of
the open File menu reads through a dangling pointer; before the removal the same
traversal returns. -/
theorem render_reads_erased_cell :
    Reachable sampleDangling ∧
    (sampleDangling.m_tab_bars[0]?).map (fun bar => bar.items.map (fun it => it.p_selected))
      = some [some (BoolPtr.table "b" 0)] ∧
    sampleBound.deref (BoolPtr.table "b" 0) = some false ∧
    sampleDangling.deref (BoolPtr.table "b" 0) = none ∧
    (sampleBound.RenderTabBars allOpen 1).calls = some [] ∧
    (sampleDangling.RenderTabBars allOpen 1).isUndefined = true ∧
    (sampleDangling.RenderTabBars allOpen 8).isUndefined = true ∧
    (sampleDangling.RenderTabBars allClicked 1).isUndefined = true :=
  ⟨Reachable.removePanel _ "b" Reachable_sampleBound, by decide, by decide, by decide,
    by decide, by decide, by decide, by decide⟩


/-- C20. The key set of the visibility table is the set of names of the registered
panels: in the freshly constructed shell; after `AddPanel`, `RemovePanel`, either
`AddPanelTab` overload and `HandlePanelToggle` whenever it was so before; in
every reachable state, and again after the toggle callback of any item of the
menu tree of such a state has been called (the callbacks built by the manager
always return). `AddPanelTab` with an unknown panel name leaves the table as it
was. -/
theorem keys_are_registered_names :
    (∀ heap outside_refs, (GUIManager.new heap outside_refs).KeysAreNames) ∧
    (∀ s : GUIManager, s.KeysAreNames →
      (∀ p sc, (s.AddPanel p sc).KeysAreNames) ∧
      (∀ name, (s.RemovePanel name).KeysAreNames) ∧
      (∀ bar tab name sc, (s.AddPanelTab bar tab name sc).KeysAreNames) ∧
      (∀ bar tab panel sc, (s.AddPanelTabShared bar tab panel sc).KeysAreNames) ∧
      (∀ name, (s.HandlePanelToggle name).KeysAreNames)) ∧
    (∀ s : GUIManager, Reachable s →
      s.KeysAreNames ∧
      ∀ bar ∈ s.m_tab_bars, ∀ item ∈ bar.items, ∀ (cb : CheckedCallback) (b : Bool),
        item.checked_callback = some cb → (∀ handle, cb ≠ CheckedCallback.caller handle) →
        ∃ s', s.invoke cb b = some s' ∧ s'.KeysAreNames) ∧
    (∀ (s : GUIManager) (bar : Option Nat) (tab name sc : String),
      (∀ p ∈ s.panels, s.nameOf p ≠ name) →
      (s.AddPanelTab bar tab name sc).panel_visibility_states = s.panel_visibility_states) := by
  refine ⟨fun heap outside_refs => (WellFormed_new heap outside_refs).1, ?_, ?_, ?_⟩
  · intro s hs
    exact ⟨fun p sc => KeysAreNames_AddPanel s hs p sc,
      fun name => KeysAreNames_RemovePanel s hs name,
      fun bar tab name sc => KeysAreNames_AddPanelTab s hs bar tab name sc,
      fun bar tab panel sc => KeysAreNames_AddPanelTabShared s hs bar tab panel sc,
      fun name => KeysAreNames_HandlePanelToggle s hs name⟩
  · intro s hs
    refine ⟨hs.wellFormed.1, ?_⟩
    intro bar hbar item hitem cb b hcb hmade
    cases cb with
    | viewToggle p =>
      exact ⟨_, rfl, (WellFormed_invoke s hs.wellFormed bar hbar item hitem _ hcb b _ rfl).1⟩
    | panelToggle name =>
      exact ⟨_, rfl, (WellFormed_invoke s hs.wellFormed bar hbar item hitem _ hcb b _ rfl).1⟩
    | caller handle => exact absurd rfl (hmade handle)
  · intro s bar tab name sc hunknown
    have hget : s.GetPanel name = none :=
      List.find?_eq_none.mpr (fun q hq => by simpa [nameOf] using hunknown q hq)
    cases bar with
    | none => rfl
    | some b => simp [AddPanelTab, hget]

/-- Witness for C20: the shell with panel 2 registered and bound to a second item is
reachable, and the callback of its View item may be called. -/
theorem keys_are_registered_names_witness :
    sampleBound.KeysAreNames ∧
    ∃ s', sampleBound.invoke (CheckedCallback.viewToggle 2) true = some s' ∧
      s'.KeysAreNames :=
  have h := keys_are_registered_names.2.2.1 sampleBound
    (Reachable.addPanelTab _ (some 0) "Panel B" "b" ""
      (Reachable.addPanel _ 2 "" Reachable_sampleShell))
  ⟨h.1, h.2 { id := "View", items := [UpdateViewMenu.new_item sampleHeap (fun _ => 0) 2] }
    (by decide) (UpdateViewMenu.new_item sampleHeap (fun _ => 0) 2) (by decide)
    (CheckedCallback.viewToggle 2) true rfl
    (fun _ hc => by cases hc)⟩

end GUIManager

namespace ControllerPanel

theorem HandleButtonInteraction_pressed (flag : Bool) (button : ButtonInfo) :
    (HandleButtonInteraction flag button).1.pressed = flag ∧
    (HandleButtonInteraction flag button).1.callback = button.callback ∧
    (HandleButtonInteraction flag button).1.name = button.name := by
  unfold HandleButtonInteraction
  by_cases h : flag = button.pressed
  · simp [h]
  · simp [h]

theorem HandleButtonInteraction_calls (flag : Bool) (button : ButtonInfo) (handle : Nat)
    (hcb : button.callback = some handle) :
    (HandleButtonInteraction flag button).2
      = if flag ≠ button.pressed then [{ handle := handle, new_state := flag }] else [] := by
  unfold HandleButtonInteraction
  by_cases h : flag = button.pressed
  · simp [h]
  · simp [h, hcb]

theorem pressFrames_append (button : ButtonInfo) (pre post : List Bool) :
    pressFrames button (pre ++ post)
      = ((pressFrames (pressFrames button pre).1 post).1,
          (pressFrames button pre).2 ++ (pressFrames (pressFrames button pre).1 post).2) := by
  induction pre generalizing button with
  | nil => simp [pressFrames]
  | cons flag pre ih => simp [pressFrames, ih]

theorem pressFrames_callback (button : ButtonInfo) (flags : List Bool) :
    (pressFrames button flags).1.callback = button.callback := by
  induction flags generalizing button with
  | nil => rfl
  | cons flag flags ih =>
    simp only [pressFrames]
    rw [ih, (HandleButtonInteraction_pressed flag button).2.1]

theorem pressFrames_calls (button : ButtonInfo) (handle : Nat)
    (hcb : button.callback = some handle) (flags : List Bool) :
    (pressFrames button flags).2
      = List.zipWith
          (fun before flag =>
            if flag ≠ before then [({ handle := handle, new_state := flag } : ButtonCall)]
            else [])
          (button.pressed :: flags) flags := by
  induction flags generalizing button with
  | nil => rfl
  | cons flag flags ih =>
    have hnext := HandleButtonInteraction_pressed flag button
    simp only [pressFrames, List.zipWith_cons_cons]
    rw [ih _ (by rw [hnext.2.1, hcb]), hnext.1, HandleButtonInteraction_calls flag button
      handle hcb]

/-- C12. A button that starts Released and has a callback bound is taken through
any run of frames with per-frame active flags. In every frame the callback is
called exactly once, with the flag, if the flag differs from the pressed state
before the frame, and not at all otherwise; after every frame the pressed state
is that frame's flag; over the whole run the calls are those of the frames whose
flag differs from the previous one (from `false` for the first). For the flags
false, true, true, false the callback is called with `true` in the second frame,
with `false` in the fourth, and in no other frame. -/
theorem button_edge_triggered (button : ButtonInfo) (handle : Nat)
    (hcb : button.callback = some handle) (hreleased : button.pressed = false) :
    (∀ (pre : List Bool) (flag : Bool),
      (pressFrames button (pre ++ [flag])).2
        = (pressFrames button pre).2
          ++ [if flag ≠ (pressFrames button pre).1.pressed then
                [{ handle := handle, new_state := flag }] else []]) ∧
    (∀ (pre : List Bool) (flag : Bool), (pressFrames button (pre ++ [flag])).1.pressed = flag) ∧
    (∀ flags : List Bool,
      (pressFrames button flags).2
        = List.zipWith
            (fun before flag =>
              if flag ≠ before then [({ handle := handle, new_state := flag } : ButtonCall)]
              else [])
            (false :: flags) flags) ∧
    (pressFrames button [false, true, true, false]).2
      = [[], [{ handle := handle, new_state := true }], [],
          [{ handle := handle, new_state := false }]] := by
  have hall : ∀ flags : List Bool,
      (pressFrames button flags).2
        = List.zipWith
            (fun before flag =>
              if flag ≠ before then [({ handle := handle, new_state := flag } : ButtonCall)]
              else [])
            (false :: flags) flags := by
    intro flags
    rw [pressFrames_calls button handle hcb flags, hreleased]
  refine ⟨?_, ?_, hall, ?_⟩
  · intro pre flag
    rw [pressFrames_append]
    simp only [pressFrames]
    rw [HandleButtonInteraction_calls flag _ handle (by rw [pressFrames_callback, hcb])]
  · intro pre flag
    rw [pressFrames_append]
    simp only [pressFrames]
    exact (HandleButtonInteraction_pressed flag _).1
  · rw [hall]
    simp

/-- Witness for C12: the A button of a controller, with callback 7 bound, over the
frames false, true, true, false. -/
theorem button_edge_triggered_witness :
    (pressFrames { name := "A Button", pressed := false, callback := some 7 }
        [false, true, true, false]).2
      = [[], [{ handle := 7, new_state := true }], [],
          [{ handle := 7, new_state := false }]] :=
  (button_edge_triggered { name := "A Button", pressed := false, callback := some 7 } 7
    rfl rfl).2.2.2

end ControllerPanel

/-- The stored stick vector of an active frame lies in the unit disc, for any square
root function that is right at the squared length of the drag vector. -/
theorem stick_sq_le_one {K : Type} [LinearOrderedField K] (sqrt : K → K) (dx dy r : K)
    (hr : 0 < r) (h0 : 0 ≤ sqrt (dx * dx + dy * dy))
    (hsq : sqrt (dx * dx + dy * dy) * sqrt (dx * dx + dy * dy) = dx * dx + dy * dy)
    (stick : StickInfo K) :
    (RenderController.stick sqrt true (dx, dy) r stick).x ^ 2
      + (RenderController.stick sqrt true (dx, dy) r stick).y ^ 2 ≤ 1 := by
  have hR : 0 < r * (7 / 10) := by positivity
  simp only [RenderController.stick, if_true]
  generalize hd : sqrt (dx * dx + dy * dy) = d at h0 hsq
  generalize hRdef : r * (7 / 10) = R at hR
  by_cases hgt : d > R
  · have hd0 : 0 < d := lt_trans hR hgt
    simp only [hgt, if_true]
    have hx : dx / d * R / R = dx / d := by
      field_simp
      ring
    have hy : -(dy / d * R) / R = -(dy / d) := by
      field_simp
      ring
    rw [hx, hy]
    have : (dx / d) ^ 2 + (-(dy / d)) ^ 2 = (dx * dx + dy * dy) / (d * d) := by
      field_simp
      ring
    rw [this, ← hsq, div_self (ne_of_gt (mul_pos hd0 hd0))]
  · simp only [hgt, if_false]
    have hle : d ≤ R := not_lt.mp hgt
    have : (dx / R) ^ 2 + (-dy / R) ^ 2 = (d * d) / (R * R) := by
      rw [hsq]
      field_simp
      ring
    rw [this, div_le_one (mul_pos hR hR)]
    exact mul_le_mul hle hle h0 (le_of_lt hR)

/-- C13. Over the real numbers, for every drag vector `(dx, dy)`, every scale factor
`scale > 0` (stick base radius `30·scale`, maximum radius `R = 0.7·30·scale`) and
every previous stick value, the position stored by an active frame satisfies
`x² + y² ≤ 1`, and both components lie in `[-1, 1]`. -/
theorem stick_position_in_unit_square (dx dy scale : ℝ) (hscale : 0 < scale)
    (stick : StickInfo ℝ) :
    (RenderController.stick Real.sqrt true (dx, dy) (30 * scale) stick).x ^ 2
      + (RenderController.stick Real.sqrt true (dx, dy) (30 * scale) stick).y ^ 2 ≤ 1 ∧
    -1 ≤ (RenderController.stick Real.sqrt true (dx, dy) (30 * scale) stick).x ∧
    (RenderController.stick Real.sqrt true (dx, dy) (30 * scale) stick).x ≤ 1 ∧
    -1 ≤ (RenderController.stick Real.sqrt true (dx, dy) (30 * scale) stick).y ∧
    (RenderController.stick Real.sqrt true (dx, dy) (30 * scale) stick).y ≤ 1 := by
  have hnn : (0 : ℝ) ≤ dx * dx + dy * dy :=
    add_nonneg (mul_self_nonneg dx) (mul_self_nonneg dy)
  have h := stick_sq_le_one Real.sqrt dx dy (30 * scale) (by positivity)
    (Real.sqrt_nonneg _) (Real.mul_self_sqrt hnn) stick
  generalize (RenderController.stick Real.sqrt true (dx, dy) (30 * scale) stick).x = x at h ⊢
  generalize (RenderController.stick Real.sqrt true (dx, dy) (30 * scale) stick).y = y at h ⊢
  refine ⟨h, ?_, ?_, ?_, ?_⟩ <;> nlinarith [sq_nonneg x, sq_nonneg y, sq_nonneg (x - 1),
    sq_nonneg (x + 1), sq_nonneg (y - 1), sq_nonneg (y + 1)]

/-- Witness for C13: the drag `(300, -400)` at scale 2, from a stick at rest. -/
theorem stick_position_in_unit_square_witness :
    (RenderController.stick Real.sqrt true ((300 : ℝ), -400) (30 * 2)
        { name := "Left Stick", x := 0, y := 0, callback := none }).x ^ 2
      + (RenderController.stick Real.sqrt true ((300 : ℝ), -400) (30 * 2)
        { name := "Left Stick", x := 0, y := 0, callback := none }).y ^ 2 ≤ 1 :=
  (stick_position_in_unit_square 300 (-400) 2 (by norm_num)
    { name := "Left Stick", x := 0, y := 0, callback := none }).1

theorem stick_inactive {K : Type} [LinearOrderedField K] (sqrt : K → K) (d : K × K) (r : K)
    (stick : StickInfo K) :
    (RenderController.stick sqrt false d r stick).x = 0 ∧
    (RenderController.stick sqrt false d r stick).y = 0 := by
  unfold RenderController.stick
  by_cases h : stick.x ≠ 0 ∨ stick.y ≠ 0
  · simp [h]
  · have h' : stick.x = 0 ∧ stick.y = 0 := by
      constructor <;> by_contra hne <;> exact h (by simp [hne])
    simp [h'.1, h'.2]

theorem stick_keeps_identity {K : Type} [LinearOrderedField K] (sqrt : K → K) (active : Bool)
    (d : K × K) (r : K) (stick : StickInfo K) :
    (RenderController.stick sqrt active d r stick).name = stick.name ∧
    (RenderController.stick sqrt active d r stick).callback = stick.callback := by
  unfold RenderController.stick
  cases active
  · by_cases h : stick.x ≠ 0 ∨ stick.y ≠ 0 <;> simp [h]
  · simp

namespace ControllerPanel

theorem setButton_buttons {K : Type} (p : ControllerPanel K) (id : String) (info : ButtonInfo)
    (k : String) : (p.setButton id info).buttons k = if k = id then some info else p.buttons k := by
  by_cases h : k = id
  · subst h
    simp [setButton]
  · simp [setButton, indexButton, Function.update_noteq h, h]

theorem setStick_sticks {K : Type} [LinearOrderedField K] (p : ControllerPanel K) (id : String)
    (info : StickInfo K) (k : String) :
    (p.setStick id info).sticks k = if k = id then some info else p.sticks k := by
  by_cases h : k = id
  · subst h
    simp [setStick]
  · simp [setStick, indexStick, Function.update_noteq h, h]

theorem setButton_sticks {K : Type} (p : ControllerPanel K) (id : String) (info : ButtonInfo) :
    (p.setButton id info).sticks = p.sticks := rfl

theorem setStick_buttons {K : Type} [LinearOrderedField K] (p : ControllerPanel K)
    (id : String) (info : StickInfo K) : (p.setStick id info).buttons = p.buttons := rfl

theorem interact_buttons {K : Type} (input : FrameInput K) (id : String)
    (st : ControllerPanel K × List ButtonCall) (k : String) :
    (interact input id st).1.buttons k
      = if k = id then
          some (HandleButtonInteraction (input.item_active id) ((st.1.buttons id).getD {})).1
        else st.1.buttons k := by
  by_cases h : k = id
  · subst h
    simp [interact, indexButton]
  · simp [interact, indexButton, Function.update_noteq h, h]

theorem interact_sticks {K : Type} (input : FrameInput K) (id : String)
    (st : ControllerPanel K × List ButtonCall) : (interact input id st).1.sticks = st.1.sticks :=
  rfl

theorem interact_scale {K : Type} (input : FrameInput K) (id : String)
    (st : ControllerPanel K × List ButtonCall) :
    (interact input id st).1.controller_scale = st.1.controller_scale := rfl

theorem dragStick_sticks {K : Type} [LinearOrderedField K] (input : FrameInput K)
    (id button_id : String) (p : ControllerPanel K) (k : String) :
    (dragStick input id button_id p).sticks k
      = if k = id then
          some (RenderController.stick input.sqrt (input.item_active button_id)
            input.mouse_drag_delta (30 * p.controller_scale)
            ((p.sticks id).getD (StickInfo.empty K)))
        else p.sticks k := by
  by_cases h : k = id
  · subst h
    simp [dragStick, indexStick]
  · simp [dragStick, indexStick, Function.update_noteq h, h]

theorem dragStick_buttons {K : Type} [LinearOrderedField K] (input : FrameInput K)
    (id button_id : String) (p : ControllerPanel K) :
    (dragStick input id button_id p).buttons = p.buttons := rfl

theorem dragStick_scale {K : Type} [LinearOrderedField K] (input : FrameInput K)
    (id button_id : String) (p : ControllerPanel K) :
    (dragStick input id button_id p).controller_scale = p.controller_scale := rfl

theorem interact_keys {K : Type} (input : FrameInput K) (id : String)
    (st : ControllerPanel K × List ButtonCall) (k : String) :
    ((interact input id st).1.buttons k).isSome
      = ((st.1.buttons k).isSome || decide (k = id)) := by
  rw [interact_buttons]
  by_cases h : k = id <;> simp [h]

theorem dragStick_keys {K : Type} [LinearOrderedField K] (input : FrameInput K)
    (id button_id : String) (p : ControllerPanel K) (k : String) :
    ((dragStick input id button_id p).sticks k).isSome
      = ((p.sticks k).isSome || decide (k = id)) := by
  rw [dragStick_sticks]
  by_cases h : k = id <;> simp [h]

/-- After `RenderController` the button entries are those present before together
with those of the catalog. -/
theorem RenderController_button_keys {K : Type} [LinearOrderedField K] (input : FrameInput K)
    (p : ControllerPanel K) (k : String) :
    ((RenderController input p).1.buttons k).isSome = true ↔
      (p.buttons k).isSome = true ∨ k ∈ buttonIds := by
  simp only [RenderController, interact_keys, dragStick_buttons, buttonIds,
    Bool.or_eq_true, decide_eq_true_eq, List.mem_cons, List.mem_singleton, List.not_mem_nil,
    or_false]
  tauto

/-- After `RenderController` the stick entries are those present before together
with those of the catalog. -/
theorem RenderController_stick_keys {K : Type} [LinearOrderedField K] (input : FrameInput K)
    (p : ControllerPanel K) (k : String) :
    ((RenderController input p).1.sticks k).isSome = true ↔
      (p.sticks k).isSome = true ∨ k ∈ stickIds := by
  simp only [RenderController, interact_sticks, dragStick_keys, stickIds,
    Bool.or_eq_true, decide_eq_true_eq, List.mem_cons, List.mem_singleton, List.not_mem_nil,
    or_false]
  tauto

end ControllerPanel

namespace ControllerPanel

theorem SetButtonCallback_keys {K : Type} (p : ControllerPanel K) (id : String)
    (cb : Option Nat) (k : String) :
    ((p.SetButtonCallback id cb).buttons k).isSome = (p.buttons k).isSome := by
  unfold SetButtonCallback
  cases hid : p.buttons id with
  | none => simp
  | some info =>
    by_cases h : k = id
    · subst h
      simp [indexButton, hid]
    · simp [indexButton, Function.update_noteq h]

theorem SetButtonState_keys {K : Type} (p : ControllerPanel K) (id : String)
    (v : Bool) (k : String) :
    ((p.SetButtonState id v).buttons k).isSome = (p.buttons k).isSome := by
  unfold SetButtonState
  cases hid : p.buttons id with
  | none => simp
  | some info =>
    by_cases h : k = id
    · subst h
      simp [indexButton, hid]
    · simp [indexButton, Function.update_noteq h]

theorem SetStickPosition_keys {K : Type} [LinearOrderedField K] (p : ControllerPanel K)
    (id : String) (x y : K) (k : String) :
    ((p.SetStickPosition id x y).sticks k).isSome = (p.sticks k).isSome := by
  unfold SetStickPosition
  cases hid : p.sticks id with
  | none => simp
  | some info =>
    by_cases h : k = id
    · subst h
      simp [indexStick, hid]
    · simp [indexStick, Function.update_noteq h]

theorem setButton_keys {K : Type} (p : ControllerPanel K) (id : String) (info : ButtonInfo)
    (k : String) :
    ((p.setButton id info).buttons k).isSome = ((p.buttons k).isSome || decide (k = id)) := by
  rw [setButton_buttons]
  by_cases h : k = id <;> simp [h]

theorem setStick_keys {K : Type} [LinearOrderedField K] (p : ControllerPanel K) (id : String)
    (info : StickInfo K) (k : String) :
    ((p.setStick id info).sticks k).isSome = ((p.sticks k).isSome || decide (k = id)) := by
  rw [setStick_sticks]
  by_cases h : k = id <;> simp [h]

theorem CatalogFixed_new (K : Type) [LinearOrderedField K] (visible : Bool) :
    CatalogFixed (ControllerPanel.new K visible) := by
  constructor
  · intro id
    simp only [ControllerPanel.new, InitializeButtons, setStick_buttons, setButton_keys,
      buttonIds, Bool.or_eq_true, decide_eq_true_eq, List.mem_cons, List.mem_singleton,
      List.not_mem_nil, or_false, Option.isSome_none, Bool.false_eq_true, false_or]
    tauto
  · intro id
    simp only [ControllerPanel.new, InitializeButtons, setStick_keys, setButton_sticks,
      stickIds, Bool.or_eq_true, decide_eq_true_eq, List.mem_cons, List.mem_singleton,
      List.not_mem_nil, or_false, Option.isSome_none, Bool.false_eq_true, false_or]

theorem released_setButton {K : Type} (p : ControllerPanel K) (id : String)
    (info : ButtonInfo) (hinfo : info.pressed = false ∧ info.callback = none)
    (hp : ∀ k i, p.buttons k = some i → i.pressed = false ∧ i.callback = none) :
    ∀ k i, (p.setButton id info).buttons k = some i →
      i.pressed = false ∧ i.callback = none := by
  intro k i h
  rw [setButton_buttons] at h
  split at h
  · rw [← Option.some.inj h]
    exact hinfo
  · exact hp k i h

theorem centred_setStick {K : Type} [LinearOrderedField K] (p : ControllerPanel K)
    (id : String) (info : StickInfo K) (hinfo : info.x = 0 ∧ info.y = 0)
    (hp : ∀ k i, p.sticks k = some i → i.x = 0 ∧ i.y = 0) :
    ∀ k i, (p.setStick id info).sticks k = some i → i.x = 0 ∧ i.y = 0 := by
  intro k i h
  rw [setStick_sticks] at h
  split at h
  · rw [← Option.some.inj h]
    exact hinfo
  · exact hp k i h

theorem new_released (K : Type) [LinearOrderedField K] (visible : Bool) :
    ∀ id info, (ControllerPanel.new K visible).buttons id = some info →
      info.pressed = false ∧ info.callback = none := by
  simp only [ControllerPanel.new, InitializeButtons, setStick_buttons]
  repeat' apply released_setButton _ _ _ ⟨rfl, rfl⟩
  intro k i h
  cases h

theorem new_centred (K : Type) [LinearOrderedField K] (visible : Bool) :
    ∀ id info, (ControllerPanel.new K visible).sticks id = some info →
      info.x = 0 ∧ info.y = 0 := by
  simp only [ControllerPanel.new, InitializeButtons]
  repeat' apply centred_setStick _ _ _ ⟨rfl, rfl⟩
  intro k i h
  cases h

end ControllerPanel

namespace ControllerPanel

theorem CatalogFixed_RenderController {K : Type} [LinearOrderedField K] (input : FrameInput K)
    (p : ControllerPanel K) (hp : CatalogFixed p) : CatalogFixed (RenderController input p).1 := by
  constructor
  · intro k
    rw [RenderController_button_keys, hp.1 k]
    exact or_self_iff
  · intro k
    rw [RenderController_stick_keys, hp.2 k]
    exact or_self_iff

theorem indexStick_of_present {K : Type} [LinearOrderedField K] (p : ControllerPanel K)
    (id : String) (h : (p.sticks id).isSome = true) : p.indexStick id = p := by
  obtain ⟨info, hinfo⟩ := Option.isSome_iff_exists.mp h
  unfold indexStick
  rw [hinfo, Option.getD_some, ← hinfo, Function.update_eq_self]

theorem CatalogFixed_Render {K : Type} [LinearOrderedField K] (w : WindowInput K)
    (p : ControllerPanel K) (hp : CatalogFixed p) : CatalogFixed (Render w p).1 := by
  unfold Render
  cases hv : p.visible with
  | false => exact hp
  | true =>
    cases hb : w.begin_open with
    | false => exact hp
    | true =>
      simp only [Bool.not_true, Bool.false_eq_true, if_false]
      have hr := CatalogFixed_RenderController w.frame
        { p with
          visible := w.visible_after_begin
          controller_scale := w.scale_after_slider
          show_button_labels := w.labels_after_checkbox
          highlight_pressed := w.highlight_after_checkbox } hp
      split
      · rw [indexStick_of_present _ "l-stick" ((hr.2 _).mpr (by simp [stickIds])),
          indexStick_of_present _ "r-stick" ((hr.2 _).mpr (by simp [stickIds]))]
        exact hr
      · exact hr

theorem SetButtonCallback_sticks {K : Type} (p : ControllerPanel K) (id : String)
    (cb : Option Nat) : (p.SetButtonCallback id cb).sticks = p.sticks := by
  unfold SetButtonCallback
  split <;> rfl

theorem SetButtonState_sticks {K : Type} (p : ControllerPanel K) (id : String)
    (v : Bool) : (p.SetButtonState id v).sticks = p.sticks := by
  unfold SetButtonState
  split <;> rfl

theorem SetStickPosition_buttons {K : Type} [LinearOrderedField K] (p : ControllerPanel K)
    (id : String) (x y : K) : (p.SetStickPosition id x y).buttons = p.buttons := by
  unfold SetStickPosition
  split <;> rfl

/-- C16. After construction the overlay holds exactly the 14 button identifiers, all
Released and without callback, and exactly the 2 stick identifiers, both at
`(0, 0)`. `SetButtonCallback`, `SetButtonState`, `SetStickPosition` and the
per-frame update (`RenderController`, and `Render` around it) keep the catalog:
afterwards the entries are those of the same identifiers. A setter called with
an identifier that has no entry leaves the whole state unchanged. -/
theorem catalog_is_fixed (K : Type) [LinearOrderedField K] :
    (∀ visible : Bool,
      CatalogFixed (ControllerPanel.new K visible) ∧
      (buttonIds.length = 14 ∧ buttonIds.Nodup) ∧
      (stickIds.length = 2 ∧ stickIds.Nodup) ∧
      (∀ id info, (ControllerPanel.new K visible).buttons id = some info →
        info.pressed = false ∧ info.callback = none) ∧
      (∀ id info, (ControllerPanel.new K visible).sticks id = some info →
        info.x = 0 ∧ info.y = 0)) ∧
    (∀ p : ControllerPanel K, CatalogFixed p →
      (∀ id cb, CatalogFixed (p.SetButtonCallback id cb)) ∧
      (∀ id pressed, CatalogFixed (p.SetButtonState id pressed)) ∧
      (∀ id x y, CatalogFixed (p.SetStickPosition id x y)) ∧
      (∀ input, CatalogFixed (RenderController input p).1) ∧
      (∀ w, CatalogFixed (Render w p).1)) ∧
    (∀ p : ControllerPanel K,
      (∀ id cb, p.buttons id = none → p.SetButtonCallback id cb = p) ∧
      (∀ id pressed, p.buttons id = none → p.SetButtonState id pressed = p) ∧
      (∀ id x y, p.sticks id = none → p.SetStickPosition id x y = p)) := by
  refine ⟨?_, ?_, ?_⟩
  · intro visible
    exact ⟨CatalogFixed_new K visible, ⟨rfl, by decide⟩, ⟨rfl, by decide⟩,
      new_released K visible, new_centred K visible⟩
  · intro p hp
    refine ⟨?_, ?_, ?_, fun input => CatalogFixed_RenderController input p hp,
      fun w => CatalogFixed_Render w p hp⟩
    · intro id cb
      exact ⟨fun k => by rw [SetButtonCallback_keys]; exact hp.1 k,
        fun k => by rw [SetButtonCallback_sticks]; exact hp.2 k⟩
    · intro id v
      exact ⟨fun k => by rw [SetButtonState_keys]; exact hp.1 k,
        fun k => by rw [SetButtonState_sticks]; exact hp.2 k⟩
    · intro id x y
      exact ⟨fun k => by rw [SetStickPosition_buttons]; exact hp.1 k,
        fun k => by rw [SetStickPosition_keys]; exact hp.2 k⟩
  · intro p
    refine ⟨?_, ?_, ?_⟩
    · intro id cb h
      simp [SetButtonCallback, h]
    · intro id v h
      simp [SetButtonState, h]
    · intro id x y h
      simp [SetStickPosition, h]

/-- Witness for C16: on the new overlay (over the rationals) the identifier "turbo"
has no entry, so `SetButtonState("turbo", true)` changes nothing, and a frame in
which the A button is active keeps the catalog. -/
theorem catalog_is_fixed_witness :
    (ControllerPanel.new ℚ true).SetButtonState "turbo" true = ControllerPanel.new ℚ true ∧
    CatalogFixed (RenderController sampleFrame (ControllerPanel.new ℚ true)).1 :=
  ⟨((catalog_is_fixed ℚ).2.2 (ControllerPanel.new ℚ true)).2.1 "turbo" true
      (Option.not_isSome_iff_eq_none.mp (fun h =>
        absurd ((((catalog_is_fixed ℚ).1 true).1.1 "turbo").mp h) (by decide))),
   ((catalog_is_fixed ℚ).2.1 (ControllerPanel.new ℚ true)
      ((catalog_is_fixed ℚ).1 true).1).2.2.2.1 sampleFrame⟩

end ControllerPanel

namespace ControllerPanel

/-- The two stick entries after `RenderController`. -/
theorem RenderController_sticks {K : Type} [LinearOrderedField K] (input : FrameInput K)
    (p : ControllerPanel K) :
    (RenderController input p).1.sticks "l-stick"
      = some (RenderController.stick input.sqrt (input.item_active "l-stick_interaction")
          input.mouse_drag_delta (30 * p.controller_scale)
          ((p.sticks "l-stick").getD (StickInfo.empty K))) ∧
    (RenderController input p).1.sticks "r-stick"
      = some (RenderController.stick input.sqrt (input.item_active "r-stick_interaction")
          input.mouse_drag_delta (30 * p.controller_scale)
          ((p.sticks "r-stick").getD (StickInfo.empty K))) := by
  have hne : ("l-stick" : String) ≠ "r-stick" := by decide
  have hscale : ∀ (id : String) (st : ControllerPanel K × List ButtonCall),
      (interact input id st).1.controller_scale = st.1.controller_scale := fun _ _ => rfl
  unfold RenderController
  dsimp only
  repeat rw [interact_sticks]
  constructor
  · rw [dragStick_sticks, if_neg hne, dragStick_sticks, if_pos rfl]
    repeat rw [interact_sticks]
    repeat rw [hscale]
  · rw [dragStick_sticks, if_pos rfl, dragStick_sticks, if_neg hne.symm, dragStick_scale]
    repeat rw [interact_sticks]
    repeat rw [hscale]

end ControllerPanel

/-- The stick block against the reference definition, over the reals. -/
theorem stick_eq_reference (active : Bool) (dx dy r : ℝ) (stick : StickInfo ℝ) :
    ((RenderController.stick Real.sqrt active (dx, dy) r stick).x,
      (RenderController.stick Real.sqrt active (dx, dy) r stick).y)
      = stickReference (fun d => Real.sqrt (d.1 ^ 2 + d.2 ^ 2)) active (dx, dy)
          (r * (7 / 10)) := by
  cases active
  · have h := stick_inactive Real.sqrt (dx, dy) r stick
    rw [h.1, h.2]
    rfl
  · simp only [RenderController.stick, stickReference, if_true, ← sq]
    by_cases hgt : Real.sqrt (dx ^ 2 + dy ^ 2) > r * (7 / 10)
    · simp only [hgt, if_true]
      rw [div_mul_eq_mul_div, div_mul_eq_mul_div, neg_div]
    · simp only [hgt, if_false]
      rw [neg_div]

/-- C14. Over the real numbers, for every previous value, every drag vector and every
scale factor, the vector stored by the stick block of the per-frame update is the
one of the reference definition `stickReference` with `R = 0.7·30·scale` and the
Euclidean length, and the stick's name and callback are kept. For `scale > 0`: a
drag of `2R` in +x is stored as `(1, 0)`, the drag `(0, -R/2)` as `(0, 1/2)`, and a
frame in which the pointer is not active stores `(0, 0)`. After a call of
`RenderController` both the entry "l-stick" and the entry "r-stick" hold the vector
of the reference definition, each for the active flag of its own invisible
button, the drag vector of the frame and the panel's scale. -/
theorem stick_matches_reference (scale : ℝ) (hscale : 0 < scale) (stick : StickInfo ℝ) :
    (∀ (active : Bool) (dx dy : ℝ),
      ((RenderController.stick Real.sqrt active (dx, dy) (30 * scale) stick).x,
        (RenderController.stick Real.sqrt active (dx, dy) (30 * scale) stick).y)
        = stickReference (fun d => Real.sqrt (d.1 ^ 2 + d.2 ^ 2)) active (dx, dy)
            (30 * scale * (7 / 10)) ∧
      (RenderController.stick Real.sqrt active (dx, dy) (30 * scale) stick).name
        = stick.name ∧
      (RenderController.stick Real.sqrt active (dx, dy) (30 * scale) stick).callback
        = stick.callback) ∧
    ((RenderController.stick Real.sqrt true (2 * (30 * scale * (7 / 10)), 0) (30 * scale)
        stick).x = 1 ∧
      (RenderController.stick Real.sqrt true (2 * (30 * scale * (7 / 10)), 0) (30 * scale)
        stick).y = 0) ∧
    ((RenderController.stick Real.sqrt true (0, -(30 * scale * (7 / 10) / 2)) (30 * scale)
        stick).x = 0 ∧
      (RenderController.stick Real.sqrt true (0, -(30 * scale * (7 / 10) / 2)) (30 * scale)
        stick).y = 1 / 2) ∧
    (∀ d : ℝ × ℝ,
      (RenderController.stick Real.sqrt false d (30 * scale) stick).x = 0 ∧
      (RenderController.stick Real.sqrt false d (30 * scale) stick).y = 0) ∧
    (∀ (p : ControllerPanel ℝ) (input : FrameInput ℝ), input.sqrt = Real.sqrt →
      ∃ l r,
        (ControllerPanel.RenderController input p).1.sticks "l-stick" = some l ∧
        (l.x, l.y) = stickReference (fun d => Real.sqrt (d.1 ^ 2 + d.2 ^ 2))
          (input.item_active "l-stick_interaction") input.mouse_drag_delta
          (30 * p.controller_scale * (7 / 10)) ∧
        (ControllerPanel.RenderController input p).1.sticks "r-stick" = some r ∧
        (r.x, r.y) = stickReference (fun d => Real.sqrt (d.1 ^ 2 + d.2 ^ 2))
          (input.item_active "r-stick_interaction") input.mouse_drag_delta
          (30 * p.controller_scale * (7 / 10))) := by
  have hR : (0 : ℝ) < 30 * scale * (7 / 10) := by positivity
  refine ⟨?_, ?_, ?_, fun d => stick_inactive Real.sqrt d (30 * scale) stick, ?_⟩
  · intro active dx dy
    exact ⟨stick_eq_reference active dx dy (30 * scale) stick,
      (stick_keeps_identity Real.sqrt active (dx, dy) (30 * scale) stick).1,
      (stick_keeps_identity Real.sqrt active (dx, dy) (30 * scale) stick).2⟩
  · have hs : Real.sqrt (2 * (30 * scale * (7 / 10)) * (2 * (30 * scale * (7 / 10))) + 0 * 0)
        = 2 * (30 * scale * (7 / 10)) := by
      rw [mul_zero, add_zero]
      exact Real.sqrt_mul_self (by positivity)
    have hgt : 2 * (30 * scale * (7 / 10)) > 30 * scale * (7 / 10) := by linarith
    simp only [RenderController.stick, if_true, hs, hgt]
    constructor
    · field_simp
    · simp
  · have hs : Real.sqrt (0 * 0 + -(30 * scale * (7 / 10) / 2) * -(30 * scale * (7 / 10) / 2))
        = 30 * scale * (7 / 10) / 2 := by
      rw [mul_zero, zero_add, neg_mul_neg]
      exact Real.sqrt_mul_self (by positivity)
    have hle : ¬ (30 * scale * (7 / 10) / 2 > 30 * scale * (7 / 10)) := by
      intro h
      linarith
    simp only [RenderController.stick, if_true, hs, hle, if_false]
    constructor
    · simp
    · field_simp
      ring

  · intro p input hsqrt
    obtain ⟨hl, hr⟩ := ControllerPanel.RenderController_sticks input p
    refine ⟨_, _, hl, ?_, hr, ?_⟩
    · rw [hsqrt]
      exact stick_eq_reference _ input.mouse_drag_delta.1 input.mouse_drag_delta.2 _ _
    · rw [hsqrt]
      exact stick_eq_reference _ input.mouse_drag_delta.1 input.mouse_drag_delta.2 _ _

/-- Witness for C14: scale 1, so `R = 21`; the drag `(42, 0)` on a stick at rest. -/
theorem stick_matches_reference_witness :
    (RenderController.stick Real.sqrt true (2 * (30 * (1 : ℝ) * (7 / 10)), 0) (30 * 1)
        { name := "Left Stick", x := 0, y := 0, callback := none }).x = 1 ∧
    (RenderController.stick Real.sqrt true (2 * (30 * (1 : ℝ) * (7 / 10)), 0) (30 * 1)
        { name := "Left Stick", x := 0, y := 0, callback := none }).y = 0 :=
  (stick_matches_reference 1 (by norm_num)
    { name := "Left Stick", x := 0, y := 0, callback := none }).2.1


namespace F32

theorem roundHalfEven_err (x : ℚ) : |(roundHalfEven x : ℚ) - x| ≤ 1 / 2 := by
  have h1 : (⌊x⌋ : ℚ) ≤ x := Int.floor_le x
  have h2 : x < ⌊x⌋ + 1 := Int.lt_floor_add_one x
  unfold roundHalfEven
  split_ifs with ha hb hc
  · rw [abs_le]; constructor <;> linarith
  · rw [abs_le]; push_cast; constructor <;> linarith
  · rw [abs_le]; constructor <;> linarith
  · rw [abs_le]; push_cast; constructor <;> linarith

theorem roundHalfEven_eq (x : ℚ) (m : Int) (h : |x - m| < 1 / 2) : roundHalfEven x = m := by
  have h1 : (⌊x⌋ : ℚ) ≤ x := Int.floor_le x
  have h2 : x < ⌊x⌋ + 1 := Int.lt_floor_add_one x
  rw [abs_lt] at h
  unfold roundHalfEven
  split_ifs with ha hb hc
  · have : (⌊x⌋ : ℚ) - m < 1 := by linarith
    have : (m : ℚ) - ⌊x⌋ < 1 := by linarith
    have h3 : (⌊x⌋ - m : ℤ) < 1 := by exact_mod_cast ‹(⌊x⌋ : ℚ) - m < 1›
    have h4 : (m - ⌊x⌋ : ℤ) < 1 := by exact_mod_cast ‹(m : ℚ) - ⌊x⌋ < 1›
    omega
  · have h3 : ((⌊x⌋ + 1 - m : ℤ) : ℚ) < 1 := by push_cast; linarith
    have h4 : ((m - (⌊x⌋ + 1) : ℤ) : ℚ) < 1 := by push_cast; linarith
    have h3' : (⌊x⌋ + 1 - m : ℤ) < 1 := by exact_mod_cast h3
    have h4' : (m - (⌊x⌋ + 1) : ℤ) < 1 := by exact_mod_cast h4
    omega
  · exfalso
    have hx : x - ⌊x⌋ = 1 / 2 := le_antisymm (not_lt.mp hb) (not_lt.mp ha)
    have h3 : ((⌊x⌋ - m : ℤ) : ℚ) < 0 := by push_cast; linarith
    have h4 : ((m - ⌊x⌋ : ℤ) : ℚ) < 1 := by push_cast; linarith
    have h3' : (⌊x⌋ - m : ℤ) < 0 := by exact_mod_cast h3
    have h4' : (m - ⌊x⌋ : ℤ) < 1 := by exact_mod_cast h4
    omega
  · exfalso
    have hx : x - ⌊x⌋ = 1 / 2 := le_antisymm (not_lt.mp hb) (not_lt.mp ha)
    have h3 : ((⌊x⌋ - m : ℤ) : ℚ) < 0 := by push_cast; linarith
    have h4 : ((m - ⌊x⌋ : ℤ) : ℚ) < 1 := by push_cast; linarith
    have h3' : (⌊x⌋ - m : ℤ) < 0 := by exact_mod_cast h3
    have h4' : (m - ⌊x⌋ : ℤ) < 1 := by exact_mod_cast h4
    omega

theorem exponent_eq (q : ℚ) (e : Int) (hmin : -126 ≤ e) (h1 : (2 : ℚ) ^ e ≤ |q|)
    (h2 : |q| < (2 : ℚ) ^ (e + 1)) : exponent q = e := by
  have hpos : 0 < |q| := lt_of_lt_of_le (zpow_pos (by norm_num) e) h1
  have hle : e ≤ Int.log 2 |q| :=
    (Int.zpow_le_iff_le_log (by norm_num) hpos).mp (by exact_mod_cast h1)
  have hlt : Int.log 2 |q| < e + 1 :=
    (Int.lt_zpow_iff_log_lt (by norm_num) hpos).mp (by exact_mod_cast h2)
  unfold exponent
  omega

/-- Evaluation of a rounding that is not half-way. -/
theorem round_eq (q : ℚ) (e m : Int) (hmin : -126 ≤ e) (h1 : (2 : ℚ) ^ e ≤ |q|)
    (h2 : |q| < (2 : ℚ) ^ (e + 1)) (hm : |q / 2 ^ (e - 23) - m| < 1 / 2) :
    round q = m * 2 ^ (e - 23) := by
  unfold round ulp
  rw [exponent_eq q e hmin h1 h2, roundHalfEven_eq _ m hm]

theorem ulp_pos (q : ℚ) : 0 < ulp q := zpow_pos (by norm_num) _

theorem round_zero : round 0 = 0 := by
  simp [round, roundHalfEven]

theorem ulp_le (q : ℚ) (hq : q ≠ 0) : ulp q ≤ 2 ^ (-23 : ℤ) * |q| + 2 ^ (-149 : ℤ) := by
  unfold ulp exponent
  rcases le_total (Int.log 2 |q|) (-126) with hl | hl
  · rw [max_eq_right hl]
    have h0 : (0 : ℚ) ≤ 2 ^ (-23 : ℤ) * |q| := by positivity
    have : ((-126 : ℤ) - 23) = -149 := by norm_num
    rw [this]
    linarith
  · rw [max_eq_left hl, zpow_sub₀ (by norm_num : (2 : ℚ) ≠ 0)]
    have hlog : ((2 : ℕ) : ℚ) ^ Int.log 2 |q| ≤ |q| :=
      Int.zpow_log_le_self (by norm_num) (abs_pos.mpr hq)
    have hlog' : (2 : ℚ) ^ Int.log 2 |q| ≤ |q| := by exact_mod_cast hlog
    have h23 : (0 : ℚ) < 2 ^ (23 : ℤ) := by positivity
    have h149 : (0 : ℚ) < 2 ^ (-149 : ℤ) := by positivity
    have : (2 : ℚ) ^ Int.log 2 |q| / 2 ^ (23 : ℤ) ≤ |q| / 2 ^ (23 : ℤ) :=
      div_le_div_of_nonneg_right hlog' h23.le
    have h2 : |q| / 2 ^ (23 : ℤ) = 2 ^ (-23 : ℤ) * |q| := by
      rw [zpow_neg]
      field_simp
    linarith

/-- The rounding error is at most half a unit in the last place. -/
theorem round_err (q : ℚ) : |round q - q| ≤ 2 ^ (-24 : ℤ) * |q| + 2 ^ (-150 : ℤ) := by
  by_cases hq : q = 0
  · subst hq
    rw [round_zero]
    simp
    positivity
  · have hu := ulp_pos q
    have h := roundHalfEven_err (q / ulp q)
    have heq : round q - q = ((roundHalfEven (q / ulp q) : ℚ) - q / ulp q) * ulp q := by
      unfold round
      field_simp
    rw [heq, abs_mul, abs_of_pos hu]
    have hulp := ulp_le q hq
    have h1 : |(roundHalfEven (q / ulp q) : ℚ) - q / ulp q| * ulp q ≤ 1 / 2 * ulp q :=
      mul_le_mul_of_nonneg_right h hu.le
    have h2 : (2 : ℚ) ^ (-24 : ℤ) = 1 / 2 * 2 ^ (-23 : ℤ) := by norm_num
    have h3 : (2 : ℚ) ^ (-150 : ℤ) = 1 / 2 * 2 ^ (-149 : ℤ) := by norm_num
    calc |(roundHalfEven (q / ulp q) : ℚ) - q / ulp q| * ulp q ≤ 1 / 2 * ulp q := h1
      _ ≤ 1 / 2 * (2 ^ (-23 : ℤ) * |q| + 2 ^ (-149 : ℤ)) :=
        mul_le_mul_of_nonneg_left hulp (by norm_num)
      _ = 2 ^ (-24 : ℤ) * |q| + 2 ^ (-150 : ℤ) := by
        rw [h2, h3]
        ring

/-- For a scale of at least `2^-100`, rounding a value of magnitude at most `2^21`
times the scale moves it by at most a seventh of the scale. -/
theorem round_near (s x : ℚ) (hs : 2 ^ (-100 : ℤ) ≤ s) (hx : |x| ≤ 2 ^ 21 * s) :
    |round x - x| ≤ s / 7 := by
  have h := round_err x
  have h1 : (2 : ℚ) ^ (-150 : ℤ) = 2 ^ (-50 : ℤ) * 2 ^ (-100 : ℤ) := by norm_num
  have h2 : (2 : ℚ) ^ (-50 : ℤ) * 2 ^ (-100 : ℤ) ≤ 2 ^ (-50 : ℤ) * s :=
    mul_le_mul_of_nonneg_left hs (by positivity)
  have h3 : (2 : ℚ) ^ (-24 : ℤ) * |x| ≤ 2 ^ (-24 : ℤ) * (2 ^ 21 * s) :=
    mul_le_mul_of_nonneg_left hx (by positivity)
  have hs0 : 0 < s := lt_of_lt_of_le (by positivity) hs
  have h4 : (2 : ℚ) ^ (-24 : ℤ) * (2 ^ 21 * s) = s / 8 := by norm_num; ring
  have h5 : (2 : ℚ) ^ (-50 : ℤ) * s ≤ s / 56 := by
    have h6 : (2 : ℚ) ^ (-50 : ℤ) ≤ 1 / 56 := by norm_num
    have h7 := mul_le_mul_of_nonneg_right h6 hs0.le
    linarith
  have e1 : (2 : ℚ) ^ (-24 : ℤ) * |x| ≤ s / 8 := le_of_le_of_eq h3 h4
  have e2 : (2 : ℚ) ^ (-150 : ℤ) ≤ s / 56 := by
    rw [h1]
    exact h2.trans h5
  calc |round x - x| ≤ 2 ^ (-24 : ℤ) * |x| + 2 ^ (-150 : ℤ) := h
    _ ≤ s / 8 + s / 56 := add_le_add e1 e2
    _ = s / 7 := by ring

theorem add_val (a b : F32) : (a + b).val = round (a.val + b.val) := by
  show (add a b).val = _
  unfold add
  rfl

theorem sub_val (a b : F32) : (a - b).val = round (a.val - b.val) := by
  show (sub a b).val = _
  unfold sub
  rfl

theorem mul_val (a b : F32) : (a * b).val = round (a.val * b.val) := by
  show (mul a b).val = _
  unfold mul
  rfl

theorem div_val (a b : F32) : (a / b).val = round (a.val / b.val) := by
  show (div a b).val = _
  unfold div
  rfl

theorem ofNat_val (n : ℕ) : (OfNat.ofNat n : F32).val = round n := by
  show (ofNat n).val = _
  unfold ofNat
  rfl

theorem roundHalfEven_intCast (m : Int) : roundHalfEven m = m :=
  roundHalfEven_eq _ m (by simp)

/-- A natural number below `2^24` is a binary32 number. -/
theorem round_natCast (n : ℕ) (h : n < 2 ^ 24) : round (n : ℚ) = n := by
  rcases Nat.eq_zero_or_pos n with h0 | hpos
  · subst h0
    simpa using round_zero
  · have hn0 : n ≠ 0 := Nat.pos_iff_ne_zero.mp hpos
    have hl : Nat.log 2 n < 24 := Nat.log_lt_of_lt_pow hn0 h
    have hlog : Int.log 2 |(n : ℚ)| = (Nat.log 2 n : ℤ) := by
      rw [Nat.abs_cast, Int.log_natCast]
    have hexp : exponent (n : ℚ) = (Nat.log 2 n : ℤ) := by
      unfold exponent
      rw [hlog]
      omega
    have hulp : ulp (n : ℚ) = 2 ^ (Nat.log 2 n) / 2 ^ 23 := by
      unfold ulp
      rw [hexp, zpow_sub₀ (by norm_num : (2 : ℚ) ≠ 0), zpow_natCast]
      norm_num
    have hpow : (2 : ℚ) ^ (23 - Nat.log 2 n) * 2 ^ (Nat.log 2 n) = 2 ^ 23 := by
      rw [← pow_add]
      congr 1
      omega
    have hl0 : (0 : ℚ) < 2 ^ (Nat.log 2 n) := by positivity
    have hquot : (n : ℚ) / ulp (n : ℚ) = ((n * 2 ^ (23 - Nat.log 2 n) : ℕ) : ℤ) := by
      rw [hulp]
      push_cast
      field_simp
      rw [mul_assoc, hpow]
    unfold round
    rw [hquot, roundHalfEven_intCast, hulp]
    push_cast
    field_simp
    rw [mul_assoc, hpow]

theorem ofNat_val_of_lt (n : ℕ) (h : n < 2 ^ 24) : (OfNat.ofNat n : F32).val = n := by
  rw [ofNat_val, round_natCast n h]

end F32

theorem Near.self (s x : ℚ) : Near s 0 x x :=
  ⟨by simp⟩

theorem Near.conv (n : ℕ) (e : ℚ) {s : ℚ} {m : ℕ} {x e' : ℚ} (h : Near s n x e) (hs : 0 ≤ s)
    (hn : n ≤ m) (he : e = e') : Near s m x e' := by
  subst he
  have h' := h.le
  have : (n : ℚ) ≤ m := by exact_mod_cast hn
  exact ⟨by nlinarith⟩

theorem Near_round {s : ℚ} (hs : 2 ^ (-100 : ℤ) ≤ s) {n : ℕ} {x e : ℚ}
    (h : |x - e| ≤ n * (s / 7)) (hn : n ≤ 100) (hmag : Mag s e) :
    Near s (n + 1) (F32.round x) e := by
  have hs0 : 0 < s := lt_of_lt_of_le (by positivity) hs
  have hn' : (n : ℚ) ≤ 100 := by exact_mod_cast hn
  have hmag' := hmag.le
  have hx : |x| ≤ 2 ^ 21 * s := by
    have h1 : |x| ≤ |x - e| + |e| := by
      have := abs_add (x - e) e
      simpa using this
    have h2 : (n : ℚ) * (s / 7) ≤ 100 * (s / 7) := by nlinarith
    norm_num at hmag' ⊢
    linarith
  have hr := F32.round_near s x hs hx
  have h3 : |F32.round x - e| ≤ |F32.round x - x| + |x - e| := by
    have := abs_add (F32.round x - x) (x - e)
    simpa using this
  refine ⟨?_⟩
  push_cast
  linarith

theorem Near_add {s : ℚ} (hs : 2 ^ (-100 : ℤ) ≤ s) {n m : ℕ} {x y : F32} {ex ey : ℚ}
    (hx : Near s n x.val ex) (hy : Near s m y.val ey) (hmag : Mag s (ex + ey))
    (hnm : n + m ≤ 100) : Near s (n + m + 1) (x + y).val (ex + ey) := by
  rw [F32.add_val]
  apply Near_round hs _ hnm hmag
  have hx' := hx.le
  have hy' := hy.le
  have : |x.val + y.val - (ex + ey)| ≤ |x.val - ex| + |y.val - ey| := by
    have := abs_add (x.val - ex) (y.val - ey)
    have e : x.val - ex + (y.val - ey) = x.val + y.val - (ex + ey) := by ring
    rwa [e] at this
  push_cast
  linarith

theorem Near_sub {s : ℚ} (hs : 2 ^ (-100 : ℤ) ≤ s) {n m : ℕ} {x y : F32} {ex ey : ℚ}
    (hx : Near s n x.val ex) (hy : Near s m y.val ey) (hmag : Mag s (ex - ey))
    (hnm : n + m ≤ 100) : Near s (n + m + 1) (x - y).val (ex - ey) := by
  rw [F32.sub_val]
  apply Near_round hs _ hnm hmag
  have hx' := hx.le
  have hy' := hy.le
  have : |x.val - y.val - (ex - ey)| ≤ |x.val - ex| + |y.val - ey| := by
    have := abs_sub (x.val - ex) (y.val - ey)
    have e : x.val - ex - (y.val - ey) = x.val - y.val - (ex - ey) := by ring
    rwa [e] at this
  push_cast
  linarith

theorem Near_mul2 {s : ℚ} (hs : 2 ^ (-100 : ℤ) ≤ s) {n : ℕ} {x : F32} {e : ℚ}
    (hx : Near s n x.val e) (hmag : Mag s (e * 2)) (hn : 2 * n ≤ 100) :
    Near s (2 * n + 1) (x * 2).val (e * 2) := by
  have h2 : (2 : F32).val = 2 := by
    have := F32.ofNat_val_of_lt 2 (by norm_num)
    simpa using this
  rw [F32.mul_val, h2]
  apply Near_round hs _ hn hmag
  have hx' := hx.le
  have : |x.val * 2 - e * 2| = |x.val - e| * 2 := by
    rw [← sub_mul, abs_mul]
    norm_num
  push_cast
  linarith

theorem Near_div3 {s : ℚ} (hs : 2 ^ (-100 : ℤ) ≤ s) {n : ℕ} {x : F32} {e : ℚ}
    (hx : Near s n x.val e) (hmag : Mag s (e / 3)) (hn : n ≤ 100) :
    Near s (n + 1) (x / 3).val (e / 3) := by
  have h3 : (3 : F32).val = 3 := by
    have := F32.ofNat_val_of_lt 3 (by norm_num)
    simpa using this
  rw [F32.div_val, h3]
  apply Near_round hs _ hn hmag
  have hx' := hx.le
  have : |x.val / 3 - e / 3| = |x.val - e| / 3 := by
    rw [← sub_div, abs_div]
    norm_num
  have h0 := abs_nonneg (x.val - e)
  linarith

theorem Near_mulc {sc : F32} (hs : 2 ^ (-100 : ℤ) ≤ sc.val) (n : ℕ) (hn : n ≤ 1000) :
    Near sc.val 1 ((OfNat.ofNat n : F32) * sc).val (n * sc.val) := by
  have hs0 : 0 < sc.val := lt_of_lt_of_le (by positivity) hs
  have hn' : (n : ℚ) ≤ 1000 := by exact_mod_cast hn
  have hn0 : (0 : ℚ) ≤ n := Nat.cast_nonneg n
  rw [F32.mul_val, F32.ofNat_val_of_lt n (lt_of_le_of_lt hn (by norm_num))]
  have h := Near_round hs (show |(n : ℚ) * sc.val - n * sc.val| ≤ (0 : ℕ) * (sc.val / 7) by simp)
    (by norm_num)
    (show Mag sc.val (n * sc.val) from ⟨by
      rw [abs_of_nonneg (by positivity)]
      nlinarith⟩)
  simpa using h

theorem forall₂_mem_left {α β : Type} (R : α → β → Prop) :
    ∀ (l₁ : List α) (l₂ : List β), List.Forall₂ R l₁ l₂ → ∀ a ∈ l₁, ∃ b ∈ l₂, R a b := by
  intro l₁ l₂ h
  induction h with
  | nil =>
    intro a ha
    simp at ha
  | cons hab _ ih =>
    intro a ha
    rcases List.mem_cons.mp ha with rfl | ha'
    · exact ⟨_, List.mem_cons_self _ _, hab⟩
    · obtain ⟨b, hb, hr⟩ := ih a ha'
      exact ⟨b, List.mem_cons_of_mem _ hb, hr⟩

set_option maxHeartbeats 8000000 in
/-- Every computed rectangle is within two scale units of the rectangle of the exact
layout. -/
theorem hitRects_near (c : F32 × F32) (sc : F32) (hs : 2 ^ (-100 : ℤ) ≤ sc.val)
    (hx : |c.1.val| ≤ 2 ^ 20 * sc.val) (hy : |c.2.val| ≤ 2 ^ 20 * sc.val) :
    List.Forall₂ (NearUnit (c.1.val, c.2.val) sc.val) (hitRects c sc) unitRects := by
  have hs0 : 0 < sc.val := lt_of_lt_of_le (by positivity) hs
  obtain ⟨hx1, hx2⟩ := abs_le.mp hx
  obtain ⟨hy1, hy2⟩ := abs_le.mp hy
  unfold hitRects unitRects
  simp only [List.forall₂_cons, List.Forall₂.nil, and_true, NearUnit, HitRect.max, true_and]
  refine ⟨⟨?_, ?_, ?_, ?_⟩, ⟨?_, ?_, ?_, ?_⟩, ⟨?_, ?_, ?_, ?_⟩, ⟨?_, ?_, ?_, ?_⟩,
    ⟨?_, ?_, ?_, ?_⟩, ⟨?_, ?_, ?_, ?_⟩, ⟨?_, ?_, ?_, ?_⟩, ⟨?_, ?_, ?_, ?_⟩,
    ⟨?_, ?_, ?_, ?_⟩, ⟨?_, ?_, ?_, ?_⟩, ⟨?_, ?_, ?_, ?_⟩, ⟨?_, ?_, ?_, ?_⟩,
    ⟨?_, ?_, ?_, ?_⟩, ⟨?_, ?_, ?_, ?_⟩, ⟨?_, ?_, ?_, ?_⟩, ⟨?_, ?_, ?_, ?_⟩⟩
  all_goals
    apply Near.conv
    case hs => exact hs0.le
    case h =>
      repeat' first
        | apply Near_mulc hs
        | apply Near_add hs
        | apply Near_sub hs
        | apply Near_mul2 hs
        | apply Near_div3 hs
        | exact Near.self _ _
      all_goals first
        | omega
        | decide
        | (refine ⟨?_⟩
           rw [abs_le]
           constructor <;> push_cast <;> linarith)
    case hn => norm_num
    case he =>
      push_cast
      ring

set_option maxRecDepth 100000 in
theorem unitRects_separated :
    ∀ u ∈ unitRects, ∀ v ∈ unitRects, u.1 ≠ v.1 → faceNeighbours u.1 v.1 = false →
      edgeNeighbours u.1 v.1 = false → unitSeparated u v = true := by
  decide

set_option maxRecDepth 100000 in
theorem unitRects_overlap :
    ∀ u ∈ unitRects, ∀ v ∈ unitRects, faceNeighbours u.1 v.1 = true →
      unitOverlap u v = true := by
  decide

set_option maxRecDepth 100000 in
theorem unitRects_bounds :
    ∀ u ∈ unitRects, 0 ≤ u.2.1.1 ∧ u.2.1.1 + u.2.2.1 ≤ 600 ∧ 0 ≤ u.2.1.2 ∧
      u.2.1.2 + u.2.2.2 ≤ 600 ∧ 0 ≤ u.2.2.1 ∧ 0 ≤ u.2.2.2 := by
  decide

/-- Two edges whose exact positions are at least four scale units apart keep their
order after rounding. -/
theorem near_le {s : ℚ} (hs : 0 < s) {x y c : ℚ} {p q : Int} (hx : Near s 14 x (c + p * s))
    (hy : Near s 14 y (c + q * s)) (hpq : p + 4 ≤ q) : x ≤ y := by
  have h1 := (abs_le.mp hx.le).2
  have h2 := (abs_le.mp hy.le).1
  have h3 : (p : ℚ) + 4 ≤ q := by exact_mod_cast hpq
  have h4 : ((p : ℚ) + 4) * s ≤ q * s := mul_le_mul_of_nonneg_right h3 hs.le
  push_cast at h1 h2
  linarith

/-- Two edges whose exact positions are at least five scale units apart keep their
strict order after rounding. -/
theorem near_lt {s : ℚ} (hs : 0 < s) {x y c : ℚ} {p q : Int} (hx : Near s 14 x (c + p * s))
    (hy : Near s 14 y (c + q * s)) (hpq : p + 5 ≤ q) : x < y := by
  have h1 := (abs_le.mp hx.le).2
  have h2 := (abs_le.mp hy.le).1
  have h3 : (p : ℚ) + 5 ≤ q := by exact_mod_cast hpq
  have h4 : ((p : ℚ) + 5) * s ≤ q * s := mul_le_mul_of_nonneg_right h3 hs.le
  push_cast at h1 h2
  linarith

/-- An edge of the layout stays below `2^122` in magnitude. -/
theorem near_bounded {s : ℚ} (hs : 0 < s) (hmax : s ≤ 2 ^ (100 : ℤ)) {x c : ℚ} {p : Int}
    (hc : |c| ≤ 2 ^ 20 * s) (hx : Near s 14 x (c + p * s)) (hp0 : 0 ≤ p) (hp : p ≤ 600) :
    |x| < 2 ^ (122 : ℤ) := by
  obtain ⟨h1, h2⟩ := abs_le.mp hx.le
  obtain ⟨h3, h4⟩ := abs_le.mp hc
  have h5 : (0 : ℚ) ≤ p := by exact_mod_cast hp0
  have h6 : (p : ℚ) ≤ 600 := by exact_mod_cast hp
  have h7 : (p : ℚ) * s ≤ 600 * s := mul_le_mul_of_nonneg_right h6 hs.le
  have h8 : 0 ≤ (p : ℚ) * s := mul_nonneg h5 hs.le
  have h9 : (2 : ℚ) ^ (100 : ℤ) * 2 ^ 22 = 2 ^ (122 : ℤ) := by norm_num
  have h10 : s * 2 ^ 22 ≤ 2 ^ (100 : ℤ) * 2 ^ 22 := mul_le_mul_of_nonneg_right hmax (by positivity)
  rw [abs_lt]
  push_cast at h1 h2
  norm_num at h3 h4 h10 h9 ⊢
  constructor <;> linarith

theorem exists_in_both (a₁ b₁ a₂ b₂ : ℚ) (h₁ : a₁ < b₁) (h₂ : a₂ < b₂) (h₁₂ : a₁ < b₂)
    (h₂₁ : a₂ < b₁) : ∃ x, a₁ < x ∧ x < b₁ ∧ a₂ < x ∧ x < b₂ := by
  refine ⟨(max a₁ a₂ + min b₁ b₂) / 2, ?_, ?_, ?_, ?_⟩
  all_goals
    rcases le_total a₁ a₂ with ha | ha <;> rcases le_total b₁ b₂ with hb | hb <;>
      simp only [max_eq_left, max_eq_right, min_eq_left, min_eq_right, ha, hb] <;> linarith

/-- C15, amended. In binary32 arithmetic, for every scale factor between `2^-100` and
`2^100` and every canvas origin whose coordinates are at most `2^20` times the
scale factor in magnitude, there are 16 hit rectangles with 16 different ids and
no screen point lies in the interior of the hit rectangles of two different
controls, except for two kinds of pairs. Two face buttons that are neighbours on
the diamond (A or Y with B or X) have hit squares with an interior point in
common. For two controls whose rectangles share an edge or a corner in exact
arithmetic (an arm of the D-pad and an arm next to it; the B button and the base
of the right stick) nothing is stated: rounding decides. Every coordinate of
every rectangle stays below `2^122` in magnitude. -/
theorem hit_rects_disjoint_except_neighbours (c : F32 × F32) (sc : F32)
    (hmin : 2 ^ (-100 : ℤ) ≤ sc.val) (hmax : sc.val ≤ 2 ^ (100 : ℤ))
    (hx : |c.1.val| ≤ 2 ^ 20 * sc.val) (hy : |c.2.val| ≤ 2 ^ 20 * sc.val) :
    (hitRects c sc).length = 16 ∧
    ((hitRects c sc).map Prod.fst).Nodup ∧
    (∀ a ∈ hitRects c sc, ∀ b ∈ hitRects c sc, a.1 ≠ b.1 →
      faceNeighbours a.1 b.1 = false → edgeNeighbours a.1 b.1 = false →
      ∀ pt : ℚ × ℚ, ¬ (a.2.interior pt ∧ b.2.interior pt)) ∧
    (∀ a ∈ hitRects c sc, ∀ b ∈ hitRects c sc, faceNeighbours a.1 b.1 = true →
      ∃ pt : ℚ × ℚ, a.2.interior pt ∧ b.2.interior pt) ∧
    (∀ a ∈ hitRects c sc,
      |a.2.pos.1.val| < 2 ^ (122 : ℤ) ∧ |a.2.max.1.val| < 2 ^ (122 : ℤ) ∧
      |a.2.pos.2.val| < 2 ^ (122 : ℤ) ∧ |a.2.max.2.val| < 2 ^ (122 : ℤ)) := by
  have hs0 : 0 < sc.val := lt_of_lt_of_le (by positivity) hmin
  have hnear := hitRects_near c sc hmin hx hy
  refine ⟨rfl, ?_, ?_, ?_, ?_⟩
  · show ["dpad-up", "dpad-down", "dpad-left", "dpad-right", "button-a", "button-b",
      "button-x", "button-y", "l-stick_interaction", "r-stick_interaction", "left-button",
      "right-button", "minus-button", "plus-button", "home-button", "capture-button"].Nodup
    decide
  · intro a ha b hb hne hface hedge pt hpt
    obtain ⟨u, hu, hau, ux, uX, uy, uY⟩ := forall₂_mem_left _ _ _ hnear a ha
    obtain ⟨v, hv, hbv, vx, vX, vy, vY⟩ := forall₂_mem_left _ _ _ hnear b hb
    have hsep := unitRects_separated u hu v hv (by rw [← hau, ← hbv]; exact hne)
      (by rw [← hau, ← hbv]; exact hface) (by rw [← hau, ← hbv]; exact hedge)
    obtain ⟨⟨a1, a2, a3, a4⟩, b1, b2, b3, b4⟩ := hpt
    simp only [unitSeparated, Bool.or_eq_true, decide_eq_true_eq] at hsep
    rcases hsep with ((h | h) | h) | h
    · have := near_le hs0 uX vx h
      linarith
    · have := near_le hs0 vX ux h
      linarith
    · have := near_le hs0 uY vy h
      linarith
    · have := near_le hs0 vY uy h
      linarith
  · intro a ha b hb hface
    obtain ⟨u, hu, hau, ux, uX, uy, uY⟩ := forall₂_mem_left _ _ _ hnear a ha
    obtain ⟨v, hv, hbv, vx, vX, vy, vY⟩ := forall₂_mem_left _ _ _ hnear b hb
    have hov := unitRects_overlap u hu v hv (by rw [← hau, ← hbv]; exact hface)
    simp only [unitOverlap, Bool.and_eq_true, decide_eq_true_eq] at hov
    obtain ⟨⟨⟨⟨⟨⟨⟨o1, o2⟩, o3⟩, o4⟩, w1⟩, w2⟩, w3⟩, w4⟩ := hov
    obtain ⟨x, x1, x2, x3, x4⟩ := exists_in_both _ _ _ _
      (near_lt hs0 ux uX (by omega)) (near_lt hs0 vx vX (by omega))
      (near_lt hs0 ux vX o1) (near_lt hs0 vx uX o2)
    obtain ⟨y, y1, y2, y3, y4⟩ := exists_in_both _ _ _ _
      (near_lt hs0 uy uY (by omega)) (near_lt hs0 vy vY (by omega))
      (near_lt hs0 uy vY o3) (near_lt hs0 vy uY o4)
    exact ⟨(x, y), ⟨x1, x2, y1, y2⟩, ⟨x3, x4, y3, y4⟩⟩
  · intro a ha
    obtain ⟨u, hu, _, ux, uX, uy, uY⟩ := forall₂_mem_left _ _ _ hnear a ha
    obtain ⟨b1, b2, b3, b4, b5, b6⟩ := unitRects_bounds u hu
    exact ⟨near_bounded hs0 hmax hx ux b1 (by omega), near_bounded hs0 hmax hx uX (by omega) b2,
      near_bounded hs0 hmax hy uy b3 (by omega), near_bounded hs0 hmax hy uY (by omega) b4⟩

namespace F32

theorem round_ofNat (n : ℕ) [n.AtLeastTwo] (h : n < 2 ^ 24) :
    round (no_index (OfNat.ofNat n) : ℚ) = OfNat.ofNat n := by
  have := round_natCast n h
  simpa using this

theorem lit_val (n : ℕ) [n.AtLeastTwo] (h : n < 2 ^ 24) :
    (no_index (OfNat.ofNat n) : F32).val = OfNat.ofNat n := by
  have := ofNat_val_of_lt n h
  simpa using this

/-- Evaluation of the rounding of a positive number that is not half-way between two
binary32 numbers: `e` is its binary exponent and `m` the rounded significand. -/
theorem round_eval (q r : ℚ) (e m : Int) (hmin : -126 ≤ e) (h1 : (2 : ℚ) ^ e ≤ q)
    (h2 : q < (2 : ℚ) ^ (e + 1)) (hm1 : (m : ℚ) - 1 / 2 < q / 2 ^ (e - 23))
    (hm2 : q / 2 ^ (e - 23) < m + 1 / 2) (hr : (m : ℚ) * 2 ^ (e - 23) = r) : round q = r := by
  have hpos : 0 < q := lt_of_lt_of_le (zpow_pos (by norm_num) e) h1
  rw [← hr]
  apply round_eq q e m hmin
  · rwa [abs_of_pos hpos]
  · rwa [abs_of_pos hpos]
  · rw [abs_lt]
    constructor <;> linarith

end F32

theorem origin_fst_val : origin.1.val = 0 := rfl

theorem origin_snd_val : origin.2.val = 0 := rfl

theorem farOrigin_fst_val : farOrigin.1.val = 1000000000 := rfl

theorem farOrigin_snd_val : farOrigin.2.val = 1000000000 := rfl

theorem unitScale_val : unitScale.val = 1 := rfl

theorem sampleScale_val : sampleScale.val = 3096957 / 2097152 := rfl

theorem farScale_val : farScale.val = 7 / 4 := rfl

/-- The hit squares of the B button and of the base of the right stick at the scale
`0x1.7a0be8p+0`, canvas at the origin: every binary32 operation of the layout is
evaluated, and (635, 222) is interior to both squares. -/
theorem hit_rects_overlap_sampleScale :
    ∃ a b, (hitRects origin sampleScale)[5]? = some a ∧
      (hitRects origin sampleScale)[9]? = some b ∧
      a.1 = "button-b" ∧ b.1 = "r-stick_interaction" ∧
      a.2.interior (635, 222) ∧ b.2.interior (635, 222) := by
  have h1 : (450 * sampleScale).val = 10887739 / 16384 := by
    rw [F32.mul_val, F32.lit_val 450 (by norm_num), sampleScale_val]
    exact F32.round_eval _ _ (9) 10887739 (by norm_num) (by norm_num) (by norm_num)
      (by norm_num) (by norm_num) (by norm_num)
  have h2 : (origin.1 + 450 * sampleScale).val = 10887739 / 16384 := by
    rw [F32.add_val, origin_fst_val, h1]
    exact F32.round_eval _ _ (9) 10887739 (by norm_num) (by norm_num) (by norm_num)
      (by norm_num) (by norm_num) (by norm_num)
  have h3 : (20 * sampleScale).val = 15484785 / 524288 := by
    rw [F32.mul_val, F32.lit_val 20 (by norm_num), sampleScale_val]
    exact F32.round_eval _ _ (4) 15484785 (by norm_num) (by norm_num) (by norm_num)
      (by norm_num) (by norm_num) (by norm_num)
  have h4 : (origin.1 + 450 * sampleScale - 20 * sampleScale).val = 10403839 / 16384 := by
    rw [F32.sub_val, h2, h3]
    exact F32.round_eval _ _ (9) 10403839 (by norm_num) (by norm_num) (by norm_num)
      (by norm_num) (by norm_num) (by norm_num)
  have h5 : (20 * sampleScale * 2).val = 15484785 / 262144 := by
    rw [F32.mul_val, h3, F32.lit_val 2 (by norm_num)]
    exact F32.round_eval _ _ (5) 15484785 (by norm_num) (by norm_num) (by norm_num)
      (by norm_num) (by norm_num) (by norm_num)
  have h6 : (origin.1 + 450 * sampleScale - 20 * sampleScale + 20 * sampleScale * 2).val
      = 5685819 / 8192 := by
    rw [F32.add_val, h4, h5]
    exact F32.round_eval _ _ (9) 11371638 (by norm_num) (by norm_num) (by norm_num)
      (by norm_num) (by norm_num) (by norm_num)
  have h7 : (120 * sampleScale).val = 11613589 / 65536 := by
    rw [F32.mul_val, F32.lit_val 120 (by norm_num), sampleScale_val]
    exact F32.round_eval _ _ (7) 11613589 (by norm_num) (by norm_num) (by norm_num)
      (by norm_num) (by norm_num) (by norm_num)
  have h8 : (origin.2 + 120 * sampleScale).val = 11613589 / 65536 := by
    rw [F32.add_val, origin_snd_val, h7]
    exact F32.round_eval _ _ (7) 11613589 (by norm_num) (by norm_num) (by norm_num)
      (by norm_num) (by norm_num) (by norm_num)
  have h9 : (35 * sampleScale).val = 13549187 / 262144 := by
    rw [F32.mul_val, F32.lit_val 35 (by norm_num), sampleScale_val]
    exact F32.round_eval _ _ (5) 13549187 (by norm_num) (by norm_num) (by norm_num)
      (by norm_num) (by norm_num) (by norm_num)
  have h10 : (origin.2 + 120 * sampleScale + 35 * sampleScale).val = 7500443 / 32768 := by
    rw [F32.add_val, h8, h9]
    exact F32.round_eval _ _ (7) 15000886 (by norm_num) (by norm_num) (by norm_num)
      (by norm_num) (by norm_num) (by norm_num)
  have h11 : (origin.2 + 120 * sampleScale + 35 * sampleScale - 20 * sampleScale).val
      = 1633161 / 8192 := by
    rw [F32.sub_val, h10, h3]
    exact F32.round_eval _ _ (7) 13065288 (by norm_num) (by norm_num) (by norm_num)
      (by norm_num) (by norm_num) (by norm_num)
  have h12 : (origin.2 + 120 * sampleScale + 35 * sampleScale - 20 * sampleScale + 20 *
      sampleScale * 2).val
      = 4234121 / 16384 := by
    rw [F32.add_val, h11, h5]
    exact F32.round_eval _ _ (8) 8468242 (by norm_num) (by norm_num) (by norm_num)
      (by norm_num) (by norm_num) (by norm_num)
  have h13 : (400 * sampleScale).val = 9677991 / 16384 := by
    rw [F32.mul_val, F32.lit_val 400 (by norm_num), sampleScale_val]
    exact F32.round_eval _ _ (9) 9677991 (by norm_num) (by norm_num) (by norm_num)
      (by norm_num) (by norm_num) (by norm_num)
  have h14 : (origin.1 + 400 * sampleScale).val = 9677991 / 16384 := by
    rw [F32.add_val, origin_fst_val, h13]
    exact F32.round_eval _ _ (9) 9677991 (by norm_num) (by norm_num) (by norm_num)
      (by norm_num) (by norm_num) (by norm_num)
  have h15 : (30 * sampleScale).val = 11613589 / 262144 := by
    rw [F32.mul_val, F32.lit_val 30 (by norm_num), sampleScale_val]
    exact F32.round_eval _ _ (5) 11613589 (by norm_num) (by norm_num) (by norm_num)
      (by norm_num) (by norm_num) (by norm_num)
  have h16 : (origin.1 + 400 * sampleScale - 30 * sampleScale).val = 4476071 / 8192 := by
    rw [F32.sub_val, h14, h15]
    exact F32.round_eval _ _ (9) 8952142 (by norm_num) (by norm_num) (by norm_num)
      (by norm_num) (by norm_num) (by norm_num)
  have h17 : (30 * sampleScale * 2).val = 11613589 / 131072 := by
    rw [F32.mul_val, h15, F32.lit_val 2 (by norm_num)]
    exact F32.round_eval _ _ (6) 11613589 (by norm_num) (by norm_num) (by norm_num)
      (by norm_num) (by norm_num) (by norm_num)
  have h18 : (origin.1 + 400 * sampleScale - 30 * sampleScale + 30 * sampleScale * 2).val
      = 10403841 / 16384 := by
    rw [F32.add_val, h16, h17]
    exact F32.round_eval _ _ (9) 10403841 (by norm_num) (by norm_num) (by norm_num)
      (by norm_num) (by norm_num) (by norm_num)
  have h19 : (180 * sampleScale).val = 544387 / 2048 := by
    rw [F32.mul_val, F32.lit_val 180 (by norm_num), sampleScale_val]
    exact F32.round_eval _ _ (8) 8710192 (by norm_num) (by norm_num) (by norm_num)
      (by norm_num) (by norm_num) (by norm_num)
  have h20 : (origin.2 + 180 * sampleScale).val = 544387 / 2048 := by
    rw [F32.add_val, origin_snd_val, h19]
    exact F32.round_eval _ _ (8) 8710192 (by norm_num) (by norm_num) (by norm_num)
      (by norm_num) (by norm_num) (by norm_num)
  have h21 : (origin.2 + 180 * sampleScale - 30 * sampleScale).val = 14516987 / 65536 := by
    rw [F32.sub_val, h20, h15]
    exact F32.round_eval _ _ (7) 14516987 (by norm_num) (by norm_num) (by norm_num)
      (by norm_num) (by norm_num) (by norm_num)
  have h22 : (origin.2 + 180 * sampleScale - 30 * sampleScale + 30 * sampleScale * 2).val
      = 10161891 / 32768 := by
    rw [F32.add_val, h21, h17]
    exact F32.round_eval _ _ (8) 10161891 (by norm_num) (by norm_num) (by norm_num)
      (by norm_num) (by norm_num) (by norm_num)
  refine ⟨_, _, rfl, rfl, rfl, rfl, ?_, ?_⟩
  · show _ < (635 : ℚ) ∧ (635 : ℚ) < _ ∧ _ < (222 : ℚ) ∧ (222 : ℚ) < _
    refine ⟨?_, ?_, ?_, ?_⟩
    · exact lt_of_eq_of_lt h4 (by norm_num)
    · exact lt_of_lt_of_eq (by norm_num) h6.symm
    · exact lt_of_eq_of_lt h11 (by norm_num)
    · exact lt_of_lt_of_eq (by norm_num) h12.symm
  · show _ < (635 : ℚ) ∧ (635 : ℚ) < _ ∧ _ < (222 : ℚ) ∧ (222 : ℚ) < _
    refine ⟨?_, ?_, ?_, ?_⟩
    · exact lt_of_eq_of_lt h16 (by norm_num)
    · exact lt_of_lt_of_eq (by norm_num) h18.symm
    · exact lt_of_eq_of_lt h21 (by norm_num)
    · exact lt_of_lt_of_eq (by norm_num) h22.symm

/-- The hit squares of the Y button and of the plus button at scale 1.75 with the
canvas at `(10^9, 10^9)`: every binary32 operation of the layout is evaluated, and
(1000000672, 1000000160) is interior to both squares. -/
theorem hit_rects_overlap_farOrigin :
    ∃ a b, (hitRects farOrigin farScale)[7]? = some a ∧
      (hitRects farOrigin farScale)[13]? = some b ∧
      a.1 = "button-y" ∧ b.1 = "plus-button" ∧
      a.2.interior (1000000672, 1000000160) ∧ b.2.interior (1000000672, 1000000160) := by
  have k1 : (450 * farScale).val = 1575 / 2 := by
    rw [F32.mul_val, F32.lit_val 450 (by norm_num), farScale_val]
    exact F32.round_eval _ _ (9) 12902400 (by norm_num) (by norm_num) (by norm_num)
      (by norm_num) (by norm_num) (by norm_num)
  have k2 : (farOrigin.1 + 450 * farScale).val = 1000000768 := by
    rw [F32.add_val, farOrigin_fst_val, k1]
    exact F32.round_eval _ _ (29) 15625012 (by norm_num) (by norm_num) (by norm_num)
      (by norm_num) (by norm_num) (by norm_num)
  have k3 : (35 * farScale).val = 245 / 4 := by
    rw [F32.mul_val, F32.lit_val 35 (by norm_num), farScale_val]
    exact F32.round_eval _ _ (5) 16056320 (by norm_num) (by norm_num) (by norm_num)
      (by norm_num) (by norm_num) (by norm_num)
  have k4 : (farOrigin.1 + 450 * farScale - 35 * farScale).val = 1000000704 := by
    rw [F32.sub_val, k2, k3]
    exact F32.round_eval _ _ (29) 15625011 (by norm_num) (by norm_num) (by norm_num)
      (by norm_num) (by norm_num) (by norm_num)
  have k5 : (20 * farScale).val = 35 := by
    rw [F32.mul_val, F32.lit_val 20 (by norm_num), farScale_val]
    exact F32.round_eval _ _ (5) 9175040 (by norm_num) (by norm_num) (by norm_num)
      (by norm_num) (by norm_num) (by norm_num)
  have k6 : (farOrigin.1 + 450 * farScale - 35 * farScale - 20 * farScale).val = 1000000640 := by
    rw [F32.sub_val, k4, k5]
    exact F32.round_eval _ _ (29) 15625010 (by norm_num) (by norm_num) (by norm_num)
      (by norm_num) (by norm_num) (by norm_num)
  have k7 : (20 * farScale * 2).val = 70 := by
    rw [F32.mul_val, k5, F32.lit_val 2 (by norm_num)]
    exact F32.round_eval _ _ (6) 9175040 (by norm_num) (by norm_num) (by norm_num)
      (by norm_num) (by norm_num) (by norm_num)
  have k8 : (farOrigin.1 + 450 * farScale - 35 * farScale - 20 * farScale + 20 * farScale * 2).val
      = 1000000704 := by
    rw [F32.add_val, k6, k7]
    exact F32.round_eval _ _ (29) 15625011 (by norm_num) (by norm_num) (by norm_num)
      (by norm_num) (by norm_num) (by norm_num)
  have k9 : (120 * farScale).val = 210 := by
    rw [F32.mul_val, F32.lit_val 120 (by norm_num), farScale_val]
    exact F32.round_eval _ _ (7) 13762560 (by norm_num) (by norm_num) (by norm_num)
      (by norm_num) (by norm_num) (by norm_num)
  have k10 : (farOrigin.2 + 120 * farScale).val = 1000000192 := by
    rw [F32.add_val, farOrigin_snd_val, k9]
    exact F32.round_eval _ _ (29) 15625003 (by norm_num) (by norm_num) (by norm_num)
      (by norm_num) (by norm_num) (by norm_num)
  have k11 : (farOrigin.2 + 120 * farScale - 20 * farScale).val = 1000000128 := by
    rw [F32.sub_val, k10, k5]
    exact F32.round_eval _ _ (29) 15625002 (by norm_num) (by norm_num) (by norm_num)
      (by norm_num) (by norm_num) (by norm_num)
  have k12 : (farOrigin.2 + 120 * farScale - 20 * farScale + 20 * farScale * 2).val
      = 1000000192 := by
    rw [F32.add_val, k11, k7]
    exact F32.round_eval _ _ (29) 15625003 (by norm_num) (by norm_num) (by norm_num)
      (by norm_num) (by norm_num) (by norm_num)
  have k13 : (350 * farScale).val = 1225 / 2 := by
    rw [F32.mul_val, F32.lit_val 350 (by norm_num), farScale_val]
    exact F32.round_eval _ _ (9) 10035200 (by norm_num) (by norm_num) (by norm_num)
      (by norm_num) (by norm_num) (by norm_num)
  have k14 : (farOrigin.1 + 350 * farScale).val = 1000000640 := by
    rw [F32.add_val, farOrigin_fst_val, k13]
    exact F32.round_eval _ _ (29) 15625010 (by norm_num) (by norm_num) (by norm_num)
      (by norm_num) (by norm_num) (by norm_num)
  have k15 : (15 * farScale).val = 105 / 4 := by
    rw [F32.mul_val, F32.lit_val 15 (by norm_num), farScale_val]
    exact F32.round_eval _ _ (4) 13762560 (by norm_num) (by norm_num) (by norm_num)
      (by norm_num) (by norm_num) (by norm_num)
  have k16 : (farOrigin.1 + 350 * farScale - 15 * farScale).val = 1000000640 := by
    rw [F32.sub_val, k14, k15]
    exact F32.round_eval _ _ (29) 15625010 (by norm_num) (by norm_num) (by norm_num)
      (by norm_num) (by norm_num) (by norm_num)
  have k17 : (15 * farScale * 2).val = 105 / 2 := by
    rw [F32.mul_val, k15, F32.lit_val 2 (by norm_num)]
    exact F32.round_eval _ _ (5) 13762560 (by norm_num) (by norm_num) (by norm_num)
      (by norm_num) (by norm_num) (by norm_num)
  have k18 : (farOrigin.1 + 350 * farScale - 15 * farScale + 15 * farScale * 2).val
      = 1000000704 := by
    rw [F32.add_val, k16, k17]
    exact F32.round_eval _ _ (29) 15625011 (by norm_num) (by norm_num) (by norm_num)
      (by norm_num) (by norm_num) (by norm_num)
  have k19 : (80 * farScale).val = 140 := by
    rw [F32.mul_val, F32.lit_val 80 (by norm_num), farScale_val]
    exact F32.round_eval _ _ (7) 9175040 (by norm_num) (by norm_num) (by norm_num)
      (by norm_num) (by norm_num) (by norm_num)
  have k20 : (farOrigin.2 + 80 * farScale).val = 1000000128 := by
    rw [F32.add_val, farOrigin_snd_val, k19]
    exact F32.round_eval _ _ (29) 15625002 (by norm_num) (by norm_num) (by norm_num)
      (by norm_num) (by norm_num) (by norm_num)
  have k21 : (farOrigin.2 + 80 * farScale - 15 * farScale).val = 1000000128 := by
    rw [F32.sub_val, k20, k15]
    exact F32.round_eval _ _ (29) 15625002 (by norm_num) (by norm_num) (by norm_num)
      (by norm_num) (by norm_num) (by norm_num)
  have k22 : (farOrigin.2 + 80 * farScale - 15 * farScale + 15 * farScale * 2).val
      = 1000000192 := by
    rw [F32.add_val, k21, k17]
    exact F32.round_eval _ _ (29) 15625003 (by norm_num) (by norm_num) (by norm_num)
      (by norm_num) (by norm_num) (by norm_num)
  refine ⟨_, _, rfl, rfl, rfl, rfl, ?_, ?_⟩
  · show _ < (1000000672 : ℚ) ∧ (1000000672 : ℚ) < _ ∧ _ < (1000000160 : ℚ) ∧ (1000000160 : ℚ) < _
    refine ⟨?_, ?_, ?_, ?_⟩
    · exact lt_of_eq_of_lt k6 (by norm_num)
    · exact lt_of_lt_of_eq (by norm_num) k8.symm
    · exact lt_of_eq_of_lt k11 (by norm_num)
    · exact lt_of_lt_of_eq (by norm_num) k12.symm
  · show _ < (1000000672 : ℚ) ∧ (1000000672 : ℚ) < _ ∧ _ < (1000000160 : ℚ) ∧ (1000000160 : ℚ) < _
    refine ⟨?_, ?_, ?_, ?_⟩
    · exact lt_of_eq_of_lt k16 (by norm_num)
    · exact lt_of_lt_of_eq (by norm_num) k18.symm
    · exact lt_of_eq_of_lt k21 (by norm_num)
    · exact lt_of_lt_of_eq (by norm_num) k22.symm

/-- The scale factors and the canvas coordinates of the examples are binary32
numbers: rounding leaves them as they are. -/
theorem samples_are_binary32 :
    F32.round unitScale.val = unitScale.val ∧ F32.round sampleScale.val = sampleScale.val ∧
    F32.round farScale.val = farScale.val ∧ F32.round origin.1.val = origin.1.val ∧
    F32.round origin.2.val = origin.2.val ∧ F32.round farOrigin.1.val = farOrigin.1.val ∧
    F32.round farOrigin.2.val = farOrigin.2.val := by
  refine ⟨?_, ?_, ?_, F32.round_zero, F32.round_zero, ?_, ?_⟩
  · rw [unitScale_val]
    exact F32.round_eval _ _ 0 8388608 (by norm_num) (by norm_num) (by norm_num)
      (by norm_num) (by norm_num) (by norm_num)
  · rw [sampleScale_val]
    exact F32.round_eval _ _ 0 12387828 (by norm_num) (by norm_num) (by norm_num)
      (by norm_num) (by norm_num) (by norm_num)
  · rw [farScale_val]
    exact F32.round_eval _ _ 0 14680064 (by norm_num) (by norm_num) (by norm_num)
      (by norm_num) (by norm_num) (by norm_num)
  · rw [farOrigin_fst_val]
    exact F32.round_eval _ _ 29 15625000 (by norm_num) (by norm_num) (by norm_num)
      (by norm_num) (by norm_num) (by norm_num)
  · rw [farOrigin_snd_val]
    exact F32.round_eval _ _ 29 15625000 (by norm_num) (by norm_num) (by norm_num)
      (by norm_num) (by norm_num) (by norm_num)

/-- C15, counterexample. The claim as stated fails in three ways. With the canvas
at the origin of the screen and scale 1, the point (467.5, 137.5) lies inside the
hit squares of both the A and the B button: the squares of the face buttons
overlap by design, at every scale. With the canvas at the origin and the scale
`0x1.7a0be8p+0` (about 1.4767, inside the range of the scale slider), the point
(635, 222) lies inside the hit squares of both the B button and the base of the
right stick: in exact arithmetic the two squares share an edge, and the binary32
roundings put the left edge of the first at 634.99994 and the right edge of the
second at 635.00006. With the canvas at `(10^9, 10^9)`, where binary32 numbers are
64 apart, and scale 1.75, the hit squares of the Y button and of the plus button
are the same square, although in exact arithmetic the second ends 52.5 pixels to
the left of the first. All the scale factors and canvas coordinates involved are
binary32 numbers. -/
theorem hit_rects_disjoint_counterexample :
    ¬ HitRectsDisjoint origin unitScale ∧
    (∃ a b, (hitRects origin sampleScale)[5]? = some a ∧
      (hitRects origin sampleScale)[9]? = some b ∧
      a.1 = "button-b" ∧ b.1 = "r-stick_interaction" ∧
      a.2.interior (635, 222) ∧ b.2.interior (635, 222)) ∧
    (∃ a b, (hitRects farOrigin farScale)[7]? = some a ∧
      (hitRects farOrigin farScale)[13]? = some b ∧
      a.1 = "button-y" ∧ b.1 = "plus-button" ∧
      a.2.interior (1000000672, 1000000160) ∧ b.2.interior (1000000672, 1000000160)) ∧
    (F32.round unitScale.val = unitScale.val ∧ F32.round sampleScale.val = sampleScale.val ∧
      F32.round farScale.val = farScale.val ∧ F32.round origin.1.val = origin.1.val ∧
      F32.round origin.2.val = origin.2.val ∧ F32.round farOrigin.1.val = farOrigin.1.val ∧
      F32.round farOrigin.2.val = farOrigin.2.val) := by
  refine ⟨?_, ?_, ?_, samples_are_binary32⟩
  · intro h
    obtain ⟨a, ha⟩ : ∃ a, (hitRects origin unitScale)[4]? = some a := ⟨_, rfl⟩
    obtain ⟨b, hb⟩ : ∃ b, (hitRects origin unitScale)[5]? = some b := ⟨_, rfl⟩
    have hab := h a (List.mem_iff_getElem?.mpr ⟨4, ha⟩) b (List.mem_iff_getElem?.mpr ⟨5, hb⟩)
    simp only [hitRects, List.getElem?_cons_succ, List.getElem?_cons_zero, Option.some.injEq]
      at ha hb
    subst ha hb
    refine hab (by decide) (935 / 2, 275 / 2) ⟨?_, ?_⟩
    · norm_num [HitRect.interior, HitRect.max, F32.add_val, F32.sub_val, F32.mul_val,
        F32.lit_val, F32.round_ofNat, origin_fst_val, origin_snd_val, unitScale_val]
    · norm_num [HitRect.interior, HitRect.max, F32.add_val, F32.sub_val, F32.mul_val,
        F32.lit_val, F32.round_ofNat, origin_fst_val, origin_snd_val, unitScale_val]
  · exact hit_rects_overlap_sampleScale
  · exact hit_rects_overlap_farOrigin

/-- Witness for the amended C15: the canvas at the origin of the screen, scale 1. There
are 16 hit rectangles; the point (150, 100) lies inside the rectangle of the upper
D-pad arm and not inside that of the L button; the squares of the A and B buttons
have a common interior point. -/
theorem hit_rects_disjoint_except_neighbours_witness :
    (hitRects origin unitScale).length = 16 ∧
    (∃ a b, (hitRects origin unitScale)[0]? = some a ∧
      (hitRects origin unitScale)[10]? = some b ∧
      a.1 = "dpad-up" ∧ b.1 = "left-button" ∧ a.2.interior (150, 100) ∧
      ¬ (a.2.interior (150, 100) ∧ b.2.interior (150, 100))) ∧
    (∃ a b, (hitRects origin unitScale)[4]? = some a ∧
      (hitRects origin unitScale)[5]? = some b ∧
      a.1 = "button-a" ∧ b.1 = "button-b" ∧
      ∃ pt : ℚ × ℚ, a.2.interior pt ∧ b.2.interior pt) := by
  have h := hit_rects_disjoint_except_neighbours origin unitScale
    (by norm_num [unitScale_val]) (by norm_num [unitScale_val])
    (by norm_num [unitScale_val, origin_fst_val]) (by norm_num [unitScale_val, origin_snd_val])
  refine ⟨h.1, ?_, ?_⟩
  · obtain ⟨a, ha⟩ : ∃ a, (hitRects origin unitScale)[0]? = some a := ⟨_, rfl⟩
    obtain ⟨b, hb⟩ : ∃ b, (hitRects origin unitScale)[10]? = some b := ⟨_, rfl⟩
    have hab := h.2.2.1 a (List.mem_iff_getElem?.mpr ⟨0, ha⟩) b
      (List.mem_iff_getElem?.mpr ⟨10, hb⟩)
    refine ⟨a, b, ha, hb, ?_⟩
    simp only [hitRects, List.getElem?_cons_succ, List.getElem?_cons_zero, Option.some.injEq]
      at ha hb
    subst ha hb
    refine ⟨rfl, rfl, ?_, hab (by decide) (by decide) (by decide) (150, 100)⟩
    norm_num [HitRect.interior, HitRect.max, F32.add_val, F32.sub_val, F32.mul_val,
      F32.div_val, F32.lit_val, F32.round_ofNat, origin_fst_val, origin_snd_val, unitScale_val]
  · obtain ⟨a, ha⟩ : ∃ a, (hitRects origin unitScale)[4]? = some a := ⟨_, rfl⟩
    obtain ⟨b, hb⟩ : ∃ b, (hitRects origin unitScale)[5]? = some b := ⟨_, rfl⟩
    have hab := h.2.2.2.1 a (List.mem_iff_getElem?.mpr ⟨4, ha⟩) b
      (List.mem_iff_getElem?.mpr ⟨5, hb⟩)
    refine ⟨a, b, ha, hb, ?_⟩
    simp only [hitRects, List.getElem?_cons_succ, List.getElem?_cons_zero, Option.some.injEq]
      at ha hb
    subst ha hb
    exact ⟨rfl, rfl, hab (by decide)⟩
namespace GUIManager

theorem viewItems_SetupDefaultMenus (s : GUIManager) : s.SetupDefaultMenus.viewItems = [] := by
  have hv : s.SetupDefaultMenus.view_menu = some (s.m_tab_bars.length + 2) := by
    simp [SetupDefaultMenus, AddTabs]
  have hbars : s.SetupDefaultMenus.m_tab_bars = s.m_tab_bars ++
      [{ id := "File" }, { id := "Emulation" }, { id := "View" }, { id := "Help" }] := by
    simp [SetupDefaultMenus, AddTabs]
  simp only [viewItems, hv, hbars]
  rw [List.getElem?_append_right (by omega)]
  simp

theorem viewItems_of_other_bar (s s' : GUIManager) (f : TabBar → TabBar) (b : Nat)
    (hview : s'.view_menu = s.view_menu)
    (hbars : s'.m_tab_bars = modifyBar f s.m_tab_bars b) (hne : s.view_menu ≠ some b) :
    s'.viewItems = s.viewItems := by
  unfold viewItems
  rw [hview, hbars]
  cases hv : s.view_menu with
  | none => rfl
  | some v =>
    have hbv : ¬ b = v := fun e => hne (by rw [hv, e])
    simp only [getElem?_modifyBar, hbv, if_false]

theorem viewItems_AddPanelTab_other (s : GUIManager) (bar : Option Nat) (tab name sc : String)
    (hne : s.view_menu ≠ bar) : (s.AddPanelTab bar tab name sc).viewItems = s.viewItems := by
  cases bar with
  | none => rfl
  | some b =>
    unfold AddPanelTab
    cases s.GetPanel name with
    | none => rfl
    | some q => exact viewItems_of_other_bar s _ _ b rfl rfl hne

theorem viewItems_HandlePanelToggle (s : GUIManager) (name : String) :
    (s.HandlePanelToggle name).viewItems = s.viewItems := by
  unfold HandlePanelToggle
  cases s.GetPanel name with
  | none => rfl
  | some q => rfl

theorem viewItems_AddTabs_SetupDefaultMenus (s : GUIManager) (name : String) :
    (s.SetupDefaultMenus.AddTabs name).1.viewItems = [] := by
  have hv : s.SetupDefaultMenus.view_menu = some (s.m_tab_bars.length + 2) := by
    simp [SetupDefaultMenus, AddTabs]
  have hbars : (s.SetupDefaultMenus.AddTabs name).1.m_tab_bars = s.m_tab_bars ++
      [{ id := "File" }, { id := "Emulation" }, { id := "View" }, { id := "Help" },
        { id := name }] := by
    simp [SetupDefaultMenus, AddTabs]
  have hv' : (s.SetupDefaultMenus.AddTabs name).1.view_menu
      = some (s.m_tab_bars.length + 2) := hv
  simp only [viewItems, hv', hbars]
  rw [List.getElem?_append_right (by omega)]
  simp

/-- C21. On a shell whose menu system is not initialised, `AddPanel` only appends the
panel and seeds the table cell of its name: the menu tree and every other member
stay as they were. `SetupDefaultMenus` keeps the registered panels and the table
and leaves the View group it creates with zero items, however many panels are
registered; so with a panel registered before, the View group does not mirror
the panels right after initialisation. After the next `AddPanel` or `RemovePanel`
call the View group has one item per registered panel, item `i` being the item
of panel `i`; `AddTabs`, `HandlePanelToggle`, and `AddPanelTab` and `AddSubTab` on a
group other than View leave it empty. -/
theorem pre_registered_panels_not_mirrored (s : GUIManager) :
    (s.menus_initialized = false → ∀ p sc,
      s.AddPanel p sc = { s with
        panels := s.panels ++ [p]
        panel_visibility_states :=
          s.panel_visibility_states.assign (s.nameOf p) (s.IsVisible p) }) ∧
    (s.SetupDefaultMenus.viewItems = [] ∧
      s.SetupDefaultMenus.panels = s.panels ∧
      s.SetupDefaultMenus.panel_visibility_states = s.panel_visibility_states ∧
      (s.panels ≠ [] → s.SetupDefaultMenus.viewItems.length ≠ s.SetupDefaultMenus.panels.length)) ∧
    (∀ op : Op,
      (Op.apply s.SetupDefaultMenus op).ViewSynced ∧
      (Op.apply s.SetupDefaultMenus op).viewItems.length
        = (Op.apply s.SetupDefaultMenus op).panels.length) ∧
    ((∀ name, (s.SetupDefaultMenus.AddTabs name).1.viewItems = []) ∧
      (∀ name, (s.SetupDefaultMenus.HandlePanelToggle name).viewItems = []) ∧
      (∀ bar tab name sc, s.SetupDefaultMenus.view_menu ≠ bar →
        (s.SetupDefaultMenus.AddPanelTab bar tab name sc).viewItems = []) ∧
      (∀ bar name cb, s.SetupDefaultMenus.view_menu ≠ bar →
        (s.SetupDefaultMenus.AddSubTab bar name cb).viewItems = []) ∧
      (∀ bar name sc cb, s.SetupDefaultMenus.view_menu ≠ bar →
        (s.SetupDefaultMenus.AddSubTabShortcut bar name sc cb).viewItems = []) ∧
      (∀ bar name sel cb, s.SetupDefaultMenus.view_menu ≠ bar →
        (s.SetupDefaultMenus.AddSubTabChecked bar name sel cb).viewItems = []) ∧
      (∀ bar name sel sc cb, s.SetupDefaultMenus.view_menu ≠ bar →
        (s.SetupDefaultMenus.AddSubTabCheckedShortcut bar name sel sc cb).viewItems = [])) := by
  have hempty := viewItems_SetupDefaultMenus s
  refine ⟨?_, ⟨viewItems_SetupDefaultMenus s, rfl, rfl, ?_⟩, ?_,
    ⟨viewItems_AddTabs_SetupDefaultMenus s, ?_, ?_, ?_, ?_, ?_, ?_⟩⟩
  rotate_left 3
  · intro name
    rw [viewItems_HandlePanelToggle, hempty]
  · intro bar tab name sc hne
    rw [viewItems_AddPanelTab_other _ bar tab name sc hne, hempty]
  · intro bar name cb hne
    cases bar with
    | none => exact hempty
    | some b =>
      exact (viewItems_of_other_bar s.SetupDefaultMenus
        (s.SetupDefaultMenus.AddSubTab (some b) name cb) _ b rfl rfl hne).trans hempty
  · intro bar name sc cb hne
    cases bar with
    | none => exact hempty
    | some b =>
      exact (viewItems_of_other_bar s.SetupDefaultMenus
        (s.SetupDefaultMenus.AddSubTabShortcut (some b) name sc cb) _ b rfl rfl hne).trans hempty
  · intro bar name sel cb hne
    cases bar with
    | none => exact hempty
    | some b =>
      exact (viewItems_of_other_bar s.SetupDefaultMenus
        (s.SetupDefaultMenus.AddSubTabChecked (some b) name sel cb) _ b rfl rfl hne).trans hempty
  · intro bar name sel sc cb hne
    cases bar with
    | none => exact hempty
    | some b =>
      exact (viewItems_of_other_bar s.SetupDefaultMenus
        (s.SetupDefaultMenus.AddSubTabCheckedShortcut (some b) name sel sc cb) _ b rfl rfl hne).trans hempty
  · intro hinit p sc
    simp [AddPanel, hinit, nameOf, IsVisible]
  · intro hne
    rw [viewItems_SetupDefaultMenus]
    show 0 ≠ s.panels.length
    intro h
    exact hne (List.length_eq_zero.mp h.symm)
  · intro op
    have hsync := ViewSynced_apply s.SetupDefaultMenus (Initialized_SetupDefaultMenus s) op
    refine ⟨hsync, ?_⟩
    have := congrArg List.length hsync
    simpa using this

/-- Witness for C21: panels 0 and 2 are registered on a new shell, then the default
menus are set up: the View group is empty with two panels registered, and has
three items after the registration of panel 1 and one item after the removal of
"b". -/
theorem pre_registered_panels_not_mirrored_witness :
    (GUIManager.new sampleHeap []).AddPanel 0 ""
      = { GUIManager.new sampleHeap [] with
          panels := (GUIManager.new sampleHeap []).panels ++ [0]
          panel_visibility_states :=
            (GUIManager.new sampleHeap []).panel_visibility_states.assign
              ((GUIManager.new sampleHeap []).nameOf 0)
              ((GUIManager.new sampleHeap []).IsVisible 0) } ∧
    samplePreRegistered.panels = [0, 2] ∧
    samplePreRegistered.SetupDefaultMenus.viewItems.length = 0 ∧
    samplePreRegistered.SetupDefaultMenus.viewItems.length
      ≠ samplePreRegistered.SetupDefaultMenus.panels.length ∧
    (samplePreRegistered.SetupDefaultMenus.AddPanel 1).viewItems.length = 3 ∧
    (samplePreRegistered.SetupDefaultMenus.RemovePanel "b").viewItems.length = 1 :=
  ⟨(pre_registered_panels_not_mirrored (GUIManager.new sampleHeap [])).1 rfl 0 "",
   by decide, by decide,
   (pre_registered_panels_not_mirrored samplePreRegistered).2.1.2.2.2 (by decide),
   by decide, by decide⟩

end GUIManager

end Pound.GUI
